import Mathlib

/-! Planar unfolding of triangle meshes (`FlattenObject` of `src/main.cpp`).

A shallow embedding of the flattening engine: the `Mesh` record, the
`FlattenObject` constructor (edge registration, adjacency pass with its
assertion, breadth-first flattening), the triangle solver `flattenVertex` and
the overlap predicates `overlap`, `lineCross`, `isInside`.

Conventions of the embedding.

* Scalars are an arbitrary linearly ordered field `α`; the theorems are stated
  over `ℝ` (exact arithmetic, no rounding).
* The three numerical routines the source takes from its libraries (`sqrt`,
  and the two `colPivHouseholderQr().solve` calls) are the fields of a
  `Numerics α` value that every function receives.  Over `ℝ` the square root is
  `Real.sqrt`; a solver is only assumed to be right on invertible systems.
* `Mesh*` pointers are indices into the `meshes` vector.
* `std::map<int, Vector3f>` is a function `Int → Vec3 α`; the program only
  reads keys it has written.
* The index buffer is a list of vertex-id triples, the vertex buffer is its
  column accessor `V.col`.
* The `std::set<Mesh*>` named `flattened` is a list in insertion order;
  `FlattenObject.ctorAt` iterates it in address order instead and is shown to
  give the same result.
-/

set_option linter.unusedSectionVars false

namespace Papercraft

/-! ## Vectors and the numerical library -/

/-- Value of type `Eigen::Vector3f`. -/
@[ext]
structure Vec3 (α : Type) where
  x : α
  y : α
  z : α

/-- Value of type `Eigen::Vector2f`. -/
structure Vec2 (α : Type) where
  x : α
  y : α

/-- Value of type `Eigen::Matrix2f`, row by row. -/
structure Mat2 (α : Type) where
  a00 : α
  a01 : α
  a10 : α
  a11 : α

/-- Value of type `Eigen::Matrix3f`, row by row. -/
structure Mat3 (α : Type) where
  a00 : α
  a01 : α
  a02 : α
  a10 : α
  a11 : α
  a12 : α
  a20 : α
  a21 : α
  a22 : α

/-- The library routines used by the flattening code: `sqrt` and the linear
solves `M.colPivHouseholderQr().solve(R)` for 2x2 and 3x3 systems. -/
structure Numerics (α : Type) where
  sqrt : α → α
  solve2 : Mat2 α → Vec2 α → Vec2 α
  solve3 : Mat3 α → Vec3 α → Vec3 α

section Defs

variable {α : Type} [LinearOrderedField α]

/-- The zero vector (`Eigen::VectorXf::Zero(3)`). -/
def Vec3.zero : Vec3 α := ⟨0, 0, 0⟩

/-- Component-wise sum. -/
def Vec3.add (a b : Vec3 α) : Vec3 α := ⟨a.x + b.x, a.y + b.y, a.z + b.z⟩

/-- Component-wise difference. -/
def Vec3.sub (a b : Vec3 α) : Vec3 α := ⟨a.x - b.x, a.y - b.y, a.z - b.z⟩

/-- Unary minus. -/
def Vec3.neg (a : Vec3 α) : Vec3 α := ⟨-a.x, -a.y, -a.z⟩

/-- Scalar multiple `k * a`. -/
def Vec3.smul (k : α) (a : Vec3 α) : Vec3 α := ⟨k * a.x, k * a.y, k * a.z⟩

/-- Cross product `a.cross(b)`. -/
def Vec3.cross (a b : Vec3 α) : Vec3 α :=
  ⟨a.y * b.z - a.z * b.y, a.z * b.x - a.x * b.z, a.x * b.y - a.y * b.x⟩

/-- Scalar product, used to state the geometry of the solver. -/
def Vec3.dot (a b : Vec3 α) : α := a.x * b.x + a.y * b.y + a.z * b.z

/-- Squared Euclidean norm `a.squaredNorm()`. -/
def Vec3.squaredNorm (a : Vec3 α) : α := a.x * a.x + a.y * a.y + a.z * a.z

/-- Euclidean norm `a.norm()`, the square root of the squared norm. -/
def Vec3.norm (N : Numerics α) (a : Vec3 α) : α := N.sqrt a.squaredNorm

/-- Unit vector `a.normalized()`: the vector divided by its norm, and the
vector itself when its squared norm is not positive. -/
def Vec3.normalized (N : Numerics α) (a : Vec3 α) : Vec3 α :=
  if 0 < a.squaredNorm then Vec3.smul (1 / N.sqrt a.squaredNorm) a else a

/-- Determinant of a 2x2 matrix. -/
def Mat2.det (M : Mat2 α) : α := M.a00 * M.a11 - M.a01 * M.a10

/-- Matrix-vector product of a 2x2 matrix. -/
def Mat2.mulVec (M : Mat2 α) (v : Vec2 α) : Vec2 α :=
  ⟨M.a00 * v.x + M.a01 * v.y, M.a10 * v.x + M.a11 * v.y⟩

/-- Determinant of a 3x3 matrix. -/
def Mat3.det (M : Mat3 α) : α :=
  M.a00 * (M.a11 * M.a22 - M.a12 * M.a21) - M.a01 * (M.a10 * M.a22 - M.a12 * M.a20)
    + M.a02 * (M.a10 * M.a21 - M.a11 * M.a20)

/-- Matrix-vector product of a 3x3 matrix. -/
def Mat3.mulVec (M : Mat3 α) (v : Vec3 α) : Vec3 α :=
  ⟨M.a00 * v.x + M.a01 * v.y + M.a02 * v.z,
   M.a10 * v.x + M.a11 * v.y + M.a12 * v.z,
   M.a20 * v.x + M.a21 * v.y + M.a22 * v.z⟩

/-- Exact solution of a 2x2 system by Cramer's rule. -/
def cramer2 (M : Mat2 α) (R : Vec2 α) : Vec2 α :=
  ⟨(R.x * M.a11 - M.a01 * R.y) / M.det, (M.a00 * R.y - R.x * M.a10) / M.det⟩

/-- Exact solution of a 3x3 system by Cramer's rule. -/
def cramer3 (M : Mat3 α) (R : Vec3 α) : Vec3 α :=
  ⟨(Mat3.det ⟨R.x, M.a01, M.a02, R.y, M.a11, M.a12, R.z, M.a21, M.a22⟩) / M.det,
   (Mat3.det ⟨M.a00, R.x, M.a02, M.a10, R.y, M.a12, M.a20, R.z, M.a22⟩) / M.det,
   (Mat3.det ⟨M.a00, M.a01, R.x, M.a10, M.a11, R.y, M.a20, M.a21, R.z⟩) / M.det⟩

/-- The exact numerical library over a field with a square root: the given
square root and Cramer's rule for both solves. -/
def exactNumerics (sqrt : α → α) : Numerics α := ⟨sqrt, cramer2, cramer3⟩

/-- The fields of `class Mesh` that the flattening code uses.  `nebMeshes`
holds pairs of a neighbour (its index in `meshes`) and the shared edge key. -/
structure Mesh (α : Type) where
  id : Nat
  vids : List Int
  vid2v : Int → Vec3 α
  vid2fv : Int → Vec3 α
  nebMeshes : List (Nat × (Int × Int))

/-- Map assignment `m[k] = v`. -/
def assign (m : Int → Vec3 α) (k : Int) (v : Vec3 α) : Int → Vec3 α :=
  fun j => if j = k then v else m j

/-- Constructor `Mesh(id, V, v1, v2, v3)`: the 3D positions are the columns of
`V`, the flat positions start at zero, there are no neighbours yet. -/
def Mesh.mk3 (id : Nat) (V : Int → Vec3 α) (v1 v2 v3 : Int) : Mesh α :=
  { id := id
    vids := [v1, v2, v3]
    vid2v := assign (assign (assign (fun _ => Vec3.zero) v1 (V v1)) v2 (V v2)) v3 (V v3)
    vid2fv := assign (assign (assign (fun _ => Vec3.zero) v1 Vec3.zero) v2 Vec3.zero) v3 Vec3.zero
    nebMeshes := [] }

/-- Element access `mesh->vids[i]`. -/
def Mesh.vid (m : Mesh α) (i : Nat) : Int := m.vids.getD i 0

instance : Inhabited (Mesh α) := ⟨⟨0, [], fun _ => Vec3.zero, fun _ => Vec3.zero, []⟩⟩

/-- Dereference of a `Mesh*`: the mesh stored at an index. -/
def deref (meshes : List (Mesh α)) (p : Nat) : Mesh α := meshes.getD p default

/-! ## Overlap predicates -/

/-- Source `lineCross(a, b, c, d)`: false for parallel directions, otherwise
both parameters of the intersection lie strictly between 0 and 1. -/
def lineCross (N : Numerics α) (a b c d : Vec3 α) : Bool :=
  let AB := Vec3.sub b a
  let CD := Vec3.sub d c
  if Vec3.norm N (Vec3.cross AB CD) = 0 then false
  else
    let M : Mat2 α := ⟨a.x - b.x, d.x - c.x, a.y - b.y, d.y - c.y⟩
    let R : Vec2 α := ⟨d.x - b.x, d.y - b.y⟩
    let x := N.solve2 M R
    decide (x.x > 0) && decide (x.x < 1) && decide (x.y > 0) && decide (x.y < 1)

/-- Source `lineCross(a, b, mesh)`: the segment crosses one of the three flat
edges of the mesh. -/
def lineCrossMesh (N : Numerics α) (a b : Vec3 α) (mesh : Mesh α) : Bool :=
  let ov1 := mesh.vid 0
  let ov2 := mesh.vid 1
  let ov3 := mesh.vid 2
  if lineCross N a b (mesh.vid2fv ov1) (mesh.vid2fv ov2) then true
  else if lineCross N a b (mesh.vid2fv ov2) (mesh.vid2fv ov3) then true
  else if lineCross N a b (mesh.vid2fv ov1) (mesh.vid2fv ov3) then true
  else false

/-- Source `isInside(flatPos, mesh)`: the barycentric weights of the point with
respect to the flat triangle are all non-negative. -/
def isInside (N : Numerics α) (flatPos : Vec3 α) (mesh : Mesh α) : Bool :=
  let v1 := mesh.vid 0
  let v2 := mesh.vid 1
  let v3 := mesh.vid 2
  let a := mesh.vid2fv v1
  let b := mesh.vid2fv v2
  let c := mesh.vid2fv v3
  let M : Mat3 α := ⟨a.x, b.x, c.x, a.y, b.y, c.y, 1, 1, 1⟩
  let R : Vec3 α := ⟨flatPos.x, flatPos.y, 1⟩
  let x := N.solve3 M R
  decide (x.x ≥ 0) && decide (x.y ≥ 0) && decide (x.z ≥ 0)

/-- Source `overlap(flatPos, fv1Pos, fv2Pos, flattened)`: some flattened mesh
contains the point or has an edge crossed by one of the two new edges. -/
def overlap (N : Numerics α) (meshes : List (Mesh α)) (flatPos fv1Pos fv2Pos : Vec3 α)
    (flattened : List Nat) : Bool :=
  flattened.any fun p =>
    let mesh := deref meshes p
    isInside N flatPos mesh || lineCrossMesh N flatPos fv1Pos mesh
      || lineCrossMesh N flatPos fv2Pos mesh

/-! ## The triangle solver -/

/-- The two candidates `(flat1, flat2)` computed by `flattenVertex` from the 3D
positions of the triangle and the flat positions of its first two vertices. -/
def flatCandidates (N : Numerics α) (v1Pos v2Pos v3Pos fv1Pos fv2Pos : Vec3 α) :
    Vec3 α × Vec3 α :=
  let v1v2Len := Vec3.norm N (Vec3.sub v2Pos v1Pos)
  let v1v3Len := Vec3.norm N (Vec3.sub v3Pos v1Pos)
  let v2v3Len := Vec3.norm N (Vec3.sub v3Pos v2Pos)
  let S := Vec3.norm N (Vec3.cross (Vec3.sub v2Pos v1Pos) (Vec3.sub v3Pos v1Pos)) / 2
  let h := 2 * S / v1v2Len
  let b := N.sqrt (v1v3Len * v1v3Len - h * h)
  let c := N.sqrt (v2v3Len * v2v3Len - h * h)
  let b := if c > v1v2Len ∧ c > b then -b else b
  let fH := Vec3.add (Vec3.smul ((v1v2Len - b) / v1v2Len) fv1Pos) (Vec3.smul (b / v1v2Len) fv2Pos)
  let fv1v2 := Vec3.sub fv2Pos fv1Pos
  let flatDir := Vec3.normalized N ⟨-fv1v2.y, fv1v2.x, 0⟩
  (Vec3.add fH (Vec3.smul h flatDir), Vec3.add fH (Vec3.smul h (Vec3.neg flatDir)))

/-- Source `flattenVertex`: the first candidate that does not overlap the
flattened set, `none` when the source returns false. -/
def flattenVertex (N : Numerics α) (meshes : List (Mesh α)) (mesh : Mesh α) (v3 v1 v2 : Int)
    (fv1Pos fv2Pos : Vec3 α) (flattened : List Nat) : Option (Vec3 α) :=
  let flat := flatCandidates N (mesh.vid2v v1) (mesh.vid2v v2) (mesh.vid2v v3) fv1Pos fv2Pos
  if !overlap N meshes flat.1 fv1Pos fv2Pos flattened then some flat.1
  else if !overlap N meshes flat.2 fv1Pos fv2Pos flattened then some flat.2
  else none

/-- Assignment `mesh->vid2fv[k] = v` through a mesh pointer. -/
def setFlat (meshes : List (Mesh α)) (p : Nat) (k : Int) (v : Vec3 α) : List (Mesh α) :=
  meshes.set p { deref meshes p with vid2fv := assign (deref meshes p).vid2fv k v }

/-- Source `flattenMesh(preMesh, mesh, edge, flattened)`.  The result is `none`
when no vertex of `mesh` differs from both ends of the edge (the source then
reads `v3` uninitialised); otherwise the returned flag and the mesh store. -/
def flattenMesh (N : Numerics α) (meshes : List (Mesh α)) (preMesh mesh : Nat)
    (edge : Int × Int) (flattened : List Nat) : Option (Bool × List (Mesh α)) :=
  let fv1 := edge.1
  let fv2 := edge.2
  match (deref meshes mesh).vids.find? (fun vid => vid != fv1 && vid != fv2) with
  | none => none
  | some v3 =>
    match flattenVertex N meshes (deref meshes mesh) v3 fv1 fv2
        ((deref meshes preMesh).vid2fv fv1) ((deref meshes preMesh).vid2fv fv2) flattened with
    | none => some (false, meshes)
    | some fv3Pos =>
      let ms1 := setFlat meshes mesh fv1 ((deref meshes preMesh).vid2fv fv1)
      let ms2 := setFlat ms1 mesh fv2 ((deref ms1 preMesh).vid2fv fv2)
      some (true, setFlat ms2 mesh v3 fv3Pos)

/-- Source `flattenFirst(mesh, flatten)`: the returned flag and the mesh store. -/
def flattenFirst (N : Numerics α) (meshes : List (Mesh α)) (mesh : Nat) (flatten : List Nat) :
    Bool × List (Mesh α) :=
  let v1 := (deref meshes mesh).vid 0
  let v2 := (deref meshes mesh).vid 1
  let v3 := (deref meshes mesh).vid 2
  let v1v2Len := Vec3.norm N (Vec3.sub ((deref meshes mesh).vid2v v1) ((deref meshes mesh).vid2v v2))
  let ms1 := setFlat meshes mesh v1 ⟨0, 0, 0⟩
  let ms2 := setFlat ms1 mesh v2 ⟨0, v1v2Len, 0⟩
  match flattenVertex N ms2 (deref ms2 mesh) v3 v1 v2 ((deref ms2 mesh).vid2fv v1)
      ((deref ms2 mesh).vid2fv v2) flatten with
  | none => (false, ms2)
  | some flatPos => (true, setFlat ms2 mesh v3 flatPos)

/-! ## Graph construction -/

/-- The members of `class FlattenObject` that the constructor fills in. -/
structure FlattenObject (α : Type) where
  meshes : List (Mesh α)
  edge2meshes : Int × Int → List Nat
  edge2weight : Int × Int → Option α
  V : Int → Vec3 α

/-- The edge key `v1 < v2 ? (v1, v2) : (v2, v1)`. -/
def edgeKey (v1 v2 : Int) : Int × Int := if v1 < v2 then (v1, v2) else (v2, v1)

/-- Source `addEdge(v1, v2, mesh)`. -/
def addEdge (N : Numerics α) (obj : FlattenObject α) (v1 v2 : Int) (mesh : Nat) :
    FlattenObject α :=
  let edge := edgeKey v1 v2
  { obj with
    edge2meshes := fun e => if e = edge then obj.edge2meshes edge ++ [mesh] else obj.edge2meshes e
    edge2weight :=
      if (obj.edge2weight edge).isNone then
        fun e => if e = edge then some (Vec3.norm N (Vec3.sub (obj.V v1) (obj.V v2)))
          else obj.edge2weight e
      else obj.edge2weight }

/-- Source `addNebMeshes(v1, v2, mesh)`: every other mesh registered on the
edge is appended to the neighbour list of `mesh`, tagged with the edge key. -/
def addNebMeshes (obj : FlattenObject α) (v1 v2 : Int) (mesh : Nat) : FlattenObject α :=
  let edge := edgeKey v1 v2
  let found := ((obj.edge2meshes edge).filter (fun nebMesh => nebMesh != mesh)).map
    (fun nebMesh => (nebMesh, edge))
  { obj with
    meshes := obj.meshes.set mesh
      { deref obj.meshes mesh with nebMeshes := (deref obj.meshes mesh).nebMeshes ++ found } }

/-- The registration loop of the constructor: one new mesh and three edges per
triple of the index buffer. -/
def registerTriangles (N : Numerics α) :
    List (Int × Int × Int) → FlattenObject α → FlattenObject α
  | [], obj => obj
  | (v1, v2, v3) :: rest, obj =>
    let newMesh := obj.meshes.length
    let obj1 : FlattenObject α :=
      { obj with meshes := obj.meshes ++ [Mesh.mk3 obj.meshes.length obj.V v1 v2 v3] }
    registerTriangles N rest
      (addEdge N (addEdge N (addEdge N obj1 v1 v2 newMesh) v2 v3 newMesh) v1 v3 newMesh)

/-- The adjacency loop of the constructor over the given mesh pointers; `none`
when `assert(mesh->nebMeshes.size() == 3)` fails. -/
def adjacencyPass : List Nat → FlattenObject α → Option (FlattenObject α)
  | [], obj => some obj
  | mesh :: rest, obj =>
    let v1 := (deref obj.meshes mesh).vid 0
    let v2 := (deref obj.meshes mesh).vid 1
    let v3 := (deref obj.meshes mesh).vid 2
    let obj3 := addNebMeshes (addNebMeshes (addNebMeshes obj v1 v2 mesh) v2 v3 mesh) v1 v3 mesh
    if (deref obj3.meshes mesh).nebMeshes.length = 3 then adjacencyPass rest obj3 else none

/-- Graph construction, the first half of the constructor: registration of the
index buffer, then the adjacency pass.  `none` is the failed assertion. -/
def buildGraph (N : Numerics α) (V : Int → Vec3 α) (IDX : List (Int × Int × Int)) :
    Option (FlattenObject α) :=
  let obj := registerTriangles N IDX ⟨[], fun _ => [], fun _ => none, V⟩
  adjacencyPass (List.range obj.meshes.length) obj

/-! ## Breadth-first flattening -/

/-- The mesh store together with the locals `flattened` and `q` of the
constructor.  `flattened` lists the set in insertion order. -/
structure Bfs (α : Type) where
  meshes : List (Mesh α)
  flattened : List Nat
  q : List Nat

/-- The inner `for` loop of the traversal over the neighbour list of the mesh
`curMesh`; `none` when `flattenMesh` reads an uninitialised `v3`. -/
def visitNeighbours (N : Numerics α) (curMesh : Nat) :
    List (Nat × (Int × Int)) → Bfs α → Option (Bfs α)
  | [], st => some st
  | (nebMesh, edge) :: rest, st =>
    if nebMesh ∈ st.flattened then visitNeighbours N curMesh rest st
    else
      match flattenMesh N st.meshes curMesh nebMesh edge st.flattened with
      | none => none
      | some (true, ms) =>
        visitNeighbours N curMesh rest
          { meshes := ms, flattened := st.flattened ++ [nebMesh], q := st.q ++ [nebMesh] }
      | some (false, _) => visitNeighbours N curMesh rest st

/-- The `while (!q.empty())` loop, with a bound on the number of iterations;
`none` when the bound is reached with a non-empty queue or `flattenMesh` reads
an uninitialised `v3`. -/
def bfs (N : Numerics α) : Nat → Bfs α → Option (Bfs α)
  | 0, st => if st.q.isEmpty then some st else none
  | fuel + 1, st =>
    match st.q with
    | [] => some st
    | curMesh :: rest =>
      match visitNeighbours N curMesh (deref st.meshes curMesh).nebMeshes
          { st with q := rest } with
      | none => none
      | some st1 => bfs N fuel st1

/-- The traversal state is well formed: the flattened list has no repetition
and holds valid mesh indices, and every listed neighbour is a valid index. -/
def Bfs.WellFormed (st : Bfs α) : Prop :=
  st.flattened.Nodup ∧ (∀ p ∈ st.flattened, p < st.meshes.length) ∧
    ∀ (p nb : Nat) (e : Int × Int), (nb, e) ∈ (deref st.meshes p).nebMeshes →
      nb < st.meshes.length

/-- The flattening half of the constructor on a built graph: seed `meshes[0]`
(`none` when there is no mesh), then traverse.  One iteration per mesh is
enough, see `bfs_enough_fuel`. -/
def flattenAll (N : Numerics α) (meshes : List (Mesh α)) : Option (Bfs α) :=
  if meshes.isEmpty then none
  else
    let ms := (flattenFirst N meshes 0 []).2
    bfs N ms.length { meshes := ms, flattened := [0], q := [0] }

/-- The constructor `FlattenObject(V, IDX)`: graph construction followed by the
flattening traversal.  The result holds the mesh store and the final value of
the local `flattened`. -/
def FlattenObject.ctor (N : Numerics α) (V : Int → Vec3 α) (IDX : List (Int × Int × Int)) :
    Option (Bfs α) :=
  match buildGraph N V IDX with
  | none => none
  | some obj => flattenAll N obj.meshes

/-! ## The overlap test on explicit triangles -/

/-- The test of `isInside` on the three flat corners of a mesh. -/
def isInsideTri (N : Numerics α) (flatPos a b c : Vec3 α) : Bool :=
  let M : Mat3 α := ⟨a.x, b.x, c.x, a.y, b.y, c.y, 1, 1, 1⟩
  let R : Vec3 α := ⟨flatPos.x, flatPos.y, 1⟩
  let x := N.solve3 M R
  decide (x.x ≥ 0) && decide (x.y ≥ 0) && decide (x.z ≥ 0)

/-- The body of the loop of `overlap` for one flattened triangle with flat
corners `a, b, c`. -/
def overlapTri (N : Numerics α) (flatPos fv1Pos fv2Pos a b c : Vec3 α) : Bool :=
  isInsideTri N flatPos a b c
    || (lineCross N flatPos fv1Pos a b || lineCross N flatPos fv1Pos b c
      || lineCross N flatPos fv1Pos a c)
    || (lineCross N flatPos fv2Pos a b || lineCross N flatPos fv2Pos b c
      || lineCross N flatPos fv2Pos a c)

/-- The three flat corners of a mesh, in the order of `vids`. -/
def Mesh.corners (m : Mesh α) : Vec3 α × Vec3 α × Vec3 α :=
  (m.vid2fv (m.vid 0), m.vid2fv (m.vid 1), m.vid2fv (m.vid 2))

/-- Source `Mesh::getFlatV`, the matrix `fV` that `updateVBOP` hands to the
vertex buffer of the mesh: the flat positions of its three vertices. -/
def Mesh.getFlatV (m : Mesh α) : Vec3 α × Vec3 α × Vec3 α :=
  (m.vid2fv (m.vid 0), m.vid2fv (m.vid 1), m.vid2fv (m.vid 2))

/-- The last loop of the constructor, `for (auto mesh: meshes)
mesh->updateVBOP()`: the vertex buffers written, one for every mesh. -/
def updateAll (meshes : List (Mesh α)) : List (Vec3 α × Vec3 α × Vec3 α) :=
  meshes.map Mesh.getFlatV

/-- The store after the three assignments that place a mesh. -/
def placed (ms : List (Mesh α)) (n : Nat) (a b c : Int) (pa pb pc : Vec3 α) : List (Mesh α) :=
  setFlat (setFlat (setFlat ms n a pa) n b pb) n c pc

/-- Two stores have the same shape: the same length and, mesh by mesh, the same
vertex ids, 3D positions and neighbour lists; only flat positions may differ. -/
def SameShape (ms ms' : List (Mesh α)) : Prop :=
  ms'.length = ms.length ∧
    ∀ p, (deref ms' p).vids = (deref ms p).vids ∧ (deref ms' p).vid2v = (deref ms p).vid2v ∧
      (deref ms' p).nebMeshes = (deref ms p).nebMeshes

/-- The three edges of a triangle of the index buffer, as the constructor
registers them: `(v1, v2)`, `(v2, v3)`, `(v1, v3)`. -/
def edgesOf (t : Int × Int × Int) : List (Int × Int) :=
  [(t.1, t.2.1), (t.2.1, t.2.2), (t.1, t.2.2)]

/-- The edge key `e` is the key of one of the three edges of the triangle. -/
def IsEdgeKey (e : Int × Int) (t : Int × Int × Int) : Prop :=
  e = edgeKey t.1 t.2.1 ∨ e = edgeKey t.2.1 t.2.2 ∨ e = edgeKey t.1 t.2.2

/-- Every edge of every triangle of the index buffer has positive 3D length. -/
def PositiveEdges (N : Numerics α) (V : Int → Vec3 α) (IDX : List (Int × Int × Int)) : Prop :=
  ∀ t ∈ IDX, ∀ xy ∈ edgesOf t, 0 < Vec3.norm N (Vec3.sub (V xy.1) (V xy.2))

/-- A mesh is laid out isometrically: the flat positions of its vertices lie in
the plane `z = 0` and every squared flat distance between two of its vertices
equals the squared 3D distance. -/
def Isometric (m : Mesh α) : Prop :=
  (∀ u ∈ m.vids, (m.vid2fv u).z = 0) ∧
    ∀ u ∈ m.vids, ∀ w ∈ m.vids,
      (Vec3.sub (m.vid2fv u) (m.vid2fv w)).squaredNorm
        = (Vec3.sub (m.vid2v u) (m.vid2v w)).squaredNorm

/-- The point lies strictly inside the planar triangle `a b c`: it is a
combination of the corners with positive weights of sum 1. -/
def InInterior (p a b c : Vec3 α) : Prop :=
  ∃ x0 x1 x2 : α, 0 < x0 ∧ 0 < x1 ∧ 0 < x2 ∧ x0 + x1 + x2 = 1 ∧
    p.x = x0 * a.x + x1 * b.x + x2 * c.x ∧ p.y = x0 * a.y + x1 * b.y + x2 * c.y

/-- The interiors of the flat triangles of two meshes intersect. -/
def InteriorsMeet (m1 m2 : Mesh α) : Prop :=
  ∃ p : Vec3 α, InInterior p m1.corners.1 m1.corners.2.1 m1.corners.2.2 ∧
    InInterior p m2.corners.1 m2.corners.2.1 m2.corners.2.2

/-- The triangle has the edge with key `e`. -/
def hasEdge (t : Int × Int × Int) (e : Int × Int) : Bool :=
  decide (e = edgeKey t.1 t.2.1) || decide (e = edgeKey t.2.1 t.2.2)
    || decide (e = edgeKey t.1 t.2.2)

/-- The number of triangles of the index buffer incident to the edge with key
`e` (an unordered vertex pair, written smaller id first). -/
def incidentTriangles (IDX : List (Int × Int × Int)) (e : Int × Int) : Nat :=
  (IDX.filter (fun t => hasEdge t e)).length

/-- The three vertex ids of the triangle are pairwise distinct. -/
def DistinctIds (t : Int × Int × Int) : Prop := t.1 ≠ t.2.1 ∧ t.2.1 ≠ t.2.2 ∧ t.1 ≠ t.2.2

/-- The number of triangles of the index buffer, the first with index `k`, that
are incident to the edge `e` and have an index other than `p`. -/
def othersCount (k : Nat) : List (Int × Int × Int) → Int × Int → Nat → Nat
  | [], _, _ => 0
  | t :: rest, e, p =>
    (if hasEdge t e = true ∧ k ≠ p then 1 else 0) + othersCount (k + 1) rest e p

/-- The entries pushed on the edge key `e` by the triangle with index `k`. -/
def pushedBy (k : Nat) (t : Int × Int × Int) (e : Int × Int) : List Nat :=
  (if e = edgeKey t.1 t.2.1 then [k] else []) ++ (if e = edgeKey t.2.1 t.2.2 then [k] else [])
    ++ (if e = edgeKey t.1 t.2.2 then [k] else [])

/-! ## Closed descriptions of the graph, used to state and prove the theorems -/

/-- The meshes created by the registration loop, the first one with the given
index. -/
def meshesFrom (start : Nat) (V : Int → Vec3 α) : List (Int × Int × Int) → List (Mesh α)
  | [] => []
  | (v1, v2, v3) :: rest => Mesh.mk3 start V v1 v2 v3 :: meshesFrom (start + 1) V rest

/-- The meshes pushed on an edge key by the registration loop, in registration
order: one entry for every edge of every triangle that has this key. -/
def incidentFrom (start : Nat) : List (Int × Int × Int) → Int × Int → List Nat
  | [], _ => []
  | (v1, v2, v3) :: rest, e =>
    (if e = edgeKey v1 v2 then [start] else []) ++ (if e = edgeKey v2 v3 then [start] else [])
      ++ (if e = edgeKey v1 v3 then [start] else []) ++ incidentFrom (start + 1) rest e

/-- The entries that one call of `addNebMeshes(v1, v2, mesh)` appends. -/
def foundOn (e2m : Int × Int → List Nat) (mesh : Nat) (v1 v2 : Int) : List (Nat × (Int × Int)) :=
  ((e2m (edgeKey v1 v2)).filter (fun nebMesh => nebMesh != mesh)).map
    (fun nebMesh => (nebMesh, edgeKey v1 v2))

/-- The neighbour list of a triangle after the three calls of `addNebMeshes`. -/
def nebsOf (e2m : Int × Int → List Nat) (mesh : Nat) (v1 v2 v3 : Int) :
    List (Nat × (Int × Int)) :=
  foundOn e2m mesh v1 v2 ++ foundOn e2m mesh v2 v3 ++ foundOn e2m mesh v1 v3

/-- A mesh with further entries appended to its neighbour list. -/
def Mesh.addNebs (m : Mesh α) (l : List (Nat × (Int × Int))) : Mesh α :=
  { m with nebMeshes := m.nebMeshes ++ l }

/-- The adjacency pass on a list of consecutive meshes, the first with the
given index: neighbour lists are filled in, `none` when one does not have
exactly three entries. -/
def nebPass (e2m : Int × Int → List Nat) : Nat → List (Mesh α) → Option (List (Mesh α))
  | _, [] => some []
  | k, m :: rest =>
    if (m.addNebs (nebsOf e2m k (m.vid 0) (m.vid 1) (m.vid 2))).nebMeshes.length = 3 then
      (nebPass e2m (k + 1) rest).map
        (fun r => m.addNebs (nebsOf e2m k (m.vid 0) (m.vid 1) (m.vid 2)) :: r)
    else none

/-! ## The neighbour lists and the edge map as the specification words them -/

/-- The triangles of the index buffer that have the edge `e`, by index and in
registration order, the first triangle having the index `k`. -/
def trianglesOn (k : Nat) : List (Int × Int × Int) → Int × Int → List Nat
  | [], _ => []
  | t :: rest, e => (if hasEdge t e = true then [k] else []) ++ trianglesOn (k + 1) rest e

/-- The neighbour entries across the edge `(x, y)` in the words of the
specification: every triangle other than `p` that has the edge, in registration
order, each paired with the key `(min id, max id)`. -/
def specNebsOn (IDX : List (Int × Int × Int)) (p : Nat) (x y : Int) : List (Nat × (Int × Int)) :=
  ((trianglesOn 0 IDX (min x y, max x y)).filter (fun i => decide (i ≠ p))).map
    (fun i => (i, (min x y, max x y)))

/-- The neighbour list of the triangle `p = (v1, v2, v3)` in the words of the
specification: the entries across `(v1, v2)`, then `(v2, v3)`, then `(v1, v3)`. -/
def specNebs (IDX : List (Int × Int × Int)) (p : Nat) (t : Int × Int × Int) :
    List (Nat × (Int × Int)) :=
  specNebsOn IDX p t.1 t.2.1 ++ specNebsOn IDX p t.2.1 t.2.2 ++ specNebsOn IDX p t.1 t.2.2

/-- The state before the registration loop: no mesh, empty maps. -/
def FlattenObject.init (V : Int → Vec3 α) : FlattenObject α :=
  ⟨[], fun _ => [], fun _ => none, V⟩

/-! ## Points of the plane -/

/-- The four points lie in the plane `z = 0`. -/
def Planar4 (a b c d : Vec3 α) : Prop := a.z = 0 ∧ b.z = 0 ∧ c.z = 0 ∧ d.z = 0

/-! ## The traversal with the iteration order of `std::set<Mesh*>` made explicit -/

/-- Iteration order of the `std::set<Mesh*>` named `flattened`: its members
sorted by the address `addr` of the mesh object. -/
def setOrder (addr : Nat → Nat) (s : List Nat) : List Nat :=
  s.insertionSort (fun i j => addr i ≤ addr j)

/-- The inner loop of the traversal when mesh `i` lives at address `addr i`:
`overlap` scans the flattened set in address order. -/
def visitNeighboursAt (addr : Nat → Nat) (N : Numerics α) (curMesh : Nat) :
    List (Nat × (Int × Int)) → Bfs α → Option (Bfs α)
  | [], st => some st
  | (nebMesh, edge) :: rest, st =>
    if nebMesh ∈ st.flattened then visitNeighboursAt addr N curMesh rest st
    else
      match flattenMesh N st.meshes curMesh nebMesh edge (setOrder addr st.flattened) with
      | none => none
      | some (true, ms) =>
        visitNeighboursAt addr N curMesh rest
          { meshes := ms, flattened := st.flattened ++ [nebMesh], q := st.q ++ [nebMesh] }
      | some (false, _) => visitNeighboursAt addr N curMesh rest st

/-- The `while` loop of the traversal when mesh `i` lives at address `addr i`. -/
def bfsAt (addr : Nat → Nat) (N : Numerics α) : Nat → Bfs α → Option (Bfs α)
  | 0, st => if st.q.isEmpty then some st else none
  | fuel + 1, st =>
    match st.q with
    | [] => some st
    | curMesh :: rest =>
      match visitNeighboursAt addr N curMesh (deref st.meshes curMesh).nebMeshes
          { st with q := rest } with
      | none => none
      | some st1 => bfsAt addr N fuel st1

/-- The constructor when mesh `i` lives at address `addr i`. -/
def FlattenObject.ctorAt (addr : Nat → Nat) (N : Numerics α) (V : Int → Vec3 α)
    (IDX : List (Int × Int × Int)) : Option (Bfs α) :=
  match buildGraph N V IDX with
  | none => none
  | some obj =>
    if obj.meshes.isEmpty then none
    else
      let ms := (flattenFirst N obj.meshes 0 (setOrder addr [])).2
      bfsAt addr N ms.length { meshes := ms, flattened := [0], q := [0] }

/-! ## The parts of the triangle solver, and the solver as the specification words it -/

/-- The local `h = 2*S / v1v2Len` of `flattenVertex`, with
`S = (v2Pos-v1Pos).cross(v3Pos-v1Pos).norm()/2`. -/
def solverH (N : Numerics α) (v1Pos v2Pos v3Pos : Vec3 α) : α :=
  2 * (Vec3.norm N (Vec3.cross (Vec3.sub v2Pos v1Pos) (Vec3.sub v3Pos v1Pos)) / 2)
    / Vec3.norm N (Vec3.sub v2Pos v1Pos)

/-- The radicand `v1v3Len*v1v3Len - h*h` of the local `b`. -/
def radicandB (N : Numerics α) (v1Pos v2Pos v3Pos : Vec3 α) : α :=
  Vec3.norm N (Vec3.sub v3Pos v1Pos) * Vec3.norm N (Vec3.sub v3Pos v1Pos)
    - solverH N v1Pos v2Pos v3Pos * solverH N v1Pos v2Pos v3Pos

/-- The radicand `v2v3Len*v2v3Len - h*h` of the local `c`. -/
def radicandC (N : Numerics α) (v1Pos v2Pos v3Pos : Vec3 α) : α :=
  Vec3.norm N (Vec3.sub v3Pos v2Pos) * Vec3.norm N (Vec3.sub v3Pos v2Pos)
    - solverH N v1Pos v2Pos v3Pos * solverH N v1Pos v2Pos v3Pos

/-- The local `b = sqrt(v1v3Len*v1v3Len - h*h)` before the sign test. -/
def solverB0 (N : Numerics α) (v1Pos v2Pos v3Pos : Vec3 α) : α :=
  N.sqrt (radicandB N v1Pos v2Pos v3Pos)

/-- The local `c = sqrt(v2v3Len*v2v3Len - h*h)`. -/
def solverC (N : Numerics α) (v1Pos v2Pos v3Pos : Vec3 α) : α :=
  N.sqrt (radicandC N v1Pos v2Pos v3Pos)

/-- The test `c > v1v2Len && c > b` of `flattenVertex`. -/
def solverNegates (N : Numerics α) (v1Pos v2Pos v3Pos : Vec3 α) : Prop :=
  solverC N v1Pos v2Pos v3Pos > Vec3.norm N (Vec3.sub v2Pos v1Pos) ∧
    solverC N v1Pos v2Pos v3Pos > solverB0 N v1Pos v2Pos v3Pos

instance (N : Numerics α) (v1Pos v2Pos v3Pos : Vec3 α) :
    Decidable (solverNegates N v1Pos v2Pos v3Pos) := by
  unfold solverNegates
  exact inferInstance

/-- The local `b` after `if (c > v1v2Len && c > b) b = -b`. -/
def solverB (N : Numerics α) (v1Pos v2Pos v3Pos : Vec3 α) : α :=
  if solverNegates N v1Pos v2Pos v3Pos then -solverB0 N v1Pos v2Pos v3Pos
  else solverB0 N v1Pos v2Pos v3Pos

/-- The local `fH = ((v1v2Len-b)/v1v2Len)*fv1Pos + (b/v1v2Len)*fv2Pos`. -/
def solverFoot (N : Numerics α) (v1Pos v2Pos v3Pos fv1Pos fv2Pos : Vec3 α) : Vec3 α :=
  Vec3.add
    (Vec3.smul ((Vec3.norm N (Vec3.sub v2Pos v1Pos) - solverB N v1Pos v2Pos v3Pos)
      / Vec3.norm N (Vec3.sub v2Pos v1Pos)) fv1Pos)
    (Vec3.smul (solverB N v1Pos v2Pos v3Pos / Vec3.norm N (Vec3.sub v2Pos v1Pos)) fv2Pos)

/-- The local `flatDir = Vector3f(-fv1v2.y(), fv1v2.x(), 0.).normalized()`. -/
def solverDir (N : Numerics α) (fv1Pos fv2Pos : Vec3 α) : Vec3 α :=
  Vec3.normalized N ⟨-(Vec3.sub fv2Pos fv1Pos).y, (Vec3.sub fv2Pos fv1Pos).x, 0⟩

/-- Four triangles around the common edge (0,1), like the pages of a book. -/
def bookIDX : List (Int × Int × Int) := [(0, 1, 2), (0, 1, 3), (0, 1, 4), (0, 1, 5)]

/-- Vertex buffer of the book: the spine on the y axis, one page in each of
four directions around it. -/
def bookV : Int → Vec3 α := fun k =>
  if k = 0 then ⟨0, 0, 0⟩ else if k = 1 then ⟨0, 2, 0⟩ else if k = 2 then ⟨1, 1, 0⟩
  else if k = 3 then ⟨-1, 1, 0⟩ else if k = 4 then ⟨0, 1, 1⟩ else ⟨0, 1, -1⟩

/-- A single triangle. -/
def oneIDX : List (Int × Int × Int) := [(0, 1, 2)]

/-- Vertex buffer of a right triangle with sides 3, 4 and 5: `|v0v1| = 3`,
`|v0v2| = 4`, `|v1v2| = 5`. -/
def rightV : Int → Vec3 α := fun k =>
  if k = 0 then ⟨0, 0, 0⟩ else if k = 1 then ⟨3, 0, 0⟩ else ⟨0, 4, 0⟩

/-- A store that holds the right triangle alone. -/
def rightMeshes : List (Mesh α) := [Mesh.mk3 0 rightV 0 1 2]

/-- Five triangles around the common edge (0,1). -/
def fiveIDX : List (Int × Int × Int) := [(0, 1, 2), (0, 1, 3), (0, 1, 4), (0, 1, 5), (0, 1, 6)]

/-- Two triangles that share the edge (0,2). -/
def quadIDX : List (Int × Int × Int) := [(0, 1, 2), (0, 2, 3)]

/-- A mesh laid out on the flat triangle `(0,0), (4,0), (0,4)`. -/
def flatMesh : Mesh α :=
  ⟨0, [0, 1, 2], fun _ => Vec3.zero,
    fun k => if k = 0 then ⟨0, 0, 0⟩ else if k = 1 then ⟨4, 0, 0⟩ else ⟨0, 4, 0⟩, []⟩

/-- Four triangles, two of them with a repeated vertex id, on which graph
construction succeeds. -/
def degIDX : List (Int × Int × Int) := [(0, 1, 2), (0, 1, 0), (0, 0, 3), (0, 3, 2)]

/-- The index buffer of the built-in cube (`Cube::Cube`), twelve triangles over
the vertex ids 0..7. -/
def cubeIDX : List (Int × Int × Int) :=
  [(0, 1, 2), (2, 3, 0), (4, 6, 5), (6, 4, 7), (0, 5, 1), (5, 0, 4),
   (1, 6, 2), (1, 5, 6), (3, 2, 6), (6, 7, 3), (3, 7, 0), (7, 4, 0)]

/-- The keys of the edges of the triangles of an index buffer, three per
triangle. -/
def edgeKeysOf : List (Int × Int × Int) → List (Int × Int)
  | [] => []
  | t :: rest => edgeKey t.1 t.2.1 :: edgeKey t.2.1 t.2.2 :: edgeKey t.1 t.2.2 :: edgeKeysOf rest

/-- The meshes of the book after graph construction. -/
def bookMeshes : List (Mesh α) :=
  [ (Mesh.mk3 0 bookV 0 1 2).addNebs [(1, (0, 1)), (2, (0, 1)), (3, (0, 1))],
    (Mesh.mk3 1 bookV 0 1 3).addNebs [(0, (0, 1)), (2, (0, 1)), (3, (0, 1))],
    (Mesh.mk3 2 bookV 0 1 4).addNebs [(0, (0, 1)), (1, (0, 1)), (3, (0, 1))],
    (Mesh.mk3 3 bookV 0 1 5).addNebs [(0, (0, 1)), (1, (0, 1)), (2, (0, 1))] ]

/-- The book after the seed triangle 0 is placed. -/
def book1 : List (Mesh α) :=
  placed bookMeshes 0 0 1 2 ⟨0, 0, 0⟩ ⟨0, 2, 0⟩ ⟨-1, 1, 0⟩

/-- The book after triangle 1 is placed from triangle 0 across the edge (0,1). -/
def book2 : List (Mesh α) :=
  placed book1 1 0 1 3 ⟨0, 0, 0⟩ ⟨0, 2, 0⟩ ⟨1, 1, 0⟩

/-! ## A worked mesh: the flat kite

Four vertices in the plane `z = 0`, the triangles `(0,1,2)`, `(0,1,3)`,
`(1,2,3)`, `(0,2,3)` of a tetrahedron, all six edge lengths rational
(18, 15, 15, 41, 41, 52).  Every edge lies on exactly two triangles. -/

/-- Vertex buffer of the kite. -/
def kiteV : Int → Vec3 α := fun k =>
  if k = 0 then ⟨0, 0, 0⟩ else if k = 1 then ⟨0, 18, 0⟩ else if k = 2 then ⟨12, 9, 0⟩
  else ⟨-40, 9, 0⟩

/-- Index buffer of the kite. -/
def kiteIDX : List (Int × Int × Int) := [(0, 1, 2), (0, 1, 3), (1, 2, 3), (0, 2, 3)]

/-- The meshes of the kite after graph construction. -/
def kiteMeshes : List (Mesh α) :=
  [ (Mesh.mk3 0 kiteV 0 1 2).addNebs [(1, (0, 1)), (2, (1, 2)), (3, (0, 2))],
    (Mesh.mk3 1 kiteV 0 1 3).addNebs [(0, (0, 1)), (2, (1, 3)), (3, (0, 3))],
    (Mesh.mk3 2 kiteV 1 2 3).addNebs [(0, (1, 2)), (3, (2, 3)), (1, (1, 3))],
    (Mesh.mk3 3 kiteV 0 2 3).addNebs [(0, (0, 2)), (2, (2, 3)), (1, (0, 3))] ]

/-- The kite after the seed triangle 0 is placed. -/
def kite1 : List (Mesh α) := placed kiteMeshes 0 0 1 2 ⟨0, 0, 0⟩ ⟨0, 18, 0⟩ ⟨-12, 9, 0⟩

/-- The kite after triangle 1 is placed from triangle 0 across the edge (0,1). -/
def kite2 : List (Mesh α) := placed kite1 1 0 1 3 ⟨0, 0, 0⟩ ⟨0, 18, 0⟩ ⟨-40, 9, 0⟩

/-- The kite after triangle 2 is placed from triangle 1 across the edge (1,3). -/
def kite3 : List (Mesh α) :=
  placed kite2 2 1 3 2 ⟨0, 18, 0⟩ ⟨-40, 9, 0⟩ ⟨11748 / 1681, 52569 / 1681, 0⟩

/-- The kite after triangle 3 is placed from triangle 1 across the edge (0,3). -/
def kite4 : List (Mesh α) :=
  placed kite3 3 0 3 2 ⟨0, 0, 0⟩ ⟨-40, 9, 0⟩ ⟨11748 / 1681, -22311 / 1681, 0⟩

/-! ## A worked mesh: the regular tetrahedron

Four points at equal distance from one another, the triangles `(0,1,2)`,
`(0,1,3)`, `(1,2,3)`, `(0,2,3)`.  The planar positions are multiples of the
edge length `e` and of the height `s` of a face. -/

/-- The points `V 0`, `V 1`, `V 2`, `V 3` are the corners of a regular
tetrahedron: the squared distance between any two of them is `q`, and `q` is
positive. -/
def RegularTetrahedron (V : Int → Vec3 α) (q : α) : Prop :=
  0 < q ∧ ∀ i ∈ ([0, 1, 2, 3] : List Int), ∀ j ∈ ([0, 1, 2, 3] : List Int), i ≠ j →
    (Vec3.sub (V i) (V j)).squaredNorm = q

/-- Index buffer of the tetrahedron. -/
def tetIDX : List (Int × Int × Int) := [(0, 1, 2), (0, 1, 3), (1, 2, 3), (0, 2, 3)]

/-- Vertex buffer of a regular tetrahedron inscribed in the cube with corners
`(±1, ±1, ±1)`; the squared edge length is 8. -/
def tetV : Int → Vec3 α := fun k =>
  if k = 0 then ⟨1, 1, 1⟩ else if k = 1 then ⟨1, -1, -1⟩ else if k = 2 then ⟨-1, 1, -1⟩
  else ⟨-1, -1, 1⟩

/-- The meshes of the tetrahedron with vertex buffer `V` after graph
construction. -/
def tetMeshes (V : Int → Vec3 α) : List (Mesh α) :=
  [ (Mesh.mk3 0 V 0 1 2).addNebs [(1, (0, 1)), (2, (1, 2)), (3, (0, 2))],
    (Mesh.mk3 1 V 0 1 3).addNebs [(0, (0, 1)), (2, (1, 3)), (3, (0, 3))],
    (Mesh.mk3 2 V 1 2 3).addNebs [(0, (1, 2)), (3, (2, 3)), (1, (1, 3))],
    (Mesh.mk3 3 V 0 2 3).addNebs [(0, (0, 2)), (2, (2, 3)), (1, (0, 3))] ]

/-- The tetrahedron after the seed triangle 0 is placed. -/
def tet1 (V : Int → Vec3 α) (e s : α) : List (Mesh α) :=
  placed (tetMeshes V) 0 0 1 2 ⟨0, 0, 0⟩ ⟨0, e, 0⟩ ⟨-s, e / 2, 0⟩

/-- The tetrahedron after triangle 1 is placed from triangle 0 across the edge
(0,1). -/
def tet2 (V : Int → Vec3 α) (e s : α) : List (Mesh α) :=
  placed (tet1 V e s) 1 0 1 3 ⟨0, 0, 0⟩ ⟨0, e, 0⟩ ⟨s, e / 2, 0⟩

/-- The tetrahedron after triangle 2 is placed from triangle 0 across the edge
(1,2). -/
def tet3 (V : Int → Vec3 α) (e s : α) : List (Mesh α) :=
  placed (tet2 V e s) 2 1 2 3 ⟨0, e, 0⟩ ⟨-s, e / 2, 0⟩ ⟨-s, 3 * e / 2, 0⟩

/-- The tetrahedron after triangle 3 is placed from triangle 0 across the edge
(0,2). -/
def tet4 (V : Int → Vec3 α) (e s : α) : List (Mesh α) :=
  placed (tet3 V e s) 3 0 2 3 ⟨0, 0, 0⟩ ⟨-s, e / 2, 0⟩ ⟨-s, -(e / 2), 0⟩

/-- The point with its first coordinate multiplied by `sx` and its second by
`sy`. -/
def Vec3.scaleXY (sx sy : α) (p : Vec3 α) : Vec3 α := ⟨sx * p.x, sy * p.y, p.z⟩

/-! ## The object buffer: colour index and rotation matrix -/

/-- The number of entries of the global `colors` table. -/
def colorsSize : Int := 7

/-- The two statements `color_idx = color_idx % colors.size(); color_idx++;`
of `add_cube` and `add_object`: the new value of the member, which is the
index handed to the constructor of the object.  The operand of `%` is converted
to the unsigned 64-bit type of `colors.size()`. -/
def nextColorIdx (color_idx : Int) : Int := (color_idx % 2 ^ 64) % colorsSize + 1

/-- The index handed to the object constructor by the `k`-th call of `add_cube`
or `add_object` on a fresh buffer (`color_idx = 0` before the first call). -/
def colorIdxAfter : Nat → Int
  | 0 => 0
  | k + 1 => nextColorIdx (colorIdxAfter k)

/-- The constant `PI` and the library functions `sin` and `cos`. -/
structure Trig (α : Type) where
  pi : α
  sin : α → α
  cos : α → α

/-- Value of type `Eigen::Matrix4f`, row by row. -/
structure Mat4 (α : Type) where
  a00 : α
  a01 : α
  a02 : α
  a03 : α
  a10 : α
  a11 : α
  a12 : α
  a13 : α
  a20 : α
  a21 : α
  a22 : α
  a23 : α
  a30 : α
  a31 : α
  a32 : α
  a33 : α

/-- Source `get_rotate_mat(angle, rotateAixs)`. -/
def get_rotate_mat (T : Trig α) (angle : α) (rotateAixs : Vec3 α) : Mat4 α :=
  let r := (T.pi / 180) * (angle / 2)
  let x := rotateAixs.x * T.sin r
  let y := rotateAixs.y * T.sin r
  let z := rotateAixs.z * T.sin r
  let w := T.cos r
  ⟨1 - 2 * y * y - 2 * z * z, 2 * x * y - 2 * z * w, 2 * x * z + 2 * y * w, 0,
   2 * x * y + 2 * z * w, 1 - 2 * x * x - 2 * z * z, 2 * y * x - 2 * x * w, 0,
   2 * x * z - 2 * y * w, 2 * y * z + 2 * x * w, 1 - 2 * x * x - 2 * y * y, 0,
   0, 0, 0, 1⟩

/-- The upper-left 3x3 block of a 4x4 matrix. -/
def Mat4.block (M : Mat4 α) : Mat3 α :=
  ⟨M.a00, M.a01, M.a02, M.a10, M.a11, M.a12, M.a20, M.a21, M.a22⟩

/-- The product `M * M^T` of a 3x3 matrix with its transpose. -/
def Mat3.mulTranspose (M : Mat3 α) : Mat3 α :=
  ⟨M.a00 * M.a00 + M.a01 * M.a01 + M.a02 * M.a02,
   M.a00 * M.a10 + M.a01 * M.a11 + M.a02 * M.a12,
   M.a00 * M.a20 + M.a01 * M.a21 + M.a02 * M.a22,
   M.a10 * M.a00 + M.a11 * M.a01 + M.a12 * M.a02,
   M.a10 * M.a10 + M.a11 * M.a11 + M.a12 * M.a12,
   M.a10 * M.a20 + M.a11 * M.a21 + M.a12 * M.a22,
   M.a20 * M.a00 + M.a21 * M.a01 + M.a22 * M.a02,
   M.a20 * M.a10 + M.a21 * M.a11 + M.a22 * M.a12,
   M.a20 * M.a20 + M.a21 * M.a21 + M.a22 * M.a22⟩

/-- The 3x3 identity matrix. -/
def Mat3.one : Mat3 α := ⟨1, 0, 0, 0, 1, 0, 0, 0, 1⟩

/-- The rotation matrix of the unit quaternion `(x, y, z, w)`. -/
def quaternionMat (x y z w : α) : Mat3 α :=
  ⟨1 - 2 * y * y - 2 * z * z, 2 * x * y - 2 * z * w, 2 * x * z + 2 * y * w,
   2 * x * y + 2 * z * w, 1 - 2 * x * x - 2 * z * z, 2 * y * z - 2 * x * w,
   2 * x * z - 2 * y * w, 2 * y * z + 2 * x * w, 1 - 2 * x * x - 2 * y * y⟩

end Defs


/-! ## The triangle solver keeps the three side lengths -/

section Solver

theorem Vec3.squaredNorm_nonneg (a : Vec3 ℝ) : 0 ≤ a.squaredNorm := by
  unfold Vec3.squaredNorm
  nlinarith [mul_self_nonneg a.x, mul_self_nonneg a.y, mul_self_nonneg a.z]

/-- Lagrange identity: `|u x w|^2 = |u|^2 |w|^2 - (u.w)^2`. -/
theorem Vec3.lagrange (u w : Vec3 ℝ) :
    (Vec3.cross u w).squaredNorm = u.squaredNorm * w.squaredNorm - Vec3.dot u w * Vec3.dot u w := by
  simp only [Vec3.cross, Vec3.squaredNorm, Vec3.dot]
  ring

theorem Vec3.squaredNorm_sub_sub (u w : Vec3 ℝ) :
    (Vec3.sub w u).squaredNorm = w.squaredNorm - 2 * Vec3.dot u w + u.squaredNorm := by
  simp only [Vec3.sub, Vec3.squaredNorm, Vec3.dot]
  ring

/-- The scalars of the solver.  With `L = |u|`, `h = 2S/L` and
`t = (u.w)/L`: the two radicands are `t^2` and `(L - t)^2`, and the sign test
of the source leaves `b = t`. -/
theorem solver_scalars (u w : Vec3 ℝ) (hu : 0 < Real.sqrt u.squaredNorm) :
    let L := Real.sqrt u.squaredNorm
    let h := 2 * (Real.sqrt (Vec3.cross u w).squaredNorm / 2) / L
    let t := Vec3.dot u w / L
    let b := Real.sqrt (Real.sqrt w.squaredNorm * Real.sqrt w.squaredNorm - h * h)
    let c := Real.sqrt (Real.sqrt (Vec3.sub w u).squaredNorm
              * Real.sqrt (Vec3.sub w u).squaredNorm - h * h)
    (if c > L ∧ c > b then -b else b) = t ∧ t * t + h * h = w.squaredNorm ∧
      (L - t) * (L - t) + h * h = (Vec3.sub w u).squaredNorm := by
  intro L h t b c
  have hLL : L * L = u.squaredNorm := Real.mul_self_sqrt (Vec3.squaredNorm_nonneg u)
  have hL0 : L ≠ 0 := ne_of_gt hu
  have hcc : Real.sqrt (Vec3.cross u w).squaredNorm * Real.sqrt (Vec3.cross u w).squaredNorm
      = (Vec3.cross u w).squaredNorm := Real.mul_self_sqrt (Vec3.squaredNorm_nonneg _)
  have hww : Real.sqrt w.squaredNorm * Real.sqrt w.squaredNorm = w.squaredNorm :=
    Real.mul_self_sqrt (Vec3.squaredNorm_nonneg _)
  have hdd : Real.sqrt (Vec3.sub w u).squaredNorm * Real.sqrt (Vec3.sub w u).squaredNorm
      = (Vec3.sub w u).squaredNorm := Real.mul_self_sqrt (Vec3.squaredNorm_nonneg _)
  have hh : h * h = (Vec3.cross u w).squaredNorm / (L * L) := by
    show 2 * (Real.sqrt (Vec3.cross u w).squaredNorm / 2) / L
        * (2 * (Real.sqrt (Vec3.cross u w).squaredNorm / 2) / L) = _
    rw [← hcc]
    field_simp
  have htt : t * t = Vec3.dot u w * Vec3.dot u w / (L * L) := by
    show Vec3.dot u w / L * (Vec3.dot u w / L) = _
    field_simp
  have h1 : t * t + h * h = w.squaredNorm := by
    rw [hh, htt, Vec3.lagrange, hLL]
    have : u.squaredNorm ≠ 0 := by rw [← hLL]; exact mul_ne_zero hL0 hL0
    field_simp
  have hLt : L * t = Vec3.dot u w := by
    show L * (Vec3.dot u w / L) = _
    field_simp
  have h2 : (L - t) * (L - t) + h * h = (Vec3.sub w u).squaredNorm := by
    rw [Vec3.squaredNorm_sub_sub, ← h1, ← hLL, ← hLt]
    ring
  have hb : b = |t| := by
    show Real.sqrt (Real.sqrt w.squaredNorm * Real.sqrt w.squaredNorm - h * h) = |t|
    rw [hww, ← h1, add_sub_cancel_right, Real.sqrt_mul_self_eq_abs]
  have hc : c = |L - t| := by
    show Real.sqrt (Real.sqrt (Vec3.sub w u).squaredNorm
              * Real.sqrt (Vec3.sub w u).squaredNorm - h * h) = |L - t|
    rw [hdd, ← h2, add_sub_cancel_right, Real.sqrt_mul_self_eq_abs]
  refine ⟨?_, h1, h2⟩
  rw [hb, hc]
  by_cases ht : t < 0
  · rw [if_pos, abs_of_neg ht, neg_neg]
    rw [abs_of_pos (by linarith), abs_of_neg ht]
    constructor <;> linarith
  · push_neg at ht
    rw [if_neg, abs_of_nonneg ht]
    rintro ⟨h3, h4⟩
    rw [abs_of_nonneg ht] at h4
    rcases abs_cases (L - t) with ⟨h5, _⟩ | ⟨h5, _⟩ <;> rw [h5] at h3 h4 <;> linarith

theorem Vec3.sub_sub_sub (a b c : Vec3 ℝ) :
    Vec3.sub (Vec3.sub a c) (Vec3.sub b c) = Vec3.sub a b := by
  ext <;> simp [Vec3.sub]

/-- Placement algebra: a point at signed distance `t` along the unit direction
of `(dx, dy)` and at distance `h` across it. -/
theorem place_algebra (L t h s px py qx qy : ℝ) (hL : L ≠ 0) (hs : s * s = 1)
    (hd : (qx - px) * (qx - px) + (qy - py) * (qy - py) = L * L) :
    (((L - t) / L * px + t / L * qx + h * (s * (1 / L * -(qy - py)))) - px)
        * (((L - t) / L * px + t / L * qx + h * (s * (1 / L * -(qy - py)))) - px)
      + (((L - t) / L * py + t / L * qy + h * (s * (1 / L * (qx - px)))) - py)
        * (((L - t) / L * py + t / L * qy + h * (s * (1 / L * (qx - px)))) - py)
      = t * t + h * h ∧
    (((L - t) / L * px + t / L * qx + h * (s * (1 / L * -(qy - py)))) - qx)
        * (((L - t) / L * px + t / L * qx + h * (s * (1 / L * -(qy - py)))) - qx)
      + (((L - t) / L * py + t / L * qy + h * (s * (1 / L * (qx - px)))) - qy)
        * (((L - t) / L * py + t / L * qy + h * (s * (1 / L * (qx - px)))) - qy)
      = (L - t) * (L - t) + h * h := by
  constructor
  · field_simp
    linear_combination (t * t + h * h * (s * s)) * hd + (L ^ 2 * h * h) * hs
  · field_simp
    linear_combination ((L - t) * (L - t) + h * h * (s * s)) * hd + (L ^ 2 * h * h) * hs

/-- Squared planar distances of the two candidates of `flatCandidates` to the
two fixed points, for fixed points in the plane `z = 0` at distance `|v1v2|`. -/
theorem flatCandidates_squaredNorm (N : Numerics ℝ) (hs : N.sqrt = Real.sqrt)
    (v1 v2 v3 P1 P2 : Vec3 ℝ) (hL : 0 < Vec3.norm N (Vec3.sub v2 v1))
    (hz1 : P1.z = 0) (hz2 : P2.z = 0)
    (hP : Vec3.norm N (Vec3.sub P2 P1) = Vec3.norm N (Vec3.sub v2 v1)) :
    ((Vec3.sub (flatCandidates N v1 v2 v3 P1 P2).1 P1).squaredNorm = (Vec3.sub v3 v1).squaredNorm ∧
      (Vec3.sub (flatCandidates N v1 v2 v3 P1 P2).1 P2).squaredNorm
        = (Vec3.sub v3 v2).squaredNorm) ∧
    ((Vec3.sub (flatCandidates N v1 v2 v3 P1 P2).2 P1).squaredNorm = (Vec3.sub v3 v1).squaredNorm ∧
      (Vec3.sub (flatCandidates N v1 v2 v3 P1 P2).2 P2).squaredNorm
        = (Vec3.sub v3 v2).squaredNorm) ∧
    (flatCandidates N v1 v2 v3 P1 P2).1.z = 0 ∧ (flatCandidates N v1 v2 v3 P1 P2).2.z = 0 := by
  simp only [Vec3.norm, hs] at hL hP
  obtain ⟨hb, h1, h2⟩ := solver_scalars (Vec3.sub v2 v1) (Vec3.sub v3 v1) hL
  simp only [Vec3.sub_sub_sub] at hb h1 h2
  have hL0 : Real.sqrt (Vec3.sub v2 v1).squaredNorm ≠ 0 := ne_of_gt hL
  have hd : (P2.x - P1.x) * (P2.x - P1.x) + (P2.y - P1.y) * (P2.y - P1.y)
      = Real.sqrt (Vec3.sub v2 v1).squaredNorm * Real.sqrt (Vec3.sub v2 v1).squaredNorm := by
    rw [← hP, Real.mul_self_sqrt (Vec3.squaredNorm_nonneg _)]
    simp [Vec3.squaredNorm, Vec3.sub, hz1, hz2]
  have hsq : (⟨-(Vec3.sub P2 P1).y, (Vec3.sub P2 P1).x, 0⟩ : Vec3 ℝ).squaredNorm
      = (Vec3.sub P2 P1).squaredNorm := by
    simp [Vec3.squaredNorm, Vec3.sub, hz1, hz2]
    ring
  have hpos : 0 < (Vec3.sub P2 P1).squaredNorm := Real.sqrt_pos.mp (hP ▸ hL)
  simp only [flatCandidates, Vec3.norm, hs, Vec3.normalized, if_pos hpos, hsq, hP]
  generalize Real.sqrt (Vec3.sub v2 v1).squaredNorm = L at hb h1 h2 hL0 hd ⊢
  generalize 2 * (Real.sqrt (Vec3.cross (Vec3.sub v2 v1) (Vec3.sub v3 v1)).squaredNorm / 2) / L
    = h at hb h1 h2 ⊢
  generalize Vec3.dot (Vec3.sub v2 v1) (Vec3.sub v3 v1) / L = t at hb h1 h2 ⊢
  rw [hb]
  have e1 := place_algebra L t h 1 P1.x P1.y P2.x P2.y hL0 (by norm_num) hd
  have e2 := place_algebra L t h (-1) P1.x P1.y P2.x P2.y hL0 (by norm_num) hd
  rw [h1, h2] at e1 e2
  refine ⟨⟨?_, ?_⟩, ⟨?_, ?_⟩, ?_, ?_⟩
  · rw [← e1.1]
    simp only [Vec3.squaredNorm, Vec3.sub, Vec3.add, Vec3.smul, hz1, hz2]
    ring
  · rw [← e1.2]
    simp only [Vec3.squaredNorm, Vec3.sub, Vec3.add, Vec3.smul, hz1, hz2]
    ring
  · rw [← e2.1]
    simp only [Vec3.squaredNorm, Vec3.sub, Vec3.add, Vec3.smul, Vec3.neg, hz1, hz2]
    ring
  · rw [← e2.2]
    simp only [Vec3.squaredNorm, Vec3.sub, Vec3.add, Vec3.smul, Vec3.neg, hz1, hz2]
    ring
  · simp [Vec3.add, Vec3.smul, hz1, hz2]
  · simp [Vec3.add, Vec3.smul, Vec3.neg, hz1, hz2]

/-- C1. `flattenVertex` preserves edge lengths in exact real arithmetic: for 3D
points `v1 v2 v3` with `|v1v2| > 0` and fixed planar points `P1 P2` (points of
the plane `z = 0`) with `|P2 - P1| = |v1v2|`, both candidates `flat1` and
`flat2` are at distance `|v1v3|` from `P1` and `|v2v3|` from `P2`. -/
theorem C1_flattenVertex_preserves_edge_lengths (N : Numerics ℝ) (hs : N.sqrt = Real.sqrt)
    (v1 v2 v3 P1 P2 : Vec3 ℝ) (hL : 0 < Vec3.norm N (Vec3.sub v2 v1))
    (hz1 : P1.z = 0) (hz2 : P2.z = 0)
    (hP : Vec3.norm N (Vec3.sub P2 P1) = Vec3.norm N (Vec3.sub v2 v1)) :
    (Vec3.norm N (Vec3.sub (flatCandidates N v1 v2 v3 P1 P2).1 P1) = Vec3.norm N (Vec3.sub v3 v1) ∧
      Vec3.norm N (Vec3.sub (flatCandidates N v1 v2 v3 P1 P2).1 P2)
        = Vec3.norm N (Vec3.sub v3 v2)) ∧
    (Vec3.norm N (Vec3.sub (flatCandidates N v1 v2 v3 P1 P2).2 P1) = Vec3.norm N (Vec3.sub v3 v1) ∧
      Vec3.norm N (Vec3.sub (flatCandidates N v1 v2 v3 P1 P2).2 P2)
        = Vec3.norm N (Vec3.sub v3 v2)) := by
  obtain ⟨⟨a1, a2⟩, ⟨b1, b2⟩, _, _⟩ := flatCandidates_squaredNorm N hs v1 v2 v3 P1 P2 hL hz1 hz2 hP
  simp only [Vec3.norm, a1, a2, b1, b2, and_self]

/-- C1 at the right triangle `(0,0,0), (3,0,0), (0,4,0)` laid on the fixed
points `(0,0,0), (0,3,0)`. -/
theorem C1_flattenVertex_preserves_edge_lengths_witness :
    (Vec3.norm (exactNumerics Real.sqrt)
        (Vec3.sub (flatCandidates (exactNumerics Real.sqrt) ⟨0, 0, 0⟩ ⟨3, 0, 0⟩ ⟨0, 4, 0⟩
          ⟨0, 0, 0⟩ ⟨0, 3, 0⟩).1 ⟨0, 0, 0⟩)
        = Vec3.norm (exactNumerics Real.sqrt) (Vec3.sub ⟨0, 4, 0⟩ ⟨0, 0, 0⟩) ∧
      Vec3.norm (exactNumerics Real.sqrt)
        (Vec3.sub (flatCandidates (exactNumerics Real.sqrt) ⟨0, 0, 0⟩ ⟨3, 0, 0⟩ ⟨0, 4, 0⟩
          ⟨0, 0, 0⟩ ⟨0, 3, 0⟩).1 ⟨0, 3, 0⟩)
        = Vec3.norm (exactNumerics Real.sqrt) (Vec3.sub ⟨0, 4, 0⟩ ⟨3, 0, 0⟩)) ∧
    (Vec3.norm (exactNumerics Real.sqrt)
        (Vec3.sub (flatCandidates (exactNumerics Real.sqrt) ⟨0, 0, 0⟩ ⟨3, 0, 0⟩ ⟨0, 4, 0⟩
          ⟨0, 0, 0⟩ ⟨0, 3, 0⟩).2 ⟨0, 0, 0⟩)
        = Vec3.norm (exactNumerics Real.sqrt) (Vec3.sub ⟨0, 4, 0⟩ ⟨0, 0, 0⟩) ∧
      Vec3.norm (exactNumerics Real.sqrt)
        (Vec3.sub (flatCandidates (exactNumerics Real.sqrt) ⟨0, 0, 0⟩ ⟨3, 0, 0⟩ ⟨0, 4, 0⟩
          ⟨0, 0, 0⟩ ⟨0, 3, 0⟩).2 ⟨0, 3, 0⟩)
        = Vec3.norm (exactNumerics Real.sqrt) (Vec3.sub ⟨0, 4, 0⟩ ⟨3, 0, 0⟩)) :=
  C1_flattenVertex_preserves_edge_lengths (exactNumerics Real.sqrt) rfl
    ⟨0, 0, 0⟩ ⟨3, 0, 0⟩ ⟨0, 4, 0⟩ ⟨0, 0, 0⟩ ⟨0, 3, 0⟩
    (Real.sqrt_pos.mpr (by norm_num [Vec3.squaredNorm, Vec3.sub])) rfl rfl
    (congrArg Real.sqrt (by norm_num [Vec3.squaredNorm, Vec3.sub]))

/-- Closed form of the two candidates once the three square roots are known:
`L = |v1v2|`, `A = |(v2 - v1) x (v3 - v1)|` and `D`, the planar length of
`P2 - P1`. -/
theorem flatCandidates_closed (N : Numerics ℝ) (hs : N.sqrt = Real.sqrt) (v1 v2 v3 P1 P2 : Vec3 ℝ)
    (L A D : ℝ) (hL : 0 < L) (hLL : L * L = (Vec3.sub v2 v1).squaredNorm) (hA : 0 ≤ A)
    (hAA : A * A = (Vec3.cross (Vec3.sub v2 v1) (Vec3.sub v3 v1)).squaredNorm) (hD : 0 < D)
    (hDD : D * D = (P2.y - P1.y) * (P2.y - P1.y) + (P2.x - P1.x) * (P2.x - P1.x)) :
    flatCandidates N v1 v2 v3 P1 P2 =
      (Vec3.add (Vec3.add
          (Vec3.smul ((L - Vec3.dot (Vec3.sub v2 v1) (Vec3.sub v3 v1) / L) / L) P1)
          (Vec3.smul (Vec3.dot (Vec3.sub v2 v1) (Vec3.sub v3 v1) / L / L) P2))
        (Vec3.smul (A / L) ⟨-(P2.y - P1.y) / D, (P2.x - P1.x) / D, 0⟩),
       Vec3.add (Vec3.add
          (Vec3.smul ((L - Vec3.dot (Vec3.sub v2 v1) (Vec3.sub v3 v1) / L) / L) P1)
          (Vec3.smul (Vec3.dot (Vec3.sub v2 v1) (Vec3.sub v3 v1) / L / L) P2))
        (Vec3.smul (A / L) ⟨(P2.y - P1.y) / D, -(P2.x - P1.x) / D, 0⟩)) := by
  have hsL : Real.sqrt (Vec3.sub v2 v1).squaredNorm = L :=
    (Real.sqrt_eq_iff_mul_self_eq_of_pos hL).mpr hLL
  have hsA : Real.sqrt (Vec3.cross (Vec3.sub v2 v1) (Vec3.sub v3 v1)).squaredNorm = A :=
    (Real.sqrt_eq_iff_mul_self_eq (Vec3.squaredNorm_nonneg _) hA).mpr hAA.symm
  have hsq : (⟨-(Vec3.sub P2 P1).y, (Vec3.sub P2 P1).x, 0⟩ : Vec3 ℝ).squaredNorm = D * D := by
    rw [hDD]
    simp only [Vec3.squaredNorm, Vec3.sub]
    ring
  have hsD : Real.sqrt (D * D) = D := Real.sqrt_mul_self hD.le
  have hpos : 0 < D * D := mul_pos hD hD
  obtain ⟨hb, -, -⟩ := solver_scalars (Vec3.sub v2 v1) (Vec3.sub v3 v1) (hsL ▸ hL)
  have h2 : 2 * (A / 2) / L = A / L := by ring
  simp only [Vec3.sub_sub_sub, hsL, hsA, h2] at hb
  simp only [flatCandidates, Vec3.norm, hs, hsL, hsA, h2, hb, Vec3.normalized, hsq, if_pos hpos, hsD]
  simp only [Vec3.sub, Vec3.smul, Vec3.neg, Vec3.add, Prod.mk.injEq, Vec3.mk.injEq]
  refine ⟨⟨?_, ?_, ?_⟩, ?_, ?_, ?_⟩ <;> ring

end Solver

/-! ## The mesh store -/

section Store

variable {α : Type} [LinearOrderedField α]

theorem deref_set_eq (ms : List (Mesh α)) (p : Nat) (m : Mesh α) (h : p < ms.length) :
    deref (ms.set p m) p = m := by
  simp [deref, List.getD_eq_getElem?_getD, List.getElem?_set, h]

theorem deref_set_ne (ms : List (Mesh α)) (p p' : Nat) (m : Mesh α) (h : p ≠ p') :
    deref (ms.set p m) p' = deref ms p' := by
  simp [deref, List.getD_eq_getElem?_getD, List.getElem?_set, h]

theorem length_setFlat (ms : List (Mesh α)) (p : Nat) (k : Int) (v : Vec3 α) :
    (setFlat ms p k v).length = ms.length := by
  simp [setFlat]

theorem deref_setFlat_eq (ms : List (Mesh α)) (p : Nat) (k : Int) (v : Vec3 α)
    (h : p < ms.length) :
    deref (setFlat ms p k v) p = { deref ms p with vid2fv := assign (deref ms p).vid2fv k v } :=
  deref_set_eq ms p _ h

theorem deref_setFlat_ne (ms : List (Mesh α)) (p p' : Nat) (k : Int) (v : Vec3 α) (h : p ≠ p') :
    deref (setFlat ms p k v) p' = deref ms p' :=
  deref_set_ne ms p p' _ h

omit [LinearOrderedField α] in
theorem assign_same (m : Int → Vec3 α) (k : Int) (v : Vec3 α) : assign m k v k = v := by
  simp [assign]

omit [LinearOrderedField α] in
theorem assign_other (m : Int → Vec3 α) (k j : Int) (v : Vec3 α) (h : j ≠ k) :
    assign m k v j = m j := by
  simp [assign, h]

theorem overlap_nil (N : Numerics α) (ms : List (Mesh α)) (p a b : Vec3 α) :
    overlap N ms p a b [] = false := rfl

theorem setFlat_of_le (ms : List (Mesh α)) (p : Nat) (k : Int) (v : Vec3 α)
    (h : ms.length ≤ p) : setFlat ms p k v = ms := by
  simp [setFlat, List.set_eq_of_length_le h]

theorem deref_setFlat_vids (ms : List (Mesh α)) (p q : Nat) (k : Int) (v : Vec3 α) :
    (deref (setFlat ms p k v) q).vids = (deref ms q).vids := by
  by_cases hp : p < ms.length
  · by_cases hq : p = q
    · subst hq
      rw [deref_setFlat_eq _ _ _ _ hp]
    · rw [deref_setFlat_ne _ _ _ _ _ hq]
  · rw [setFlat_of_le _ _ _ _ (not_lt.mp hp)]

theorem deref_setFlat_vid2v (ms : List (Mesh α)) (p q : Nat) (k : Int) (v : Vec3 α) :
    (deref (setFlat ms p k v) q).vid2v = (deref ms q).vid2v := by
  by_cases hp : p < ms.length
  · by_cases hq : p = q
    · subst hq
      rw [deref_setFlat_eq _ _ _ _ hp]
    · rw [deref_setFlat_ne _ _ _ _ _ hq]
  · rw [setFlat_of_le _ _ _ _ (not_lt.mp hp)]

theorem deref_setFlat_nebMeshes (ms : List (Mesh α)) (p q : Nat) (k : Int) (v : Vec3 α) :
    (deref (setFlat ms p k v) q).nebMeshes = (deref ms q).nebMeshes := by
  by_cases hp : p < ms.length
  · by_cases hq : p = q
    · subst hq
      rw [deref_setFlat_eq _ _ _ _ hp]
    · rw [deref_setFlat_ne _ _ _ _ _ hq]
  · rw [setFlat_of_le _ _ _ _ (not_lt.mp hp)]

theorem deref_setFlat_vid (ms : List (Mesh α)) (p q : Nat) (k : Int) (v : Vec3 α) (i : Nat) :
    (deref (setFlat ms p k v) q).vid i = (deref ms q).vid i := by
  simp only [Mesh.vid, deref_setFlat_vids]

theorem deref_setFlat_vid2fv (ms : List (Mesh α)) (p q : Nat) (k j : Int) (v : Vec3 α) :
    (deref (setFlat ms p k v) q).vid2fv j
      = if q = p ∧ p < ms.length ∧ j = k then v else (deref ms q).vid2fv j := by
  by_cases hp : p < ms.length
  · by_cases hq : p = q
    · subst hq
      rw [deref_setFlat_eq _ _ _ _ hp]
      by_cases hj : j = k
      · simp [assign, hj, hp]
      · simp [assign, hj]
    · rw [deref_setFlat_ne _ _ _ _ _ hq]
      simp [Ne.symm hq]
  · rw [setFlat_of_le _ _ _ _ (not_lt.mp hp)]
    simp [hp]

theorem exactNumerics_sqrt (s : α → α) : (exactNumerics s).sqrt = s := rfl

theorem exactNumerics_solve2 (s : α → α) : (exactNumerics s).solve2 = cramer2 := rfl

theorem exactNumerics_solve3 (s : α → α) : (exactNumerics s).solve3 = cramer3 := rfl

theorem isInside_eq (N : Numerics α) (p : Vec3 α) (m : Mesh α) :
    isInside N p m = isInsideTri N p m.corners.1 m.corners.2.1 m.corners.2.2 := rfl

theorem lineCrossMesh_eq (N : Numerics α) (p q : Vec3 α) (m : Mesh α) :
    lineCrossMesh N p q m
      = (lineCross N p q m.corners.1 m.corners.2.1 || lineCross N p q m.corners.2.1 m.corners.2.2
        || lineCross N p q m.corners.1 m.corners.2.2) := by
  simp only [lineCrossMesh, Mesh.corners]
  cases lineCross N p q (m.vid2fv (m.vid 0)) (m.vid2fv (m.vid 1)) <;>
    cases lineCross N p q (m.vid2fv (m.vid 1)) (m.vid2fv (m.vid 2)) <;>
    cases lineCross N p q (m.vid2fv (m.vid 0)) (m.vid2fv (m.vid 2)) <;> rfl

/-- The function `overlap` as a disjunction over the flattened triangles. -/
theorem overlap_eq_any (N : Numerics α) (ms : List (Mesh α)) (p P1 P2 : Vec3 α)
    (flattened : List Nat) :
    overlap N ms p P1 P2 flattened
      = flattened.any (fun i => overlapTri N p P1 P2 (deref ms i).corners.1
          (deref ms i).corners.2.1 (deref ms i).corners.2.2) := by
  simp only [overlap, isInside_eq, lineCrossMesh_eq, overlapTri]

/-- With an empty flattened set `flattenVertex` returns the first candidate. -/
theorem flattenVertex_nil (N : Numerics α) (ms : List (Mesh α)) (mesh : Mesh α) (v3 v1 v2 : Int)
    (P1 P2 : Vec3 α) :
    flattenVertex N ms mesh v3 v1 v2 P1 P2 []
      = some (flatCandidates N (mesh.vid2v v1) (mesh.vid2v v2) (mesh.vid2v v3) P1 P2).1 := by
  simp [flattenVertex, overlap_nil]

/-- The search for the remaining vertex in `flattenMesh` finds `c` when `c` is
a vertex of the mesh and the only one that differs from both `a` and `b`. -/
theorem find_third (vids : List Int) (a b c : Int) (hc : c ∈ vids)
    (honly : ∀ x ∈ vids, x ≠ a → x ≠ b → x = c) (hca : c ≠ a) (hcb : c ≠ b) :
    vids.find? (fun vid => vid != a && vid != b) = some c := by
  induction vids with
  | nil => simp at hc
  | cons x xs ih =>
    by_cases hx : x ≠ a ∧ x ≠ b
    · have hxc : x = c := honly x (List.mem_cons_self _ _) hx.1 hx.2
      have hp : (c != a && c != b) = true := by simp [hca, hcb]
      rw [hxc, List.find?_cons, hp]
    · have hxc : x ≠ c := by
        rintro rfl
        exact hx ⟨hca, hcb⟩
      have hc' : c ∈ xs := by
        rcases List.mem_cons.mp hc with h | h
        · exact absurd h.symm hxc
        · exact h
      have hp : (x != a && x != b) = false := by
        by_cases h1 : x = a
        · simp [h1]
        · have h2 : x = b := by
            by_contra h2
            exact hx ⟨h1, h2⟩
          simp [h2]
      rw [List.find?_cons, hp]
      exact ih hc' (fun y hy => honly y (List.mem_cons_of_mem _ hy))

/-- The value of `flattenMesh` once the remaining vertex is known. -/
theorem flattenMesh_eq (N : Numerics α) (ms : List (Mesh α)) (T n : Nat) (a b c : Int)
    (flattened : List Nat)
    (hfind : (deref ms n).vids.find? (fun vid => vid != a && vid != b) = some c) :
    flattenMesh N ms T n (a, b) flattened =
      match flattenVertex N ms (deref ms n) c a b ((deref ms T).vid2fv a) ((deref ms T).vid2fv b)
          flattened with
      | none => some (false, ms)
      | some fv3Pos =>
        some (true, setFlat (setFlat (setFlat ms n a ((deref ms T).vid2fv a)) n b
          ((deref (setFlat ms n a ((deref ms T).vid2fv a)) T).vid2fv b)) n c fv3Pos) := by
  simp only [flattenMesh, hfind]

/-- The flat positions of a mesh after the three assignments of `flattenMesh`
or `flattenFirst`. -/
theorem deref_setFlat3 (ms : List (Mesh α)) (n : Nat) (a b c : Int) (pa pb pc : Vec3 α)
    (hn : n < ms.length) :
    deref (setFlat (setFlat (setFlat ms n a pa) n b pb) n c pc) n =
      { deref ms n with
        vid2fv := assign (assign (assign (deref ms n).vid2fv a pa) b pb) c pc } := by
  rw [deref_setFlat_eq _ _ _ _ (by simpa [length_setFlat] using hn),
    deref_setFlat_eq _ _ _ _ (by simpa [length_setFlat] using hn), deref_setFlat_eq _ _ _ _ hn]

theorem deref_setFlat3_ne (ms : List (Mesh α)) (n p : Nat) (a b c : Int) (pa pb pc : Vec3 α)
    (hp : n ≠ p) :
    deref (setFlat (setFlat (setFlat ms n a pa) n b pb) n c pc) p = deref ms p := by
  rw [deref_setFlat_ne _ _ _ _ _ hp, deref_setFlat_ne _ _ _ _ _ hp, deref_setFlat_ne _ _ _ _ _ hp]

/-- C5. Seed placement: `flattenFirst` on a triangle with vertex ids
`v1, v2, v3` (pairwise distinct) and an empty flattened set returns true, puts
`v1` at `(0,0)`, `v2` at `(0,|v1v2|)` and `v3` at the first candidate of the
solver; `overlap` against an empty flattened set is false. -/
theorem C5_seed_placement (N : Numerics α) (meshes : List (Mesh α)) (mesh : Nat) (v1 v2 v3 : Int)
    (hmesh : mesh < meshes.length) (hvids : (deref meshes mesh).vids = [v1, v2, v3])
    (h12 : v1 ≠ v2) (h13 : v1 ≠ v3) (h23 : v2 ≠ v3) :
    (flattenFirst N meshes mesh []).1 = true ∧
    (deref (flattenFirst N meshes mesh []).2 mesh).vid2fv v1 = ⟨0, 0, 0⟩ ∧
    (deref (flattenFirst N meshes mesh []).2 mesh).vid2fv v2
      = ⟨0, Vec3.norm N (Vec3.sub ((deref meshes mesh).vid2v v1) ((deref meshes mesh).vid2v v2)), 0⟩ ∧
    (deref (flattenFirst N meshes mesh []).2 mesh).vid2fv v3
      = (flatCandidates N ((deref meshes mesh).vid2v v1) ((deref meshes mesh).vid2v v2)
          ((deref meshes mesh).vid2v v3) ⟨0, 0, 0⟩
          ⟨0, Vec3.norm N (Vec3.sub ((deref meshes mesh).vid2v v1) ((deref meshes mesh).vid2v v2)),
            0⟩).1 ∧
    ∀ (ms : List (Mesh α)) (p a b : Vec3 α), overlap N ms p a b [] = false := by
  have e0 : (deref meshes mesh).vid 0 = v1 := by simp [Mesh.vid, hvids]
  have e1 : (deref meshes mesh).vid 1 = v2 := by simp [Mesh.vid, hvids]
  have e2 : (deref meshes mesh).vid 2 = v3 := by simp [Mesh.vid, hvids]
  have hlen1 : mesh < (setFlat meshes mesh v1 ⟨0, 0, 0⟩).length := by
    simpa [length_setFlat] using hmesh
  simp only [flattenFirst, flattenVertex_nil, e0, e1, e2]
  rw [deref_setFlat3 _ _ _ _ _ _ _ _ hmesh, deref_setFlat_eq _ _ _ _ hlen1,
    deref_setFlat_eq _ _ _ _ hmesh]
  simp [assign, h12, h13, h23, h12.symm, h13.symm, h23.symm, overlap_nil]

/-- The remaining vertex found by `flattenMesh` in a mesh whose vertex ids are
among `a, b, c`, with `c` present and different from `a` and `b`. -/
theorem find_third_of_cover (vids : List Int) (a b c : Int) (hc : c ∈ vids)
    (hcover : ∀ x ∈ vids, x = a ∨ x = b ∨ x = c) (hca : c ≠ a) (hcb : c ≠ b) :
    vids.find? (fun vid => vid != a && vid != b) = some c :=
  find_third vids a b c hc
    (fun x hx h1 h2 => by
      rcases hcover x hx with h | h | h
      · exact absurd h h1
      · exact absurd h h2
      · exact h) hca hcb

/-- Outcome of `flattenMesh` from a flattened mesh `T` to an unvisited mesh `n`
across the edge `(a, b)`, with `c` the remaining vertex of `n`. -/
theorem flattenMesh_outcome (N : Numerics α) (ms : List (Mesh α)) (T n : Nat) (a b c : Int)
    (flattened : List Nat) (hT : T ∈ flattened) (hn : n ∉ flattened)
    (hc : c ∈ (deref ms n).vids) (hcover : ∀ x ∈ (deref ms n).vids, x = a ∨ x = b ∨ x = c)
    (hca : c ≠ a) (hcb : c ≠ b) :
    flattenMesh N ms T n (a, b) flattened =
      match flattenVertex N ms (deref ms n) c a b ((deref ms T).vid2fv a) ((deref ms T).vid2fv b)
          flattened with
      | none => some (false, ms)
      | some fv3Pos =>
        some (true, setFlat (setFlat (setFlat ms n a ((deref ms T).vid2fv a)) n b
          ((deref ms T).vid2fv b)) n c fv3Pos) := by
  have hTn : n ≠ T := fun h => hn (h ▸ hT)
  rw [flattenMesh_eq N ms T n a b c flattened (find_third_of_cover _ a b c hc hcover hca hcb),
    deref_setFlat_ne _ _ _ _ _ hTn]

/-- C7. Candidate selection and copy: from a flattened triangle `T` to an
unvisited neighbour `n` across the shared edge `(a, b)` (`c` the remaining
vertex of `n`), `flattenMesh` succeeds iff at least one candidate does not
overlap; on success the flat position of `c` in `n` is `flat1` if `flat1` does
not overlap and `flat2` otherwise, and the flat positions of `a` and `b` in
`n` are those of `T`. -/
theorem C7_candidate_selection_and_copy (N : Numerics α) (ms : List (Mesh α)) (T n : Nat)
    (a b c : Int) (flattened : List Nat) (hT : T ∈ flattened) (hn : n ∉ flattened)
    (hlen : n < ms.length) (hc : c ∈ (deref ms n).vids)
    (hcover : ∀ x ∈ (deref ms n).vids, x = a ∨ x = b ∨ x = c) (hca : c ≠ a) (hcb : c ≠ b) :
    ∃ ok ms', flattenMesh N ms T n (a, b) flattened = some (ok, ms') ∧
      (ok = true ↔
        (overlap N ms (flatCandidates N ((deref ms n).vid2v a) ((deref ms n).vid2v b)
            ((deref ms n).vid2v c) ((deref ms T).vid2fv a) ((deref ms T).vid2fv b)).1
            ((deref ms T).vid2fv a) ((deref ms T).vid2fv b) flattened = false ∨
         overlap N ms (flatCandidates N ((deref ms n).vid2v a) ((deref ms n).vid2v b)
            ((deref ms n).vid2v c) ((deref ms T).vid2fv a) ((deref ms T).vid2fv b)).2
            ((deref ms T).vid2fv a) ((deref ms T).vid2fv b) flattened = false)) ∧
      (ok = true →
        (deref ms' n).vid2fv c =
          (if overlap N ms (flatCandidates N ((deref ms n).vid2v a) ((deref ms n).vid2v b)
              ((deref ms n).vid2v c) ((deref ms T).vid2fv a) ((deref ms T).vid2fv b)).1
              ((deref ms T).vid2fv a) ((deref ms T).vid2fv b) flattened = false
            then (flatCandidates N ((deref ms n).vid2v a) ((deref ms n).vid2v b)
              ((deref ms n).vid2v c) ((deref ms T).vid2fv a) ((deref ms T).vid2fv b)).1
            else (flatCandidates N ((deref ms n).vid2v a) ((deref ms n).vid2v b)
              ((deref ms n).vid2v c) ((deref ms T).vid2fv a) ((deref ms T).vid2fv b)).2) ∧
        (deref ms' n).vid2fv a = (deref ms T).vid2fv a ∧
        (deref ms' n).vid2fv b = (deref ms T).vid2fv b) := by
  rw [flattenMesh_outcome N ms T n a b c flattened hT hn hc hcover hca hcb]
  simp only [flattenVertex]
  by_cases h1 : overlap N ms (flatCandidates N ((deref ms n).vid2v a) ((deref ms n).vid2v b)
      ((deref ms n).vid2v c) ((deref ms T).vid2fv a) ((deref ms T).vid2fv b)).1
      ((deref ms T).vid2fv a) ((deref ms T).vid2fv b) flattened = false
  · refine ⟨true, _, by simp [h1]; rfl, by simp [h1], fun _ => ?_⟩
    rw [deref_setFlat3 _ _ _ _ _ _ _ _ hlen]
    by_cases hab : a = b
    · subst hab
      simp [assign, h1, hca, hca.symm]
    · simp [assign, h1, hca, hcb, hca.symm, hcb.symm, hab]
  · by_cases h2 : overlap N ms (flatCandidates N ((deref ms n).vid2v a) ((deref ms n).vid2v b)
        ((deref ms n).vid2v c) ((deref ms T).vid2fv a) ((deref ms T).vid2fv b)).2
        ((deref ms T).vid2fv a) ((deref ms T).vid2fv b) flattened = false
    · refine ⟨true, _, by simp [h1, h2]; rfl, by simp [h2], fun _ => ?_⟩
      rw [deref_setFlat3 _ _ _ _ _ _ _ _ hlen]
      by_cases hab : a = b
      · subst hab
        simp [assign, h1, hca, hca.symm]
      · simp [assign, h1, hca, hcb, hca.symm, hcb.symm, hab]
    · exact ⟨false, ms, by simp [h1, h2], by simp [h1, h2], by simp⟩

end Store

/-! ## Graph construction in closed form -/

section Graph

variable {α : Type} [LinearOrderedField α]

theorem addEdge_edge2meshes (N : Numerics α) (obj : FlattenObject α) (v1 v2 : Int) (mesh : Nat)
    (e : Int × Int) :
    (addEdge N obj v1 v2 mesh).edge2meshes e
      = obj.edge2meshes e ++ (if e = edgeKey v1 v2 then [mesh] else []) := by
  by_cases h : e = edgeKey v1 v2
  · simp [addEdge, h]
  · simp [addEdge, h]

theorem addEdge_meshes (N : Numerics α) (obj : FlattenObject α) (v1 v2 : Int) (mesh : Nat) :
    (addEdge N obj v1 v2 mesh).meshes = obj.meshes := rfl

theorem addEdge_V (N : Numerics α) (obj : FlattenObject α) (v1 v2 : Int) (mesh : Nat) :
    (addEdge N obj v1 v2 mesh).V = obj.V := rfl

/-- The registration loop appends the new meshes and, on every edge key, the
new incident meshes; the vertex buffer is untouched. -/
theorem registerTriangles_spec (N : Numerics α) (IDX : List (Int × Int × Int))
    (obj : FlattenObject α) :
    (registerTriangles N IDX obj).meshes = obj.meshes ++ meshesFrom obj.meshes.length obj.V IDX ∧
    (∀ e, (registerTriangles N IDX obj).edge2meshes e
      = obj.edge2meshes e ++ incidentFrom obj.meshes.length IDX e) ∧
    (registerTriangles N IDX obj).V = obj.V := by
  induction IDX generalizing obj with
  | nil => simp [registerTriangles, meshesFrom, incidentFrom]
  | cons t rest ih =>
    obtain ⟨v1, v2, v3⟩ := t
    simp only [registerTriangles]
    obtain ⟨h1, h2, h3⟩ := ih (addEdge N (addEdge N (addEdge N
      { obj with meshes := obj.meshes ++ [Mesh.mk3 obj.meshes.length obj.V v1 v2 v3] }
      v1 v2 obj.meshes.length) v2 v3 obj.meshes.length) v1 v3 obj.meshes.length)
    refine ⟨?_, ?_, ?_⟩
    · rw [h1]
      simp [addEdge_meshes, addEdge_V, meshesFrom]
    · intro e
      rw [h2]
      simp [addEdge_meshes, addEdge_edge2meshes, incidentFrom]
    · rw [h3]
      simp [addEdge_V]

theorem addNebMeshes_edge2meshes (obj : FlattenObject α) (v1 v2 : Int) (mesh : Nat) :
    (addNebMeshes obj v1 v2 mesh).edge2meshes = obj.edge2meshes := rfl

theorem addNebMeshes_meshes (obj : FlattenObject α) (v1 v2 : Int) (mesh : Nat) :
    (addNebMeshes obj v1 v2 mesh).meshes = obj.meshes.set mesh
      { deref obj.meshes mesh with
        nebMeshes := (deref obj.meshes mesh).nebMeshes
          ++ foundOn obj.edge2meshes mesh v1 v2 } := rfl

/-- The three calls of `addNebMeshes` for one mesh of the store. -/
theorem addNebMeshes3 (obj : FlattenObject α) (v1 v2 v3 : Int) (mesh : Nat)
    (h : mesh < obj.meshes.length) :
    addNebMeshes (addNebMeshes (addNebMeshes obj v1 v2 mesh) v2 v3 mesh) v1 v3 mesh =
      { obj with
        meshes := obj.meshes.set mesh
          ((deref obj.meshes mesh).addNebs (nebsOf obj.edge2meshes mesh v1 v2 v3)) } := by
  simp only [addNebMeshes, deref_set_eq _ _ _ h, List.set_set, nebsOf, foundOn,
    List.append_assoc, Mesh.addNebs]

theorem deref_append_length (done rest : List (Mesh α)) (m : Mesh α) :
    deref (done ++ m :: rest) done.length = m := by
  rw [deref, List.getD_eq_getElem?_getD, List.getElem?_append_right (le_refl _)]
  simp

/-- The adjacency loop over the meshes `rest` that follow the meshes `done`. -/
theorem adjacencyPass_spec (rest : List (Mesh α)) :
    ∀ (obj : FlattenObject α) (done : List (Mesh α)), obj.meshes = done ++ rest →
      adjacencyPass (List.range' done.length rest.length) obj
        = (nebPass obj.edge2meshes done.length rest).map
            (fun r => { obj with meshes := done ++ r }) := by
  induction rest with
  | nil =>
    intro obj done hm
    simp only [List.length_nil, List.range'_zero, adjacencyPass, nebPass, Option.map_some']
    rw [← hm]
  | cons m rest ih =>
    intro obj done hm
    have hk : done.length < obj.meshes.length := by simp [hm]
    have hd : deref obj.meshes done.length = m := by rw [hm, deref_append_length]
    have hset : obj.meshes.set done.length
        (m.addNebs (nebsOf obj.edge2meshes done.length (m.vid 0) (m.vid 1) (m.vid 2)))
        = (done ++ [m.addNebs (nebsOf obj.edge2meshes done.length (m.vid 0) (m.vid 1) (m.vid 2))])
          ++ rest := by
      rw [hm]
      simp
    simp only [List.length_cons, List.range'_succ, adjacencyPass, nebPass]
    rw [addNebMeshes3 obj _ _ _ _ hk, hd]
    simp only [deref_set_eq _ _ _ hk]
    by_cases hc : (m.addNebs
        (nebsOf obj.edge2meshes done.length (m.vid 0) (m.vid 1) (m.vid 2))).nebMeshes.length = 3
    · rw [if_pos hc, if_pos hc]
      have := ih ⟨_, obj.edge2meshes, obj.edge2weight, obj.V⟩ _ hset
      simp only [List.length_append, List.length_singleton] at this
      rw [this]
      cases nebPass obj.edge2meshes (done.length + 1) rest <;> simp
    · rw [if_neg hc, if_neg hc]
      rfl

/-- Graph construction in closed form: the meshes of the index buffer with the
neighbour lists read off the incidence lists, or `none` when some neighbour
list does not have exactly three entries. -/
theorem buildGraph_spec (N : Numerics α) (V : Int → Vec3 α) (IDX : List (Int × Int × Int)) :
    ∃ w, buildGraph N V IDX
      = (nebPass (incidentFrom 0 IDX) 0 (meshesFrom 0 V IDX)).map
          (fun r => ⟨r, incidentFrom 0 IDX, w, V⟩) := by
  obtain ⟨h1, h2, h3⟩ := registerTriangles_spec N IDX ⟨[], fun _ => [], fun _ => none, V⟩
  simp only [List.nil_append, List.length_nil] at h1 h2 h3
  have he : (registerTriangles N IDX ⟨[], fun _ => [], fun _ => none, V⟩).edge2meshes
      = incidentFrom 0 IDX := funext h2
  refine ⟨(registerTriangles N IDX ⟨[], fun _ => [], fun _ => none, V⟩).edge2weight, ?_⟩
  have := adjacencyPass_spec (meshesFrom 0 V IDX)
    (registerTriangles N IDX ⟨[], fun _ => [], fun _ => none, V⟩) [] (by simpa using h1)
  simp only [List.length_nil, List.nil_append] at this
  simp only [buildGraph, List.range_eq_range', h1]
  rw [this, he, h3]

end Graph

/-! ## Facts about the built graph -/

section GraphFacts

variable {α : Type} [LinearOrderedField α]

theorem edgeKey_cases (x y : Int) : edgeKey x y = (x, y) ∨ edgeKey x y = (y, x) := by
  unfold edgeKey
  split
  · exact Or.inl rfl
  · exact Or.inr rfl

theorem meshesFrom_length (k : Nat) (V : Int → Vec3 α) (IDX : List (Int × Int × Int)) :
    (meshesFrom k V IDX).length = IDX.length := by
  induction IDX generalizing k with
  | nil => rfl
  | cons t rest ih =>
    obtain ⟨a, b, c⟩ := t
    simp [meshesFrom, ih]

theorem meshesFrom_getElem? (V : Int → Vec3 α) (IDX : List (Int × Int × Int)) :
    ∀ (k i : Nat), (meshesFrom k V IDX)[i]?
      = (IDX[i]?).map (fun t => Mesh.mk3 (k + i) V t.1 t.2.1 t.2.2) := by
  induction IDX with
  | nil => intro k i; simp [meshesFrom]
  | cons t rest ih =>
    intro k i
    obtain ⟨a, b, c⟩ := t
    cases i with
    | zero => simp [meshesFrom]
    | succ j =>
      simp only [meshesFrom, List.getElem?_cons_succ, ih]
      congr 1
      funext t
      congr 1
      omega

theorem mem_incidentFrom (IDX : List (Int × Int × Int)) :
    ∀ (k nb : Nat) (e : Int × Int), nb ∈ incidentFrom k IDX e →
      ∃ i t, IDX[i]? = some t ∧ nb = k + i ∧
        (e = edgeKey t.1 t.2.1 ∨ e = edgeKey t.2.1 t.2.2 ∨ e = edgeKey t.1 t.2.2) := by
  induction IDX with
  | nil => intro k nb e h; simp [incidentFrom] at h
  | cons t rest ih =>
    intro k nb e h
    obtain ⟨a, b, c⟩ := t
    simp only [incidentFrom, List.mem_append] at h
    rcases h with ((h | h) | h) | h
    · split at h
      · simp at h
        exact ⟨0, (a, b, c), by simp, by omega, Or.inl ‹_›⟩
      · simp at h
    · split at h
      · simp at h
        exact ⟨0, (a, b, c), by simp, by omega, Or.inr (Or.inl ‹_›)⟩
      · simp at h
    · split at h
      · simp at h
        exact ⟨0, (a, b, c), by simp, by omega, Or.inr (Or.inr ‹_›)⟩
      · simp at h
    · obtain ⟨i, t, h1, h2, h3⟩ := ih (k + 1) nb e h
      exact ⟨i + 1, t, by simpa using h1, by omega, h3⟩

theorem mem_nebsOf (e2m : Int × Int → List Nat) (p : Nat) (a b c : Int) (nb : Nat)
    (e : Int × Int) (h : (nb, e) ∈ nebsOf e2m p a b c) :
    nb ∈ e2m e ∧ nb ≠ p ∧ (e = edgeKey a b ∨ e = edgeKey b c ∨ e = edgeKey a c) := by
  simp only [nebsOf, foundOn, List.mem_append, List.mem_map, List.mem_filter, bne_iff_ne,
    Prod.mk.injEq] at h
  rcases h with (⟨x, ⟨h1, h2⟩, rfl, rfl⟩ | ⟨x, ⟨h1, h2⟩, rfl, rfl⟩) | ⟨x, ⟨h1, h2⟩, rfl, rfl⟩
  · exact ⟨h1, h2, Or.inl rfl⟩
  · exact ⟨h1, h2, Or.inr (Or.inl rfl)⟩
  · exact ⟨h1, h2, Or.inr (Or.inr rfl)⟩

/-- What a successful adjacency pass returns, and that every check passed. -/
theorem nebPass_some (e2m : Int × Int → List Nat) (ms : List (Mesh α)) :
    ∀ (k : Nat) (r : List (Mesh α)), nebPass e2m k ms = some r →
      r.length = ms.length ∧
      (∀ i : Nat, r[i]? = (ms[i]?).map
        (fun m : Mesh α => m.addNebs (nebsOf e2m (k + i) (m.vid 0) (m.vid 1) (m.vid 2)))) ∧
      (∀ (i : Nat) (m : Mesh α), ms[i]? = some m →
        (m.addNebs (nebsOf e2m (k + i) (m.vid 0) (m.vid 1) (m.vid 2))).nebMeshes.length = 3) := by
  induction ms with
  | nil =>
    intro k r h
    simp only [nebPass, Option.some.injEq] at h
    subst h
    simp
  | cons m rest ih =>
    intro k r h
    simp only [nebPass] at h
    split at h
    · rename_i hc
      cases hr : nebPass e2m (k + 1) rest with
      | none => simp [hr] at h
      | some r' =>
        simp only [hr, Option.map_some', Option.some.injEq] at h
        subst h
        obtain ⟨h1, h2, h3⟩ := ih (k + 1) r' hr
        refine ⟨by simp [h1], ?_, ?_⟩
        · intro i
          cases i with
          | zero => simp
          | succ j =>
            simp only [List.getElem?_cons_succ, h2]
            congr 1
            funext m'
            congr 2
            omega
        · intro i m' hm
          cases i with
          | zero =>
            simp at hm
            subst hm
            simpa using hc
          | succ j =>
            simp only [List.getElem?_cons_succ] at hm
            have := h3 j m' hm
            have e : k + 1 + j = k + (j + 1) := by omega
            rw [e] at this
            exact this
    · simp at h

/-- A failed check makes the adjacency pass fail. -/
theorem nebPass_none (e2m : Int × Int → List Nat) (ms : List (Mesh α)) (k i : Nat) (m : Mesh α)
    (hm : ms[i]? = some m)
    (hbad : (m.addNebs (nebsOf e2m (k + i) (m.vid 0) (m.vid 1) (m.vid 2))).nebMeshes.length ≠ 3) :
    nebPass e2m k ms = none := by
  cases h : nebPass e2m k ms with
  | none => rfl
  | some r => exact absurd ((nebPass_some e2m ms k r h).2.2 i m hm) hbad

end GraphFacts

section GraphOKFacts

variable {α : Type} [LinearOrderedField α]

theorem deref_eq_getElem? (ms : List (Mesh α)) (p : Nat) : deref ms p = (ms[p]?).getD default := by
  simp [deref]

/-- Closed form of the meshes of a successfully built graph. -/
theorem buildGraph_meshes (N : Numerics α) (V : Int → Vec3 α) (IDX : List (Int × Int × Int))
    (g : FlattenObject α) (hg : buildGraph N V IDX = some g) :
    g.meshes.length = IDX.length ∧
    (∀ p : Nat, g.meshes[p]? = (IDX[p]?).map (fun t =>
      (Mesh.mk3 p V t.1 t.2.1 t.2.2).addNebs
        (nebsOf (incidentFrom 0 IDX) p t.1 t.2.1 t.2.2))) ∧
    (∀ (p : Nat) (t : Int × Int × Int), IDX[p]? = some t →
      (nebsOf (incidentFrom 0 IDX) p t.1 t.2.1 t.2.2).length = 3) := by
  obtain ⟨w, hw⟩ := buildGraph_spec N V IDX
  rw [hw] at hg
  cases hr : nebPass (incidentFrom 0 IDX) 0 (meshesFrom 0 V IDX) with
  | none => simp [hr] at hg
  | some r =>
    simp only [hr, Option.map_some', Option.some.injEq] at hg
    subst hg
    obtain ⟨h1, h2, h3⟩ := nebPass_some _ _ _ _ hr
    refine ⟨by simpa [meshesFrom_length] using h1, ?_, ?_⟩
    · intro p
      show r[p]? = _
      rw [h2, meshesFrom_getElem?]
      cases IDX[p]? with
      | none => rfl
      | some t => simp [Mesh.vid, Mesh.mk3]
    · intro p t ht
      have := h3 p (Mesh.mk3 p V t.1 t.2.1 t.2.2) (by simp [meshesFrom_getElem?, ht])
      simpa [Mesh.addNebs, Mesh.vid, Mesh.mk3] using this

/-- Graph construction succeeds when every triangle gets exactly three
neighbour entries. -/
theorem buildGraph_isSome (N : Numerics α) (V : Int → Vec3 α) (IDX : List (Int × Int × Int))
    (h : ∀ (p : Nat) (t : Int × Int × Int), IDX[p]? = some t →
      (nebsOf (incidentFrom 0 IDX) p t.1 t.2.1 t.2.2).length = 3) :
    ∃ g, buildGraph N V IDX = some g := by
  obtain ⟨w, hw⟩ := buildGraph_spec N V IDX
  rw [hw]
  have key : ∀ (ms : List (Mesh α)) (k : Nat),
      (∀ (i : Nat) (m : Mesh α), ms[i]? = some m →
        (m.addNebs (nebsOf (incidentFrom 0 IDX) (k + i) (m.vid 0) (m.vid 1) (m.vid 2))).nebMeshes.length
          = 3) → ∃ r, nebPass (incidentFrom 0 IDX) k ms = some r := by
    intro ms
    induction ms with
    | nil => intro k _; exact ⟨[], rfl⟩
    | cons m rest ih =>
      intro k hk
      have h0 := hk 0 m (by simp)
      obtain ⟨r, hr⟩ := ih (k + 1) (fun i m' hm => by
        have := hk (i + 1) m' (by simpa using hm)
        have e : k + 1 + i = k + (i + 1) := by omega
        rw [e]
        exact this)
      refine ⟨m.addNebs (nebsOf (incidentFrom 0 IDX) k (m.vid 0) (m.vid 1) (m.vid 2)) :: r, ?_⟩
      simp only [nebPass]
      rw [if_pos (by simpa using h0), hr]
      rfl
  obtain ⟨r, hr⟩ := key (meshesFrom 0 V IDX) 0 (fun i m hm => by
    rw [meshesFrom_getElem?] at hm
    cases ht : IDX[i]? with
    | none => simp [ht] at hm
    | some t =>
      simp only [ht, Option.map_some', Option.some.injEq] at hm
      subst hm
      simpa [Mesh.addNebs, Mesh.vid, Mesh.mk3] using h i t ht)
  exact ⟨_, by rw [hr]; rfl⟩

/-- Graph construction fails when some triangle does not get exactly three
neighbour entries. -/
theorem buildGraph_eq_none (N : Numerics α) (V : Int → Vec3 α) (IDX : List (Int × Int × Int))
    (p : Nat) (t : Int × Int × Int) (ht : IDX[p]? = some t)
    (hbad : (nebsOf (incidentFrom 0 IDX) p t.1 t.2.1 t.2.2).length ≠ 3) :
    buildGraph N V IDX = none := by
  cases hg : buildGraph N V IDX with
  | none => rfl
  | some g => exact absurd ((buildGraph_meshes N V IDX g hg).2.2 p t ht) hbad

end GraphOKFacts

section GraphFacts2

variable {α : Type} [LinearOrderedField α]

theorem mk3_vid2v (i : Nat) (V : Int → Vec3 α) (a b c u : Int) (hu : u = a ∨ u = b ∨ u = c) :
    (Mesh.mk3 i V a b c).vid2v u = V u := by
  simp only [Mesh.mk3, assign]
  rcases hu with rfl | rfl | rfl
  · split
    · rename_i h; rw [h]
    · split
      · rename_i h; rw [h]
      · simp
  · split
    · rename_i h; rw [h]
    · simp
  · simp

theorem mk3_vid2fv (i : Nat) (V : Int → Vec3 α) (a b c u : Int) :
    (Mesh.mk3 i V a b c).vid2fv u = Vec3.zero := by
  simp only [Mesh.mk3, assign]
  split
  · rfl
  · split
    · rfl
    · split <;> rfl

/-- The meshes of a built graph, triangle by triangle. -/
theorem buildGraph_deref (N : Numerics α) (V : Int → Vec3 α) (IDX : List (Int × Int × Int))
    (g : FlattenObject α) (hg : buildGraph N V IDX = some g) (p : Nat) (t : Int × Int × Int)
    (ht : IDX[p]? = some t) :
    deref g.meshes p = (Mesh.mk3 p V t.1 t.2.1 t.2.2).addNebs
      (nebsOf (incidentFrom 0 IDX) p t.1 t.2.1 t.2.2) := by
  rw [deref_eq_getElem?, (buildGraph_meshes N V IDX g hg).2.1 p, ht]
  rfl

theorem buildGraph_deref_none (N : Numerics α) (V : Int → Vec3 α) (IDX : List (Int × Int × Int))
    (g : FlattenObject α) (hg : buildGraph N V IDX = some g) (p : Nat) (ht : IDX[p]? = none) :
    deref g.meshes p = default := by
  rw [deref_eq_getElem?, (buildGraph_meshes N V IDX g hg).2.1 p, ht]
  rfl

/-- Every neighbour entry of a built graph joins two triangles of the index
buffer that both have the edge key among their three edges. -/
theorem buildGraph_nebs (N : Numerics α) (V : Int → Vec3 α) (IDX : List (Int × Int × Int))
    (g : FlattenObject α) (hg : buildGraph N V IDX = some g) (p nb : Nat) (e : Int × Int)
    (h : (nb, e) ∈ (deref g.meshes p).nebMeshes) :
    ∃ t t', IDX[p]? = some t ∧ IDX[nb]? = some t' ∧ nb ≠ p ∧ IsEdgeKey e t ∧ IsEdgeKey e t' := by
  cases ht : IDX[p]? with
  | none =>
    rw [buildGraph_deref_none N V IDX g hg p ht] at h
    simp [default] at h
  | some t =>
    rw [buildGraph_deref N V IDX g hg p t ht] at h
    simp only [Mesh.addNebs, Mesh.mk3, List.nil_append] at h
    obtain ⟨h1, h2, h3⟩ := mem_nebsOf _ _ _ _ _ _ _ h
    obtain ⟨i, t', h4, h5, h6⟩ := mem_incidentFrom _ _ _ _ h1
    have : nb = i := by omega
    subst this
    exact ⟨t, t', rfl, h4, h2, h3, h6⟩

theorem isEdgeKey_mem (e : Int × Int) (t : Int × Int × Int) (h : IsEdgeKey e t) :
    ∃ xy ∈ edgesOf t, (e = xy ∨ e = (xy.2, xy.1)) := by
  rcases h with h | h | h
  · rcases edgeKey_cases t.1 t.2.1 with h' | h'
    · exact ⟨(t.1, t.2.1), by simp [edgesOf], Or.inl (h.trans h')⟩
    · exact ⟨(t.1, t.2.1), by simp [edgesOf], Or.inr (h.trans h')⟩
  · rcases edgeKey_cases t.2.1 t.2.2 with h' | h'
    · exact ⟨(t.2.1, t.2.2), by simp [edgesOf], Or.inl (h.trans h')⟩
    · exact ⟨(t.2.1, t.2.2), by simp [edgesOf], Or.inr (h.trans h')⟩
  · rcases edgeKey_cases t.1 t.2.2 with h' | h'
    · exact ⟨(t.1, t.2.2), by simp [edgesOf], Or.inl (h.trans h')⟩
    · exact ⟨(t.1, t.2.2), by simp [edgesOf], Or.inr (h.trans h')⟩

end GraphFacts2

section Isometry

theorem Vec3.squaredNorm_sub_comm (a b : Vec3 ℝ) :
    (Vec3.sub a b).squaredNorm = (Vec3.sub b a).squaredNorm := by
  simp only [Vec3.sub, Vec3.squaredNorm]
  ring

theorem Vec3.squaredNorm_sub_self (a : Vec3 ℝ) : (Vec3.sub a a).squaredNorm = 0 := by
  simp [Vec3.sub, Vec3.squaredNorm]

theorem ne_of_norm_pos (N : Numerics ℝ) (hs : N.sqrt = Real.sqrt) (V : Int → Vec3 ℝ) (x y : Int)
    (h : 0 < Vec3.norm N (Vec3.sub (V x) (V y))) : x ≠ y := by
  rintro rfl
  simp [Vec3.norm, hs, Vec3.squaredNorm_sub_self] at h

/-- A triangle whose three flat corners are at the right squared distances is
laid out isometrically. -/
theorem isometric_of_placement (v fv : Int → Vec3 ℝ) (a b c : Int) (P1 P2 p : Vec3 ℝ)
    (hfa : fv a = P1) (hfb : fv b = P2) (hfc : fv c = p)
    (hz1 : P1.z = 0) (hz2 : P2.z = 0) (hzp : p.z = 0)
    (h12 : (Vec3.sub P2 P1).squaredNorm = (Vec3.sub (v b) (v a)).squaredNorm)
    (hc1 : (Vec3.sub p P1).squaredNorm = (Vec3.sub (v c) (v a)).squaredNorm)
    (hc2 : (Vec3.sub p P2).squaredNorm = (Vec3.sub (v c) (v b)).squaredNorm)
    (u w : Int) (hu : u = a ∨ u = b ∨ u = c) (hw : w = a ∨ w = b ∨ w = c) :
    (fv u).z = 0 ∧
      (Vec3.sub (fv u) (fv w)).squaredNorm = (Vec3.sub (v u) (v w)).squaredNorm := by
  have h21 := (Vec3.squaredNorm_sub_comm P1 P2).trans (h12.trans (Vec3.squaredNorm_sub_comm _ _))
  have h1c := (Vec3.squaredNorm_sub_comm P1 p).trans (hc1.trans (Vec3.squaredNorm_sub_comm _ _))
  have h2c := (Vec3.squaredNorm_sub_comm P2 p).trans (hc2.trans (Vec3.squaredNorm_sub_comm _ _))
  rcases hu with rfl | rfl | rfl <;> rcases hw with rfl | rfl | rfl <;>
    simp only [hfa, hfb, hfc, hz1, hz2, hzp, Vec3.squaredNorm_sub_self, h12, hc1, hc2, h21, h1c,
      h2c, and_self, true_and]

end Isometry

/-! ## Invariants of the traversal -/

section Traversal

variable {α : Type} [LinearOrderedField α]

theorem sameShape_refl (ms : List (Mesh α)) : SameShape ms ms :=
  ⟨rfl, fun _ => ⟨rfl, rfl, rfl⟩⟩

theorem sameShape_trans {ms1 ms2 ms3 : List (Mesh α)} (h12 : SameShape ms1 ms2)
    (h23 : SameShape ms2 ms3) : SameShape ms1 ms3 :=
  ⟨h23.1.trans h12.1, fun p =>
    ⟨(h23.2 p).1.trans (h12.2 p).1, (h23.2 p).2.1.trans (h12.2 p).2.1,
      (h23.2 p).2.2.trans (h12.2 p).2.2⟩⟩

theorem sameShape_setFlat (ms : List (Mesh α)) (p : Nat) (k : Int) (v : Vec3 α) :
    SameShape ms (setFlat ms p k v) :=
  ⟨length_setFlat ms p k v, fun q =>
    ⟨deref_setFlat_vids ms p q k v, deref_setFlat_vid2v ms p q k v,
      deref_setFlat_nebMeshes ms p q k v⟩⟩

theorem sameShape_placed (ms : List (Mesh α)) (n : Nat) (a b c : Int) (pa pb pc : Vec3 α) :
    SameShape ms (placed ms n a b c pa pb pc) :=
  sameShape_trans (sameShape_trans (sameShape_setFlat ms n a pa) (sameShape_setFlat _ n b pb))
    (sameShape_setFlat _ n c pc)

theorem deref_placed_ne (ms : List (Mesh α)) (n p : Nat) (a b c : Int) (pa pb pc : Vec3 α)
    (hp : n ≠ p) : deref (placed ms n a b c pa pb pc) p = deref ms p :=
  deref_setFlat3_ne ms n p a b c pa pb pc hp

/-- The flat positions of the mesh that `placed` writes: `c` gets `pc`, `b`
gets `pb` unless `b = c`, `a` gets `pa` unless `a = b` or `a = c`. -/
theorem deref_placed_vid2fv (ms : List (Mesh α)) (n : Nat) (a b c : Int) (pa pb pc : Vec3 α)
    (hn : n < ms.length) (j : Int) :
    (deref (placed ms n a b c pa pb pc) n).vid2fv j
      = if j = c then pc else if j = b then pb else if j = a then pa else (deref ms n).vid2fv j := by
  rw [placed, deref_setFlat3 ms n a b c pa pb pc hn]
  simp only [assign]

/-- A successful `flattenMesh` places the mesh: the store it returns. -/
theorem flattenMesh_true (N : Numerics α) (ms ms' : List (Mesh α)) (T n : Nat) (e : Int × Int)
    (fl : List Nat) (h : flattenMesh N ms T n e fl = some (true, ms')) :
    ∃ c p, (deref ms n).vids.find? (fun vid => vid != e.1 && vid != e.2) = some c ∧
      flattenVertex N ms (deref ms n) c e.1 e.2 ((deref ms T).vid2fv e.1)
        ((deref ms T).vid2fv e.2) fl = some p ∧
      ms' = placed ms n e.1 e.2 c ((deref ms T).vid2fv e.1)
        ((deref (setFlat ms n e.1 ((deref ms T).vid2fv e.1)) T).vid2fv e.2) p := by
  simp only [flattenMesh] at h
  cases hf : (deref ms n).vids.find? (fun vid => vid != e.1 && vid != e.2) with
  | none => simp [hf] at h
  | some c =>
    simp only [hf] at h
    cases hv : flattenVertex N ms (deref ms n) c e.1 e.2 ((deref ms T).vid2fv e.1)
        ((deref ms T).vid2fv e.2) fl with
    | none => simp [hv] at h
    | some p =>
      simp only [hv, Option.some.injEq, Prod.mk.injEq, true_and] at h
      exact ⟨c, p, rfl, hv, h.symm⟩

/-- A failed `flattenMesh` leaves the store untouched. -/
theorem flattenMesh_false (N : Numerics α) (ms ms' : List (Mesh α)) (T n : Nat) (e : Int × Int)
    (fl : List Nat) (h : flattenMesh N ms T n e fl = some (false, ms')) : ms' = ms := by
  simp only [flattenMesh] at h
  cases hf : (deref ms n).vids.find? (fun vid => vid != e.1 && vid != e.2) with
  | none => simp [hf] at h
  | some c =>
    simp only [hf] at h
    cases hv : flattenVertex N ms (deref ms n) c e.1 e.2 ((deref ms T).vid2fv e.1)
        ((deref ms T).vid2fv e.2) fl with
    | none =>
      simp only [hv, Option.some.injEq, Prod.mk.injEq, true_and] at h
      exact h.symm
    | some p => simp [hv] at h

/-- Whatever it returns, `flattenMesh` keeps the shape of the store and only
touches the target mesh. -/
theorem flattenMesh_sameShape (N : Numerics α) (ms ms' : List (Mesh α)) (T n : Nat)
    (e : Int × Int) (fl : List Nat) (ok : Bool) (h : flattenMesh N ms T n e fl = some (ok, ms')) :
    SameShape ms ms' ∧ ∀ p, n ≠ p → deref ms' p = deref ms p := by
  cases ok with
  | false =>
    rw [flattenMesh_false N ms ms' T n e fl h]
    exact ⟨sameShape_refl ms, fun _ _ => rfl⟩
  | true =>
    obtain ⟨c, p, -, -, rfl⟩ := flattenMesh_true N ms ms' T n e fl h
    exact ⟨sameShape_placed _ _ _ _ _ _ _ _, fun q hq => deref_placed_ne _ _ _ _ _ _ _ _ _ hq⟩

/-- Invariants of the inner loop: a property of the traversal state that every
successful placement from `curMesh` keeps holds after the loop. -/
theorem visitNeighbours_invariant (N : Numerics α) (curMesh : Nat) (P : Bfs α → Prop)
    (nebs : List (Nat × (Int × Int)))
    (hstep : ∀ (st : Bfs α) (nebMesh : Nat) (edge : Int × Int) (ms' : List (Mesh α)),
      (nebMesh, edge) ∈ nebs → P st → nebMesh ∉ st.flattened →
      flattenMesh N st.meshes curMesh nebMesh edge st.flattened = some (true, ms') →
      P ⟨ms', st.flattened ++ [nebMesh], st.q ++ [nebMesh]⟩) :
    ∀ (st st' : Bfs α), P st → visitNeighbours N curMesh nebs st = some st' → P st' := by
  induction nebs with
  | nil =>
    intro st st' hP h
    simp only [visitNeighbours, Option.some.injEq] at h
    exact h ▸ hP
  | cons x rest ih =>
    obtain ⟨nebMesh, edge⟩ := x
    have ih' := ih (fun st nb e ms' hmem => hstep st nb e ms' (List.mem_cons_of_mem _ hmem))
    intro st st' hP h
    simp only [visitNeighbours] at h
    split at h
    · exact ih' st st' hP h
    · rename_i hnot
      cases hf : flattenMesh N st.meshes curMesh nebMesh edge st.flattened with
      | none => simp [hf] at h
      | some r =>
        obtain ⟨ok, ms'⟩ := r
        cases ok with
        | true =>
          simp only [hf] at h
          exact ih' _ st' (hstep st nebMesh edge ms' (List.mem_cons_self _ _) hP hnot hf) h
        | false =>
          simp only [hf] at h
          exact ih' st st' hP h

/-- Invariants of the traversal: a property `J` of the store and the flattened
set that every successful placement keeps (from a flattened mesh to one of its
listed neighbours outside the flattened set) holds when the loop ends, and the
queue is then empty. -/
theorem bfs_invariant (N : Numerics α) (J : List (Mesh α) → List Nat → Prop)
    (hJ : ∀ (ms : List (Mesh α)) (fl : List Nat) (curMesh nebMesh : Nat) (edge : Int × Int)
      (ms' : List (Mesh α)), J ms fl → curMesh ∈ fl → nebMesh ∉ fl →
      (nebMesh, edge) ∈ (deref ms curMesh).nebMeshes →
      flattenMesh N ms curMesh nebMesh edge fl = some (true, ms') → J ms' (fl ++ [nebMesh])) :
    ∀ (fuel : Nat) (st st' : Bfs α), J st.meshes st.flattened →
      (∀ p ∈ st.q, p ∈ st.flattened) → bfs N fuel st = some st' →
      J st'.meshes st'.flattened ∧ st'.q = [] := by
  intro fuel
  induction fuel with
  | zero =>
    intro st st' hJ0 _ h
    simp only [bfs] at h
    split at h
    · rename_i he
      simp only [Option.some.injEq] at h
      subst h
      exact ⟨hJ0, List.isEmpty_iff.mp he⟩
    · simp at h
  | succ fuel ih =>
    intro st st' hJ0 hq h
    simp only [bfs] at h
    split at h
    · rename_i he
      simp only [Option.some.injEq] at h
      subst h
      exact ⟨hJ0, he⟩
    · rename_i curMesh rest he
      cases hv : visitNeighbours N curMesh (deref st.meshes curMesh).nebMeshes
          { st with q := rest } with
      | none => simp [hv] at h
      | some st1 =>
        simp only [hv] at h
        have hcur : curMesh ∈ st.flattened := hq curMesh (by simp [he])
        have hP := visitNeighbours_invariant N curMesh
          (fun s => J s.meshes s.flattened ∧ curMesh ∈ s.flattened ∧
            (∀ p ∈ s.q, p ∈ s.flattened) ∧
            (deref s.meshes curMesh).nebMeshes = (deref st.meshes curMesh).nebMeshes)
          (deref st.meshes curMesh).nebMeshes
          (fun s nb e ms' hmem hs hnot hf => by
            obtain ⟨h1, h2, h3, h4⟩ := hs
            refine ⟨hJ s.meshes s.flattened curMesh nb e ms' h1 h2 hnot (h4 ▸ hmem) hf,
              List.mem_append_left _ h2, ?_, ?_⟩
            · intro p hp
              rcases List.mem_append.mp hp with hp | hp
              · exact List.mem_append_left _ (h3 p hp)
              · exact List.mem_append_right _ hp
            · exact ((flattenMesh_sameShape N _ _ _ _ _ _ _ hf).1.2 curMesh).2.2.trans h4)
          { st with q := rest } st1
          ⟨hJ0, hcur, fun p hp => hq p (by simp [he, hp]), rfl⟩ hv
        exact ih st1 st' hP.1 hP.2.2.1 h

end Traversal

/-! ## Every flattened mesh is isometric -/

section Run

variable {α : Type} [LinearOrderedField α]

/-- The candidate returned by `flattenVertex` is one of the two candidates. -/
theorem flattenVertex_some (N : Numerics α) (ms : List (Mesh α)) (mesh : Mesh α) (v3 v1 v2 : Int)
    (P1 P2 p : Vec3 α) (fl : List Nat) (h : flattenVertex N ms mesh v3 v1 v2 P1 P2 fl = some p) :
    p = (flatCandidates N (mesh.vid2v v1) (mesh.vid2v v2) (mesh.vid2v v3) P1 P2).1 ∨
    p = (flatCandidates N (mesh.vid2v v1) (mesh.vid2v v2) (mesh.vid2v v3) P1 P2).2 := by
  simp only [flattenVertex] at h
  split at h
  · exact Or.inl (Option.some.inj h).symm
  · split at h
    · exact Or.inr (Option.some.inj h).symm
    · simp at h

/-- The store after `flattenFirst` on a mesh whose first two vertex ids differ,
with an empty flattened set. -/
theorem flattenFirst_spec (N : Numerics α) (meshes : List (Mesh α)) (mesh : Nat) (v1 v2 v3 : Int)
    (hmesh : mesh < meshes.length) (hvids : (deref meshes mesh).vids = [v1, v2, v3])
    (h12 : v1 ≠ v2) :
    flattenFirst N meshes mesh [] = (true, placed meshes mesh v1 v2 v3 ⟨0, 0, 0⟩
      ⟨0, Vec3.norm N (Vec3.sub ((deref meshes mesh).vid2v v1) ((deref meshes mesh).vid2v v2)), 0⟩
      (flatCandidates N ((deref meshes mesh).vid2v v1) ((deref meshes mesh).vid2v v2)
          ((deref meshes mesh).vid2v v3) ⟨0, 0, 0⟩
          ⟨0, Vec3.norm N (Vec3.sub ((deref meshes mesh).vid2v v1) ((deref meshes mesh).vid2v v2)),
            0⟩).1) := by
  have e0 : (deref meshes mesh).vid 0 = v1 := by simp [Mesh.vid, hvids]
  have e1 : (deref meshes mesh).vid 1 = v2 := by simp [Mesh.vid, hvids]
  have e2 : (deref meshes mesh).vid 2 = v3 := by simp [Mesh.vid, hvids]
  simp only [flattenFirst, flattenVertex_nil, e0, e1, e2, placed, deref_setFlat_vid2fv,
    deref_setFlat_vid2v, length_setFlat]
  simp [hmesh, h12, h12.symm]

/-- The constructor returns a state only when the graph is built, has a first
mesh, and the traversal from the seeded store returns that state. -/
theorem ctor_some (N : Numerics α) (V : Int → Vec3 α) (IDX : List (Int × Int × Int))
    (st : Bfs α) (h : FlattenObject.ctor N V IDX = some st) :
    ∃ g, buildGraph N V IDX = some g ∧ 0 < g.meshes.length ∧
      bfs N (flattenFirst N g.meshes 0 []).2.length
        ⟨(flattenFirst N g.meshes 0 []).2, [0], [0]⟩ = some st := by
  simp only [FlattenObject.ctor] at h
  cases hg : buildGraph N V IDX with
  | none => simp [hg] at h
  | some g =>
    simp only [hg, flattenAll] at h
    split at h
    · simp at h
    · rename_i hne
      refine ⟨g, rfl, ?_, h⟩
      cases hm : g.meshes with
      | nil => simp [hm] at hne
      | cons _ _ => simp

end Run

section IsometricRun

theorem mem_vids3 (a b c u : Int) (h : u ∈ [a, b, c]) : u = a ∨ u = b ∨ u = c := by
  simpa using h

/-- In a triangle with three vertex ids, three pairwise distinct members cover
every member. -/
theorem cover3 (a b c x y z u : Int) (hx : x = a ∨ x = b ∨ x = c) (hy : y = a ∨ y = b ∨ y = c)
    (hz : z = a ∨ z = b ∨ z = c) (hxy : x ≠ y) (hxz : x ≠ z) (hyz : y ≠ z)
    (hu : u = a ∨ u = b ∨ u = c) : u = x ∨ u = y ∨ u = z := by
  omega

/-- The positive length of an edge of the index buffer, read in either
direction, and the distinctness of its ends. -/
theorem positive_of_isEdgeKey (N : Numerics ℝ) (hs : N.sqrt = Real.sqrt) (V : Int → Vec3 ℝ)
    (IDX : List (Int × Int × Int)) (hpos : PositiveEdges N V IDX) (p : Nat)
    (t : Int × Int × Int) (ht : IDX[p]? = some t) (e : Int × Int) (hk : IsEdgeKey e t) :
    e.1 ≠ e.2 ∧ 0 < Vec3.norm N (Vec3.sub (V e.2) (V e.1)) ∧
      e.1 ∈ [t.1, t.2.1, t.2.2] ∧ e.2 ∈ [t.1, t.2.1, t.2.2] := by
  obtain ⟨xy, hxy, hcase⟩ := isEdgeKey_mem e t hk
  have hp := hpos t (List.getElem?_mem ht) xy hxy
  have hne := ne_of_norm_pos N hs V _ _ hp
  have hmem : xy.1 ∈ [t.1, t.2.1, t.2.2] ∧ xy.2 ∈ [t.1, t.2.1, t.2.2] := by
    simp only [edgesOf, List.mem_cons, List.mem_singleton, List.not_mem_nil, or_false] at hxy
    rcases hxy with rfl | rfl | rfl <;> simp
  rcases hcase with rfl | rfl
  · refine ⟨hne, ?_, hmem.1, hmem.2⟩
    simp only [Vec3.norm] at hp ⊢
    rwa [Vec3.squaredNorm_sub_comm]
  · exact ⟨hne.symm, hp, hmem.2, hmem.1⟩

/-- One successful placement keeps every flattened mesh isometric. -/
theorem isometric_step (N : Numerics ℝ) (hs : N.sqrt = Real.sqrt) (V : Int → Vec3 ℝ)
    (IDX : List (Int × Int × Int)) (g : FlattenObject ℝ) (hg : buildGraph N V IDX = some g)
    (hpos : PositiveEdges N V IDX) (ms : List (Mesh ℝ)) (fl : List Nat) (cur nb : Nat)
    (e : Int × Int) (ms' : List (Mesh ℝ))
    (hJ : SameShape g.meshes ms ∧ ∀ p ∈ fl, Isometric (deref ms p))
    (hcur : cur ∈ fl) (hnb : nb ∉ fl) (hmem : (nb, e) ∈ (deref ms cur).nebMeshes)
    (hf : flattenMesh N ms cur nb e fl = some (true, ms')) :
    SameShape g.meshes ms' ∧ ∀ p ∈ fl ++ [nb], Isometric (deref ms' p) := by
  obtain ⟨hshape, hiso⟩ := hJ
  obtain ⟨hsh', hother⟩ := flattenMesh_sameShape N ms ms' cur nb e fl true hf
  refine ⟨sameShape_trans hshape hsh', ?_⟩
  intro p hp
  rcases List.mem_append.mp hp with hp | hp
  · have hne : nb ≠ p := fun h => hnb (h ▸ hp)
    rw [hother p hne]
    exact hiso p hp
  · have hpnb : p = nb := by simpa using hp
    subst hpnb
    -- the graph facts
    have hmem' : (p, e) ∈ (deref g.meshes cur).nebMeshes := by
      rw [← (hshape.2 cur).2.2]
      exact hmem
    obtain ⟨t, t', ht, ht', hne, hk, hk'⟩ := buildGraph_nebs N V IDX g hg cur p e hmem'
    have hdc := buildGraph_deref N V IDX g hg cur t ht
    have hdn := buildGraph_deref N V IDX g hg p t' ht'
    have hvc : (deref ms cur).vids = [t.1, t.2.1, t.2.2] := by
      rw [(hshape.2 cur).1, hdc]
      rfl
    have hvn : (deref ms p).vids = [t'.1, t'.2.1, t'.2.2] := by
      rw [(hshape.2 p).1, hdn]
      rfl
    have hVc : ∀ u ∈ [t.1, t.2.1, t.2.2], (deref ms cur).vid2v u = V u := by
      intro u hu
      rw [(hshape.2 cur).2.1, hdc]
      exact mk3_vid2v cur V _ _ _ _ (mem_vids3 _ _ _ _ hu)
    have hVn : ∀ u ∈ [t'.1, t'.2.1, t'.2.2], (deref ms p).vid2v u = V u := by
      intro u hu
      rw [(hshape.2 p).2.1, hdn]
      exact mk3_vid2v p V _ _ _ _ (mem_vids3 _ _ _ _ hu)
    have hlen : p < ms.length := by
      rw [hshape.1, (buildGraph_meshes N V IDX g hg).1]
      exact (List.getElem?_eq_some_iff.mp ht').1
    obtain ⟨he12, hL, he1c, he2c⟩ := positive_of_isEdgeKey N hs V IDX hpos cur t ht e hk
    obtain ⟨-, -, he1n, he2n⟩ := positive_of_isEdgeKey N hs V IDX hpos p t' ht' e hk'
    -- the placement
    obtain ⟨c, q, hfind, hfv, rfl⟩ := flattenMesh_true N ms ms' cur p e fl hf
    have hcmem : c ∈ [t'.1, t'.2.1, t'.2.2] := hvn ▸ List.mem_of_find?_eq_some hfind
    have hcne : c ≠ e.1 ∧ c ≠ e.2 := by
      have := List.find?_some hfind
      simpa using this
    have hcurp : p ≠ cur := hne
    have hPB : (deref (setFlat ms p e.1 ((deref ms cur).vid2fv e.1)) cur).vid2fv e.2
        = (deref ms cur).vid2fv e.2 := by
      rw [deref_setFlat_ne _ _ _ _ _ hcurp]
    rw [hPB]
    have hisoc := hiso cur hcur
    rw [Isometric, hvc] at hisoc
    have hz1 := hisoc.1 e.1 he1c
    have hz2 := hisoc.1 e.2 he2c
    have h12 := hisoc.2 e.2 he2c e.1 he1c
    rw [hVc e.2 he2c, hVc e.1 he1c] at h12
    have hcand := flatCandidates_squaredNorm N hs (V e.1) (V e.2) (V c)
      ((deref ms cur).vid2fv e.1) ((deref ms cur).vid2fv e.2) hL hz1 hz2
      (by simp only [Vec3.norm, h12])
    have hq : (Vec3.sub q ((deref ms cur).vid2fv e.1)).squaredNorm
          = (Vec3.sub (V c) (V e.1)).squaredNorm ∧
        (Vec3.sub q ((deref ms cur).vid2fv e.2)).squaredNorm
          = (Vec3.sub (V c) (V e.2)).squaredNorm ∧ q.z = 0 := by
      rcases flattenVertex_some N ms _ _ _ _ _ _ _ _ hfv with h | h
      · rw [hVn e.1 he1n, hVn e.2 he2n, hVn c hcmem] at h
        rw [h]
        exact ⟨hcand.1.1, hcand.1.2, hcand.2.2.1⟩
      · rw [hVn e.1 he1n, hVn e.2 he2n, hVn c hcmem] at h
        rw [h]
        exact ⟨hcand.2.1.1, hcand.2.1.2, hcand.2.2.2⟩
    have hnewv : (deref (placed ms p e.1 e.2 c ((deref ms cur).vid2fv e.1)
        ((deref ms cur).vid2fv e.2) q) p).vid2v = (deref ms p).vid2v :=
      ((sameShape_placed ms p e.1 e.2 c _ _ q).2 p).2.1
    have hnewvids : (deref (placed ms p e.1 e.2 c ((deref ms cur).vid2fv e.1)
        ((deref ms cur).vid2fv e.2) q) p).vids = [t'.1, t'.2.1, t'.2.2] :=
      ((sameShape_placed ms p e.1 e.2 c _ _ q).2 p).1.trans hvn
    have hcover : ∀ u ∈ [t'.1, t'.2.1, t'.2.2], u = e.1 ∨ u = e.2 ∨ u = c := fun u hu =>
      cover3 t'.1 t'.2.1 t'.2.2 e.1 e.2 c u (mem_vids3 _ _ _ _ he1n) (mem_vids3 _ _ _ _ he2n)
        (mem_vids3 _ _ _ _ hcmem) he12 hcne.1.symm hcne.2.symm (mem_vids3 _ _ _ _ hu)
    have key := isometric_of_placement (deref ms p).vid2v
      (deref (placed ms p e.1 e.2 c ((deref ms cur).vid2fv e.1)
        ((deref ms cur).vid2fv e.2) q) p).vid2fv e.1 e.2 c
      ((deref ms cur).vid2fv e.1) ((deref ms cur).vid2fv e.2) q
      (by rw [deref_placed_vid2fv _ _ _ _ _ _ _ _ hlen]; simp [hcne.1.symm, he12])
      (by rw [deref_placed_vid2fv _ _ _ _ _ _ _ _ hlen]; simp [hcne.2.symm])
      (by rw [deref_placed_vid2fv _ _ _ _ _ _ _ _ hlen]; simp)
      hz1 hz2 hq.2.2
      (by rw [hVn e.2 he2n, hVn e.1 he1n]; exact h12)
      (by rw [hVn c hcmem, hVn e.1 he1n]; exact hq.1)
      (by rw [hVn c hcmem, hVn e.2 he2n]; exact hq.2.1)
    rw [Isometric, hnewvids, hnewv]
    exact ⟨fun u hu => (key u u (hcover u hu) (hcover u hu)).1,
      fun u hu w hw => (key u w (hcover u hu) (hcover w hw)).2⟩

end IsometricRun

section IsometricRun2

/-- The seed triangle is laid out isometrically. -/
theorem isometric_seed (N : Numerics ℝ) (hs : N.sqrt = Real.sqrt) (V : Int → Vec3 ℝ)
    (IDX : List (Int × Int × Int)) (g : FlattenObject ℝ) (hg : buildGraph N V IDX = some g)
    (hpos : PositiveEdges N V IDX) (h0 : 0 < g.meshes.length) :
    SameShape g.meshes (flattenFirst N g.meshes 0 []).2 ∧
      ∀ p ∈ [0], Isometric (deref (flattenFirst N g.meshes 0 []).2 p) := by
  have hlen : 0 < IDX.length := (buildGraph_meshes N V IDX g hg).1 ▸ h0
  obtain ⟨t, ht⟩ : ∃ t, IDX[0]? = some t := ⟨IDX[0], List.getElem?_eq_getElem hlen⟩
  have hd := buildGraph_deref N V IDX g hg 0 t ht
  have hv : (deref g.meshes 0).vids = [t.1, t.2.1, t.2.2] := by rw [hd]; rfl
  have hV : ∀ u ∈ [t.1, t.2.1, t.2.2], (deref g.meshes 0).vid2v u = V u := by
    intro u hu
    rw [hd]
    exact mk3_vid2v 0 V _ _ _ _ (mem_vids3 _ _ _ _ hu)
  have hmem := List.getElem?_mem ht
  have pab := hpos t hmem (t.1, t.2.1) (by simp [edgesOf])
  have pbc := hpos t hmem (t.2.1, t.2.2) (by simp [edgesOf])
  have pac := hpos t hmem (t.1, t.2.2) (by simp [edgesOf])
  have hab := ne_of_norm_pos N hs V _ _ pab
  have hbc := ne_of_norm_pos N hs V _ _ pbc
  have hac := ne_of_norm_pos N hs V _ _ pac
  simp only at pab hab hbc hac
  rw [flattenFirst_spec N g.meshes 0 t.1 t.2.1 t.2.2 h0 hv hab]
  refine ⟨sameShape_placed _ _ _ _ _ _ _ _, ?_⟩
  intro p hp
  have hp0 : p = 0 := by simpa using hp
  subst hp0
  rw [hV t.1 (by simp), hV t.2.1 (by simp), hV t.2.2 (by simp)]
  have hL : 0 < Vec3.norm N (Vec3.sub (V t.2.1) (V t.1)) := by
    simp only [Vec3.norm] at pab ⊢
    rwa [Vec3.squaredNorm_sub_comm]
  have hsym : Vec3.norm N (Vec3.sub (V t.1) (V t.2.1)) = Vec3.norm N (Vec3.sub (V t.2.1) (V t.1)) := by
    simp only [Vec3.norm, Vec3.squaredNorm_sub_comm]
  have hLL : Vec3.norm N (Vec3.sub (V t.2.1) (V t.1)) * Vec3.norm N (Vec3.sub (V t.2.1) (V t.1))
      = (Vec3.sub (V t.2.1) (V t.1)).squaredNorm := by
    simp only [Vec3.norm, hs]
    exact Real.mul_self_sqrt (Vec3.squaredNorm_nonneg _)
  rw [hsym]
  have h12 : (Vec3.sub (⟨0, Vec3.norm N (Vec3.sub (V t.2.1) (V t.1)), 0⟩ : Vec3 ℝ)
      ⟨0, 0, 0⟩).squaredNorm = (Vec3.sub (V t.2.1) (V t.1)).squaredNorm := by
    rw [← hLL]
    simp [Vec3.sub, Vec3.squaredNorm]
  have hcand := flatCandidates_squaredNorm N hs (V t.1) (V t.2.1) (V t.2.2) ⟨0, 0, 0⟩
    ⟨0, Vec3.norm N (Vec3.sub (V t.2.1) (V t.1)), 0⟩ hL rfl rfl
    (by
      have := congrArg Real.sqrt h12
      simpa only [Vec3.norm, hs] using this)
  have hnewv := ((sameShape_placed g.meshes 0 t.1 t.2.1 t.2.2 ⟨0, 0, 0⟩
    ⟨0, Vec3.norm N (Vec3.sub (V t.2.1) (V t.1)), 0⟩
    (flatCandidates N (V t.1) (V t.2.1) (V t.2.2) ⟨0, 0, 0⟩
      ⟨0, Vec3.norm N (Vec3.sub (V t.2.1) (V t.1)), 0⟩).1).2 0)
  have key := isometric_of_placement (deref g.meshes 0).vid2v
    (deref (placed g.meshes 0 t.1 t.2.1 t.2.2 ⟨0, 0, 0⟩
      ⟨0, Vec3.norm N (Vec3.sub (V t.2.1) (V t.1)), 0⟩
      (flatCandidates N (V t.1) (V t.2.1) (V t.2.2) ⟨0, 0, 0⟩
        ⟨0, Vec3.norm N (Vec3.sub (V t.2.1) (V t.1)), 0⟩).1) 0).vid2fv t.1 t.2.1 t.2.2
    ⟨0, 0, 0⟩ ⟨0, Vec3.norm N (Vec3.sub (V t.2.1) (V t.1)), 0⟩
    (flatCandidates N (V t.1) (V t.2.1) (V t.2.2) ⟨0, 0, 0⟩
        ⟨0, Vec3.norm N (Vec3.sub (V t.2.1) (V t.1)), 0⟩).1
    (by rw [deref_placed_vid2fv _ _ _ _ _ _ _ _ h0]; simp [hac, hab])
    (by rw [deref_placed_vid2fv _ _ _ _ _ _ _ _ h0]; simp [hbc])
    (by rw [deref_placed_vid2fv _ _ _ _ _ _ _ _ h0]; simp)
    rfl rfl hcand.2.2.1
    (by rw [hV t.2.1 (by simp), hV t.1 (by simp)]; exact h12)
    (by rw [hV t.2.2 (by simp), hV t.1 (by simp)]; exact hcand.1.1)
    (by rw [hV t.2.2 (by simp), hV t.2.1 (by simp)]; exact hcand.1.2)
  rw [Isometric, hnewv.1, hnewv.2.1, hv]
  exact ⟨fun u hu => (key u u (mem_vids3 _ _ _ _ hu) (mem_vids3 _ _ _ _ hu)).1,
    fun u hu w hw => (key u w (mem_vids3 _ _ _ _ hu) (mem_vids3 _ _ _ _ hw)).2⟩

/-- Every flattened mesh of a finished run is laid out isometrically. -/
theorem ctor_isometric (N : Numerics ℝ) (hs : N.sqrt = Real.sqrt) (V : Int → Vec3 ℝ)
    (IDX : List (Int × Int × Int)) (hpos : PositiveEdges N V IDX) (st : Bfs ℝ)
    (hrun : FlattenObject.ctor N V IDX = some st) :
    ∀ p ∈ st.flattened, Isometric (deref st.meshes p) := by
  obtain ⟨g, hg, h0, hb⟩ := ctor_some N V IDX st hrun
  have hseed := isometric_seed N hs V IDX g hg hpos h0
  have := bfs_invariant N (fun ms fl => SameShape g.meshes ms ∧ ∀ p ∈ fl, Isometric (deref ms p))
    (fun ms fl cur nb e ms' hJ hcur hnb hmem hf =>
      isometric_step N hs V IDX g hg hpos ms fl cur nb e ms' hJ hcur hnb hmem hf)
    _ _ st hseed (by simp) hb
  exact this.1.2

end IsometricRun2

/-! ## Positions copied across the shared edge -/

section ParentEdge

variable {α : Type} [LinearOrderedField α]

/-- One successful placement keeps the link of every flattened mesh to the
mesh it was placed from. -/
theorem parent_step (N : Numerics α) (V : Int → Vec3 α) (IDX : List (Int × Int × Int))
    (g : FlattenObject α) (hg : buildGraph N V IDX = some g) (ms : List (Mesh α))
    (fl : List Nat) (cur nb : Nat) (e : Int × Int) (ms' : List (Mesh α))
    (hJ : SameShape g.meshes ms ∧ ∀ n ∈ fl, n = 0 ∨ ∃ T ∈ fl, ∃ e : Int × Int,
      (n, e) ∈ (deref ms T).nebMeshes ∧ (deref ms n).vid2fv e.1 = (deref ms T).vid2fv e.1 ∧
        (deref ms n).vid2fv e.2 = (deref ms T).vid2fv e.2)
    (hcur : cur ∈ fl) (hnb : nb ∉ fl) (hmem : (nb, e) ∈ (deref ms cur).nebMeshes)
    (hf : flattenMesh N ms cur nb e fl = some (true, ms')) :
    SameShape g.meshes ms' ∧ ∀ n ∈ fl ++ [nb], n = 0 ∨ ∃ T ∈ fl ++ [nb], ∃ e : Int × Int,
      (n, e) ∈ (deref ms' T).nebMeshes ∧ (deref ms' n).vid2fv e.1 = (deref ms' T).vid2fv e.1 ∧
        (deref ms' n).vid2fv e.2 = (deref ms' T).vid2fv e.2 := by
  obtain ⟨hshape, hpar⟩ := hJ
  obtain ⟨hsh', hother⟩ := flattenMesh_sameShape N ms ms' cur nb e fl true hf
  refine ⟨sameShape_trans hshape hsh', ?_⟩
  have hcurnb : nb ≠ cur := fun h => hnb (h ▸ hcur)
  intro n hn
  rcases List.mem_append.mp hn with hn | hn
  · rcases hpar n hn with h0 | ⟨T, hT, e', h1, h2, h3⟩
    · exact Or.inl h0
    · have hnn : nb ≠ n := fun h => hnb (h ▸ hn)
      have hnT : nb ≠ T := fun h => hnb (h ▸ hT)
      refine Or.inr ⟨T, List.mem_append_left _ hT, e', ?_, ?_, ?_⟩
      · rw [hother T hnT]; exact h1
      · rw [hother T hnT, hother n hnn]; exact h2
      · rw [hother T hnT, hother n hnn]; exact h3
  · have hnnb : n = nb := by simpa using hn
    subst hnnb
    have hmem' : (n, e) ∈ (deref g.meshes cur).nebMeshes := by
      rw [← (hshape.2 cur).2.2]
      exact hmem
    obtain ⟨t, t', -, ht', -, -, -⟩ := buildGraph_nebs N V IDX g hg cur n e hmem'
    have hlen : n < ms.length := by
      rw [hshape.1, (buildGraph_meshes N V IDX g hg).1]
      exact (List.getElem?_eq_some_iff.mp ht').1
    obtain ⟨c, q, hfind, -, hms'⟩ := flattenMesh_true N ms ms' cur n e fl hf
    have hcne : c ≠ e.1 ∧ c ≠ e.2 := by
      have := List.find?_some hfind
      simpa using this
    have hPB : (deref (setFlat ms n e.1 ((deref ms cur).vid2fv e.1)) cur).vid2fv e.2
        = (deref ms cur).vid2fv e.2 := by
      rw [deref_setFlat_ne _ _ _ _ _ hcurnb]
    refine Or.inr ⟨cur, List.mem_append_left _ hcur, e, ?_, ?_, ?_⟩
    · rw [hother cur hcurnb]; exact hmem
    · rw [hother cur hcurnb, hms', deref_placed_vid2fv _ _ _ _ _ _ _ _ hlen, hPB]
      by_cases h12 : e.1 = e.2
      · simp [hcne.2.symm, h12]
      · simp [hcne.1.symm, h12]
    · rw [hother cur hcurnb, hms', deref_placed_vid2fv _ _ _ _ _ _ _ _ hlen, hPB]
      simp [hcne.2.symm]

/-- In a finished run every flattened mesh other than the seed has the flat
positions of the two ends of a shared edge in common with a flattened mesh
that lists it as a neighbour across that edge. -/
theorem ctor_parent (N : Numerics α) (V : Int → Vec3 α) (IDX : List (Int × Int × Int))
    (st : Bfs α) (hrun : FlattenObject.ctor N V IDX = some st) :
    ∀ n ∈ st.flattened, n = 0 ∨ ∃ T ∈ st.flattened, ∃ e : Int × Int,
      (n, e) ∈ (deref st.meshes T).nebMeshes ∧
      (deref st.meshes n).vid2fv e.1 = (deref st.meshes T).vid2fv e.1 ∧
      (deref st.meshes n).vid2fv e.2 = (deref st.meshes T).vid2fv e.2 := by
  obtain ⟨g, hg, h0, hb⟩ := ctor_some N V IDX st hrun
  have hshape : SameShape g.meshes (flattenFirst N g.meshes 0 []).2 := by
    simp only [flattenFirst]
    split
    · exact sameShape_trans (sameShape_setFlat _ _ _ _) (sameShape_setFlat _ _ _ _)
    · exact sameShape_trans (sameShape_trans (sameShape_setFlat _ _ _ _)
        (sameShape_setFlat _ _ _ _)) (sameShape_setFlat _ _ _ _)
  have := bfs_invariant N (fun ms fl => SameShape g.meshes ms ∧
      ∀ n ∈ fl, n = 0 ∨ ∃ T ∈ fl, ∃ e : Int × Int,
        (n, e) ∈ (deref ms T).nebMeshes ∧ (deref ms n).vid2fv e.1 = (deref ms T).vid2fv e.1 ∧
          (deref ms n).vid2fv e.2 = (deref ms T).vid2fv e.2)
    (fun ms fl cur nb e ms' hJ hcur hnb hmem hf =>
      parent_step N V IDX g hg ms fl cur nb e ms' hJ hcur hnb hmem hf)
    _ _ st ⟨hshape, fun n hn => Or.inl (by simpa using hn)⟩ (by simp) hb
  exact this.1.2

end ParentEdge

/-! ## Counting the triangles on an edge -/

section Incidence

variable {α : Type} [LinearOrderedField α]

theorem hasEdge_iff (t : Int × Int × Int) (e : Int × Int) : hasEdge t e = true ↔ IsEdgeKey e t := by
  simp [hasEdge, IsEdgeKey, or_assoc]

theorem incidentFrom_cons (k : Nat) (t : Int × Int × Int) (rest : List (Int × Int × Int))
    (e : Int × Int) :
    incidentFrom k (t :: rest) e = pushedBy k t e ++ incidentFrom (k + 1) rest e := by
  obtain ⟨a, b, c⟩ := t
  simp [incidentFrom, pushedBy]

theorem mem_pushedBy (k : Nat) (t : Int × Int × Int) (e : Int × Int) (x : Nat)
    (h : x ∈ pushedBy k t e) : x = k := by
  simp only [pushedBy, List.mem_append] at h
  rcases h with (h | h) | h <;> split at h <;> simp at h <;> exact h

theorem pushedBy_of_hasEdge (k : Nat) (t : Int × Int × Int) (e : Int × Int)
    (h : hasEdge t e = true) : k ∈ pushedBy k t e := by
  rw [hasEdge_iff] at h
  simp only [pushedBy, List.mem_append]
  rcases h with h | h | h
  · exact Or.inl (Or.inl (by simp [h]))
  · exact Or.inl (Or.inr (by simp [h]))
  · exact Or.inr (by simp [h])

theorem pushedBy_of_not_hasEdge (k : Nat) (t : Int × Int × Int) (e : Int × Int)
    (h : ¬ hasEdge t e = true) : pushedBy k t e = [] := by
  rw [hasEdge_iff, IsEdgeKey] at h
  push_neg at h
  simp [pushedBy, h.1, h.2.1, h.2.2]

theorem incidentTriangles_cons (t : Int × Int × Int) (rest : List (Int × Int × Int))
    (e : Int × Int) :
    incidentTriangles (t :: rest) e
      = (if hasEdge t e = true then 1 else 0) + incidentTriangles rest e := by
  simp only [incidentTriangles, List.filter_cons]
  split <;> simp [Nat.add_comm]

/-- The other triangles on an edge all appear in the list that `addNebMeshes`
scans. -/
theorem othersCount_le (IDX : List (Int × Int × Int)) (e : Int × Int) (p : Nat) :
    ∀ k, othersCount k IDX e p ≤ ((incidentFrom k IDX e).filter (fun nb => nb != p)).length := by
  induction IDX with
  | nil => intro k; simp [othersCount]
  | cons t rest ih =>
    intro k
    rw [incidentFrom_cons, List.filter_append, List.length_append]
    simp only [othersCount]
    have h1 : (if hasEdge t e = true ∧ k ≠ p then 1 else 0)
        ≤ ((pushedBy k t e).filter (fun nb => nb != p)).length := by
      split
      · rename_i h
        have hm : k ∈ (pushedBy k t e).filter (fun nb => nb != p) := by
          simp [List.mem_filter, pushedBy_of_hasEdge k t e h.1, h.2]
        exact List.length_pos_of_mem hm
      · exact Nat.zero_le _
    exact Nat.add_le_add h1 (ih (k + 1))

theorem othersCount_of_lt (IDX : List (Int × Int × Int)) (e : Int × Int) (p : Nat) :
    ∀ k, p < k → othersCount k IDX e p = incidentTriangles IDX e := by
  induction IDX with
  | nil => intro k _; rfl
  | cons t rest ih =>
    intro k hk
    rw [incidentTriangles_cons]
    simp only [othersCount]
    rw [ih (k + 1) (by omega)]
    have : k ≠ p := by omega
    simp [this]

/-- At most one triangle has the index `p`. -/
theorem incidentTriangles_le (IDX : List (Int × Int × Int)) (e : Int × Int) (p : Nat) :
    ∀ k, incidentTriangles IDX e ≤ othersCount k IDX e p + 1 := by
  induction IDX with
  | nil => intro k; simp [incidentTriangles]
  | cons t rest ih =>
    intro k
    rw [incidentTriangles_cons]
    simp only [othersCount]
    have hrest := ih (k + 1)
    by_cases hk : k = p
    · subst hk
      rw [othersCount_of_lt rest e k (k + 1) (by omega)]
      have hnot : ¬ (hasEdge t e = true ∧ k ≠ k) := fun h => h.2 rfl
      rw [if_neg hnot]
      split <;> omega
    · by_cases hh : hasEdge t e = true
      · rw [if_pos hh, if_pos ⟨hh, hk⟩]
        omega
      · rw [if_neg hh, if_neg (fun h => hh h.1)]
        omega

theorem exists_of_incidentTriangles_pos (IDX : List (Int × Int × Int)) (e : Int × Int)
    (h : 0 < incidentTriangles IDX e) :
    ∃ (p : Nat) (t : Int × Int × Int), IDX[p]? = some t ∧ hasEdge t e = true := by
  obtain ⟨t, ht⟩ := List.exists_mem_of_length_pos h
  obtain ⟨h1, h2⟩ := List.mem_filter.mp ht
  obtain ⟨p, hp⟩ := List.mem_iff_getElem?.mp h1
  exact ⟨p, t, hp, h2⟩

theorem length_foundOn (e2m : Int × Int → List Nat) (p : Nat) (x y : Int) :
    (foundOn e2m p x y).length = ((e2m (edgeKey x y)).filter (fun nb => nb != p)).length := by
  simp [foundOn]

theorem length_nebsOf (e2m : Int × Int → List Nat) (p : Nat) (a b c : Int) :
    (nebsOf e2m p a b c).length
      = ((e2m (edgeKey a b)).filter (fun nb => nb != p)).length
        + ((e2m (edgeKey b c)).filter (fun nb => nb != p)).length
        + ((e2m (edgeKey a c)).filter (fun nb => nb != p)).length := by
  simp only [nebsOf, List.length_append, length_foundOn]

/-- A triangle on an edge with more than four incident triangles gets at least
four neighbour entries, so the assertion fails. -/
theorem buildGraph_none_of_crowded (N : Numerics α) (V : Int → Vec3 α)
    (IDX : List (Int × Int × Int)) (e : Int × Int) (h : 4 < incidentTriangles IDX e) :
    buildGraph N V IDX = none := by
  obtain ⟨p, t, hp, ht⟩ := exists_of_incidentTriangles_pos IDX e (by omega)
  apply buildGraph_eq_none N V IDX p t hp
  have h1 := othersCount_le IDX e p 0
  have h2 := incidentTriangles_le IDX e p 0
  rw [length_nebsOf]
  rw [hasEdge_iff] at ht
  rcases ht with ht | ht | ht <;> rw [← ht] <;> omega

end Incidence

section Boundary

variable {α : Type} [LinearOrderedField α]

theorem edgeKey_ne_of_distinct (a b c : Int) (hab : a ≠ b) (hbc : b ≠ c) (hac : a ≠ c) :
    edgeKey a b ≠ edgeKey b c ∧ edgeKey a b ≠ edgeKey a c ∧ edgeKey b c ≠ edgeKey a c := by
  unfold edgeKey
  refine ⟨?_, ?_, ?_⟩ <;> split <;> split <;> simp [Prod.ext_iff] <;> omega

/-- A triangle with three distinct vertex ids pushes at most one entry on an
edge key. -/
theorem length_pushedBy_le (k : Nat) (t : Int × Int × Int) (e : Int × Int) (hd : DistinctIds t) :
    (pushedBy k t e).length ≤ if hasEdge t e = true then 1 else 0 := by
  obtain ⟨h1, h2, h3⟩ := edgeKey_ne_of_distinct t.1 t.2.1 t.2.2 hd.1 hd.2.1 hd.2.2
  by_cases hh : hasEdge t e = true
  · rw [if_pos hh]
    rw [hasEdge_iff] at hh
    simp only [pushedBy]
    rcases hh with h | h | h
    · subst h
      simp [h1, h2]
    · subst h
      simp [h1.symm, h3]
    · subst h
      simp [h2.symm, h3.symm]
  · rw [if_neg hh, pushedBy_of_not_hasEdge k t e hh]
    simp

theorem length_incidentFrom_le (IDX : List (Int × Int × Int)) (e : Int × Int)
    (hd : ∀ t ∈ IDX, DistinctIds t) :
    ∀ k, (incidentFrom k IDX e).length ≤ incidentTriangles IDX e := by
  induction IDX with
  | nil => intro k; simp [incidentFrom]
  | cons t rest ih =>
    intro k
    rw [incidentFrom_cons, incidentTriangles_cons, List.length_append]
    exact Nat.add_le_add (length_pushedBy_le k t e (hd t (List.mem_cons_self _ _)))
      (ih (fun t' ht' => hd t' (List.mem_cons_of_mem _ ht')) (k + 1))

theorem mem_incidentFrom_of_hasEdge (IDX : List (Int × Int × Int)) (e : Int × Int) :
    ∀ (k p : Nat) (t : Int × Int × Int), IDX[p]? = some t → hasEdge t e = true →
      k + p ∈ incidentFrom k IDX e := by
  induction IDX with
  | nil => intro k p t h; simp at h
  | cons t0 rest ih =>
    intro k p t hp ht
    rw [incidentFrom_cons, List.mem_append]
    cases p with
    | zero =>
      simp only [List.getElem?_cons_zero, Option.some.injEq] at hp
      subst hp
      exact Or.inl (pushedBy_of_hasEdge k t0 e ht)
    | succ j =>
      simp only [List.getElem?_cons_succ] at hp
      have := ih (k + 1) j t hp ht
      have e' : k + 1 + j = k + (j + 1) := by omega
      rw [e'] at this
      exact Or.inr this

theorem length_filter_ne_lt (l : List Nat) (p : Nat) (h : p ∈ l) :
    (l.filter (fun nb => nb != p)).length + 1 ≤ l.length := by
  induction l with
  | nil => simp at h
  | cons x xs ih =>
    by_cases hx : x = p
    · subst hx
      simp only [List.filter_cons, bne_self_eq_false, Bool.false_eq_true, if_false,
        List.length_cons]
      exact Nat.succ_le_succ (List.length_filter_le _ _)
    · have hp : p ∈ xs := by
        rcases List.mem_cons.mp h with h | h
        · exact absurd h.symm hx
        · exact h
      have := ih hp
      simp only [List.filter_cons, bne_iff_ne, ne_eq, hx, not_false_eq_true, decide_True,
        if_true, List.length_cons]
      omega

/-- The number of neighbour entries a triangle gets across one of its edges is
less than the number of triangles incident to that edge. -/
theorem others_lt (IDX : List (Int × Int × Int)) (hd : ∀ t ∈ IDX, DistinctIds t) (p : Nat)
    (t : Int × Int × Int) (hp : IDX[p]? = some t) (e : Int × Int) (he : hasEdge t e = true) :
    ((incidentFrom 0 IDX e).filter (fun nb => nb != p)).length + 1 ≤ incidentTriangles IDX e := by
  have hmem := mem_incidentFrom_of_hasEdge IDX e 0 p t hp he
  rw [Nat.zero_add] at hmem
  exact le_trans (length_filter_ne_lt _ p hmem) (length_incidentFrom_le IDX e hd 0)

/-- A triangle with a boundary edge, in a mesh without crowded edges, gets at
most two neighbour entries, so the assertion fails. -/
theorem buildGraph_none_of_boundary (N : Numerics α) (V : Int → Vec3 α)
    (IDX : List (Int × Int × Int)) (hd : ∀ t ∈ IDX, DistinctIds t)
    (hle : ∀ e, incidentTriangles IDX e ≤ 2) (p : Nat) (t : Int × Int × Int)
    (hp : IDX[p]? = some t) (e : Int × Int) (he : hasEdge t e = true)
    (hone : incidentTriangles IDX e = 1) : buildGraph N V IDX = none := by
  apply buildGraph_eq_none N V IDX p t hp
  rw [length_nebsOf]
  have hab := others_lt IDX hd p t hp (edgeKey t.1 t.2.1) (by simp [hasEdge])
  have hbc := others_lt IDX hd p t hp (edgeKey t.2.1 t.2.2) (by simp [hasEdge])
  have hac := others_lt IDX hd p t hp (edgeKey t.1 t.2.2) (by simp [hasEdge])
  have lab := hle (edgeKey t.1 t.2.1)
  have lbc := hle (edgeKey t.2.1 t.2.2)
  have lac := hle (edgeKey t.1 t.2.2)
  rw [hasEdge_iff] at he
  rcases he with h | h | h <;> rw [h] at hone <;> omega

end Boundary

/-! ## The right triangle with sides 3, 4, 5 -/

section RightTriangle

theorem sq_of_norm_eq (N : Numerics ℝ) (hs : N.sqrt = Real.sqrt) (a : Vec3 ℝ) (d : ℝ) (hd : 0 < d)
    (h : Vec3.norm N a = d) : a.squaredNorm = d * d := by
  simp only [Vec3.norm, hs] at h
  exact ((Real.sqrt_eq_iff_mul_self_eq_of_pos hd).mp h).symm

theorem norm_of_sq_eq (N : Numerics ℝ) (hs : N.sqrt = Real.sqrt) (a : Vec3 ℝ) (d : ℝ) (hd : 0 < d)
    (h : a.squaredNorm = d * d) : Vec3.norm N a = d := by
  simp only [Vec3.norm, hs]
  exact (Real.sqrt_eq_iff_mul_self_eq_of_pos hd).mpr h.symm

/-- The seed of a triangle with `|v1v2| = 3` and the other two sides 4 and 5:
`v3` lands on `(-4, 0)` when `|v1v3| = 4` and on `(-4, 3)` when `|v1v3| = 5`. -/
theorem flattenFirst_345 (N : Numerics ℝ) (hs : N.sqrt = Real.sqrt) (meshes : List (Mesh ℝ))
    (mesh : Nat) (v1 v2 v3 : Int) (hmesh : mesh < meshes.length)
    (hvids : (deref meshes mesh).vids = [v1, v2, v3]) (d13 d23 : ℝ)
    (h12 : Vec3.norm N (Vec3.sub ((deref meshes mesh).vid2v v1) ((deref meshes mesh).vid2v v2)) = 3)
    (h13 : Vec3.norm N (Vec3.sub ((deref meshes mesh).vid2v v1) ((deref meshes mesh).vid2v v3))
      = d13)
    (h23 : Vec3.norm N (Vec3.sub ((deref meshes mesh).vid2v v2) ((deref meshes mesh).vid2v v3))
      = d23)
    (hcase : (d13 = 4 ∧ d23 = 5) ∨ (d13 = 5 ∧ d23 = 4)) :
    (deref (flattenFirst N meshes mesh []).2 mesh).vid2fv v1 = ⟨0, 0, 0⟩ ∧
    (deref (flattenFirst N meshes mesh []).2 mesh).vid2fv v2 = ⟨0, 3, 0⟩ ∧
    (deref (flattenFirst N meshes mesh []).2 mesh).vid2fv v3
      = ⟨-4, if d13 = 4 then 0 else 3, 0⟩ ∧
    Vec3.norm N (Vec3.sub ((deref (flattenFirst N meshes mesh []).2 mesh).vid2fv v1)
      ((deref (flattenFirst N meshes mesh []).2 mesh).vid2fv v2)) = 3 ∧
    Vec3.norm N (Vec3.sub ((deref (flattenFirst N meshes mesh []).2 mesh).vid2fv v1)
      ((deref (flattenFirst N meshes mesh []).2 mesh).vid2fv v3)) = d13 ∧
    Vec3.norm N (Vec3.sub ((deref (flattenFirst N meshes mesh []).2 mesh).vid2fv v2)
      ((deref (flattenFirst N meshes mesh []).2 mesh).vid2fv v3)) = d23 := by
  have hd13 : 0 < d13 := by rcases hcase with ⟨h, -⟩ | ⟨h, -⟩ <;> rw [h] <;> norm_num
  have hd23 : 0 < d23 := by rcases hcase with ⟨-, h⟩ | ⟨-, h⟩ <;> rw [h] <;> norm_num
  obtain ⟨v, hv⟩ : ∃ v, v = (deref meshes mesh).vid2v := ⟨_, rfl⟩
  rw [← hv] at h12 h13 h23
  have s12 := sq_of_norm_eq N hs _ 3 (by norm_num) h12
  have s13 := sq_of_norm_eq N hs _ d13 hd13 h13
  have s23 := sq_of_norm_eq N hs _ d23 hd23 h23
  have n12 : v1 ≠ v2 := by
    rintro rfl
    rw [Vec3.squaredNorm_sub_self] at s12
    norm_num at s12
  have n13 : v1 ≠ v3 := by
    rintro rfl
    rw [Vec3.squaredNorm_sub_self] at s13
    exact absurd s13.symm (ne_of_gt (mul_pos hd13 hd13))
  have n23 : v2 ≠ v3 := by
    rintro rfl
    rw [Vec3.squaredNorm_sub_self] at s23
    exact absurd s23.symm (ne_of_gt (mul_pos hd23 hd23))
  have s21 : (Vec3.sub (v v2) (v v1)).squaredNorm = 3 * 3 := by
    rw [Vec3.squaredNorm_sub_comm]; exact s12
  have s31 : (Vec3.sub (v v3) (v v1)).squaredNorm = d13 * d13 := by
    rw [Vec3.squaredNorm_sub_comm]; exact s13
  have s32 : (Vec3.sub (v v3) (v v2)).squaredNorm = d23 * d23 := by
    rw [Vec3.squaredNorm_sub_comm]; exact s23
  have hdot : Vec3.dot (Vec3.sub (v v2) (v v1)) (Vec3.sub (v v3) (v v1))
      = (3 * 3 + d13 * d13 - d23 * d23) / 2 := by
    have := Vec3.squaredNorm_sub_sub (Vec3.sub (v v2) (v v1)) (Vec3.sub (v v3) (v v1))
    rw [Vec3.sub_sub_sub, s32, s31, s21] at this
    linarith
  have hcross : (12 : ℝ) * 12
      = (Vec3.cross (Vec3.sub (v v2) (v v1)) (Vec3.sub (v v3) (v v1))).squaredNorm := by
    rw [Vec3.lagrange, s21, s31, hdot]
    rcases hcase with ⟨h, h'⟩ | ⟨h, h'⟩ <;> rw [h, h'] <;> norm_num
  have hcand : (flatCandidates N (v v1) (v v2) (v v3) ⟨0, 0, 0⟩ ⟨0, 3, 0⟩).1
      = ⟨-4, if d13 = 4 then 0 else 3, 0⟩ := by
    rw [flatCandidates_closed N hs _ _ _ _ _ 3 12 3 (by norm_num) s21.symm (by norm_num) hcross
      (by norm_num) (by norm_num), hdot]
    rcases hcase with ⟨h, h'⟩ | ⟨h, h'⟩ <;> rw [h, h'] <;>
      norm_num [Vec3.add, Vec3.smul]
  rw [flattenFirst_spec N meshes mesh v1 v2 v3 hmesh hvids n12, ← hv, h12, hcand]
  simp only [deref_placed_vid2fv _ _ _ _ _ _ _ _ hmesh, if_neg n13, if_neg n12, if_neg n23,
    if_true, true_and]
  refine ⟨norm_of_sq_eq N hs _ 3 (by norm_num) (by norm_num [Vec3.sub, Vec3.squaredNorm]),
    norm_of_sq_eq N hs _ d13 hd13 ?_, norm_of_sq_eq N hs _ d23 hd23 ?_⟩
  · rcases hcase with ⟨h, h'⟩ | ⟨h, h'⟩ <;> rw [h] <;> norm_num [Vec3.sub, Vec3.squaredNorm]
  · rcases hcase with ⟨h, h'⟩ | ⟨h, h'⟩ <;> rw [h, h'] <;> norm_num [Vec3.sub, Vec3.squaredNorm]

end RightTriangle

/-! ## The iteration bound of the traversal -/

section Fuel

variable {α : Type} [LinearOrderedField α]

theorem flattenFirst_sameShape (N : Numerics α) (ms : List (Mesh α)) (mesh : Nat)
    (fl : List Nat) : SameShape ms (flattenFirst N ms mesh fl).2 := by
  simp only [flattenFirst]
  split
  · exact sameShape_trans (sameShape_setFlat _ _ _ _) (sameShape_setFlat _ _ _ _)
  · exact sameShape_trans (sameShape_trans (sameShape_setFlat _ _ _ _) (sameShape_setFlat _ _ _ _))
      (sameShape_setFlat _ _ _ _)

theorem length_le_of_nodup_lt (l : List Nat) (n : Nat) (hl : l.Nodup) (h : ∀ p ∈ l, p < n) :
    l.length ≤ n := by
  have := (List.subperm_of_subset hl (fun x hx => List.mem_range.mpr (h x hx))).length_le
  simpa using this

theorem wellFormed_step (st : Bfs α) (ms' : List (Mesh α)) (nb : Nat) (hw : st.WellFormed)
    (hs : SameShape st.meshes ms') (hnb : nb < st.meshes.length) (hnot : nb ∉ st.flattened) :
    Bfs.WellFormed ⟨ms', st.flattened ++ [nb], st.q ++ [nb]⟩ := by
  obtain ⟨h1, h2, h3⟩ := hw
  refine ⟨?_, ?_, ?_⟩
  · exact List.Nodup.append h1 (List.nodup_singleton nb) (by simpa using hnot)
  · intro p hp
    rw [hs.1]
    rcases List.mem_append.mp hp with hp | hp
    · exact h2 p hp
    · rw [List.mem_singleton.mp hp]; exact hnb
  · intro p x e hx
    rw [hs.1]
    rw [(hs.2 p).2.2] at hx
    exact h3 p x e hx

/-- The inner loop keeps the state well formed and adds the same meshes to the
queue and to the flattened list. -/
theorem visitNeighbours_wellFormed (N : Numerics α) (curMesh : Nat) (st st' : Bfs α)
    (hw : st.WellFormed)
    (h : visitNeighbours N curMesh (deref st.meshes curMesh).nebMeshes st = some st') :
    st'.WellFormed ∧ st'.meshes.length = st.meshes.length ∧
      st'.q.length + st.flattened.length = st.q.length + st'.flattened.length := by
  have hP := visitNeighbours_invariant N curMesh
    (fun s => s.WellFormed ∧ s.meshes.length = st.meshes.length ∧
      s.q.length + st.flattened.length = st.q.length + s.flattened.length)
    (deref st.meshes curMesh).nebMeshes
    (fun s nb e ms' hmem hs hnot hf => by
      obtain ⟨h1, h2, h3⟩ := hs
      have hsh := (flattenMesh_sameShape N _ _ _ _ _ _ _ hf).1
      refine ⟨wellFormed_step s ms' nb h1 hsh ?_ hnot, hsh.1.trans h2, ?_⟩
      · rw [h2]; exact hw.2.2 curMesh nb e hmem
      · simp only [List.length_append, List.length_singleton]; omega)
    st st' ⟨hw, rfl, rfl⟩ h
  exact hP

/-- The iteration bound of `bfs` is immaterial: once the fuel covers the queue
and the meshes not yet flattened, more fuel gives the same result. -/
theorem bfs_fuel (N : Numerics α) : ∀ (fuel : Nat) (st : Bfs α), st.WellFormed →
    st.q.length + (st.meshes.length - st.flattened.length) ≤ fuel →
    ∀ k, bfs N (fuel + k) st = bfs N fuel st := by
  intro fuel
  induction fuel with
  | zero =>
    intro st _ hm k
    have hq : st.q = [] := List.length_eq_zero.mp (by omega)
    cases k with
    | zero => rfl
    | succ k => simp [bfs, hq]
  | succ fuel ih =>
    intro st hw hm k
    rw [show fuel + 1 + k = (fuel + k) + 1 by omega]
    simp only [bfs]
    cases hq : st.q with
    | nil => rfl
    | cons curMesh rest =>
      simp only []
      cases hv : visitNeighbours N curMesh (deref st.meshes curMesh).nebMeshes
          { st with q := rest } with
      | none => rfl
      | some st1 =>
        simp only []
        obtain ⟨hw1, hl, hc⟩ := visitNeighbours_wellFormed N curMesh { st with q := rest } st1
          hw hv
        have hb := length_le_of_nodup_lt st1.flattened st1.meshes.length hw1.1 hw1.2.1
        simp only at hl hc
        rw [hq, List.length_cons] at hm
        exact ih st1 hw1 (by omega) k

/-- One iteration per mesh is enough: on a built graph the traversal started by
the constructor gives the same result with any larger bound, so it never stops
for want of iterations. -/
theorem bfs_enough_fuel (N : Numerics α) (V : Int → Vec3 α) (IDX : List (Int × Int × Int))
    (g : FlattenObject α) (hg : buildGraph N V IDX = some g) (h0 : 0 < g.meshes.length)
    (k : Nat) :
    bfs N ((flattenFirst N g.meshes 0 []).2.length + k)
        ⟨(flattenFirst N g.meshes 0 []).2, [0], [0]⟩ =
      bfs N (flattenFirst N g.meshes 0 []).2.length
        ⟨(flattenFirst N g.meshes 0 []).2, [0], [0]⟩ := by
  have hsh := flattenFirst_sameShape N g.meshes 0 []
  have hlen : 0 < (flattenFirst N g.meshes 0 []).2.length := hsh.1 ▸ h0
  refine bfs_fuel N _ _ ⟨List.nodup_singleton 0, ?_, ?_⟩ ?_ k
  · intro p hp
    rw [List.mem_singleton.mp hp]; exact hlen
  · intro p nb e hx
    simp only at hx ⊢
    rw [(hsh.2 p).2.2] at hx
    obtain ⟨t, t', -, h2, -⟩ := buildGraph_nebs N V IDX g hg p nb e hx
    rw [hsh.1, (buildGraph_meshes N V IDX g hg).1]
    exact (List.getElem?_eq_some_iff.mp h2).1
  · simp only [List.length_singleton]; omega

/-- With an empty queue the loop returns at once, whatever the bound. -/
theorem bfs_nil (N : Numerics α) (fuel : Nat) (st : Bfs α) (hq : st.q = []) :
    bfs N fuel st = some st := by
  cases fuel with
  | zero => simp [bfs, hq]
  | succ fuel => simp [bfs, hq]

end Fuel

/-! ## The parts of the triangle solver -/

section SolverParts

theorem flatCandidates_eq_parts {α : Type} [LinearOrderedField α] (N : Numerics α)
    (v1 v2 v3 P1 P2 : Vec3 α) :
    flatCandidates N v1 v2 v3 P1 P2 =
      (Vec3.add (solverFoot N v1 v2 v3 P1 P2) (Vec3.smul (solverH N v1 v2 v3) (solverDir N P1 P2)),
       Vec3.add (solverFoot N v1 v2 v3 P1 P2)
        (Vec3.smul (solverH N v1 v2 v3) (Vec3.neg (solverDir N P1 P2)))) := rfl

end SolverParts

section SolverGeometry

/-- The foot point of the source is the point `P1 + (b/L)(P2 - P1)`. -/
theorem solverFoot_eq {α : Type} [LinearOrderedField α] (N : Numerics α)
    (v1 v2 v3 P1 P2 : Vec3 α) (hL : Vec3.norm N (Vec3.sub v2 v1) ≠ 0) :
    solverFoot N v1 v2 v3 P1 P2
      = Vec3.add P1 (Vec3.smul (solverB N v1 v2 v3 / Vec3.norm N (Vec3.sub v2 v1))
          (Vec3.sub P2 P1)) := by
  simp only [solverFoot]
  generalize Vec3.norm N (Vec3.sub v2 v1) = L at hL
  generalize solverB N v1 v2 v3 = b
  simp only [Vec3.add, Vec3.smul, Vec3.sub, Vec3.mk.injEq]
  refine ⟨?_, ?_, ?_⟩ <;> field_simp <;> ring

end SolverGeometry

/-! ## The edge map and the neighbour lists of a closed manifold -/

section EdgeMap

variable {α : Type} [LinearOrderedField α]

theorem edgeKey_eq_min_max (v1 v2 : Int) : edgeKey v1 v2 = (min v1 v2, max v1 v2) := by
  unfold edgeKey
  split
  · rename_i h
    rw [min_eq_left (le_of_lt h), max_eq_right (le_of_lt h)]
  · rename_i h
    rw [min_eq_right (not_lt.mp h), max_eq_left (not_lt.mp h)]

theorem edgeKey_comm (v1 v2 : Int) : edgeKey v1 v2 = edgeKey v2 v1 := by
  rw [edgeKey_eq_min_max, edgeKey_eq_min_max, min_comm, max_comm]

theorem Vec3.norm_sub_comm (N : Numerics α) (a b : Vec3 α) :
    Vec3.norm N (Vec3.sub a b) = Vec3.norm N (Vec3.sub b a) := by
  have : (Vec3.sub a b).squaredNorm = (Vec3.sub b a).squaredNorm := by
    simp only [Vec3.sub, Vec3.squaredNorm]
    ring
  simp only [Vec3.norm, this]

/-- The two orders of the ends of an edge give the same call of `addEdge`. -/
theorem addEdge_comm (N : Numerics α) (obj : FlattenObject α) (v1 v2 : Int) (mesh : Nat) :
    addEdge N obj v1 v2 mesh = addEdge N obj v2 v1 mesh := by
  simp only [addEdge, edgeKey_comm v2 v1, Vec3.norm_sub_comm N (obj.V v2) (obj.V v1)]

theorem addEdge_edge2weight (N : Numerics α) (obj : FlattenObject α) (v1 v2 : Int) (mesh : Nat)
    (e : Int × Int) :
    (addEdge N obj v1 v2 mesh).edge2weight e
      = if e = edgeKey v1 v2 ∧ obj.edge2weight e = none then
          some (Vec3.norm N (Vec3.sub (obj.V v1) (obj.V v2)))
        else obj.edge2weight e := by
  simp only [addEdge]
  by_cases he : e = edgeKey v1 v2
  · subst he
    cases hw : obj.edge2weight (edgeKey v1 v2) with
    | none => simp
    | some w => simp [hw]
  · cases hw : obj.edge2weight (edgeKey v1 v2) with
    | none => simp [he]
    | some w => simp [he]

/-- A weight, once written, is kept by every later call of `addEdge`. -/
theorem addEdge_weight_keep (N : Numerics α) (obj : FlattenObject α) (v1 v2 : Int) (mesh : Nat)
    (e : Int × Int) (w : α) (h : obj.edge2weight e = some w) :
    (addEdge N obj v1 v2 mesh).edge2weight e = some w := by
  rw [addEdge_edge2weight, if_neg (fun hc => by simp [h] at hc), h]

/-- The first insertion of a key writes the distance of the two ends. -/
theorem addEdge_weight_first (N : Numerics α) (obj : FlattenObject α) (v1 v2 : Int) (mesh : Nat)
    (h : obj.edge2weight (edgeKey v1 v2) = none) :
    (addEdge N obj v1 v2 mesh).edge2weight (edgeKey v1 v2)
      = some (Vec3.norm N (Vec3.sub (obj.V v1) (obj.V v2))) := by
  rw [addEdge_edge2weight, if_pos ⟨rfl, h⟩]

theorem addEdge_weight_isSome (N : Numerics α) (obj : FlattenObject α) (v1 v2 : Int) (mesh : Nat) :
    ((addEdge N obj v1 v2 mesh).edge2weight (edgeKey v1 v2)).isSome = true := by
  cases hw : obj.edge2weight (edgeKey v1 v2) with
  | none => rw [addEdge_weight_first N obj v1 v2 mesh hw]; rfl
  | some w => rw [addEdge_weight_keep N obj v1 v2 mesh _ w hw]; rfl

/-- Every stored weight is the distance between the two ends of its key. -/
theorem addEdge_weight_right (N : Numerics α) (obj : FlattenObject α) (v1 v2 : Int) (mesh : Nat)
    (h : ∀ e w, obj.edge2weight e = some w → w = Vec3.norm N (Vec3.sub (obj.V e.1) (obj.V e.2))) :
    ∀ e w, (addEdge N obj v1 v2 mesh).edge2weight e = some w →
      w = Vec3.norm N (Vec3.sub (obj.V e.1) (obj.V e.2)) := by
  intro e w hw
  rw [addEdge_edge2weight] at hw
  split at hw
  · rename_i hc
    simp only [Option.some.injEq] at hw
    rw [← hw, hc.1]
    rcases edgeKey_cases v1 v2 with hk | hk
    · rw [hk]
    · rw [hk]
      exact Vec3.norm_sub_comm N _ _
  · exact h e w hw

/-- The weights after the registration loop: old weights are kept, every
weight is the distance of the two ends of its key, and the key of every edge of
every registered triangle has a weight. -/
theorem registerTriangles_weight (N : Numerics α) (IDX : List (Int × Int × Int)) :
    ∀ obj : FlattenObject α,
      (∀ e w, obj.edge2weight e = some w → w = Vec3.norm N (Vec3.sub (obj.V e.1) (obj.V e.2))) →
      (∀ e w, obj.edge2weight e = some w → (registerTriangles N IDX obj).edge2weight e = some w) ∧
      (∀ e w, (registerTriangles N IDX obj).edge2weight e = some w →
        w = Vec3.norm N (Vec3.sub (obj.V e.1) (obj.V e.2))) ∧
      (∀ t ∈ IDX, ∀ e, hasEdge t e = true →
        ((registerTriangles N IDX obj).edge2weight e).isSome = true) := by
  induction IDX with
  | nil =>
    intro obj h
    exact ⟨fun e w hw => hw, h, fun t ht => by simp at ht⟩
  | cons t rest ih =>
    intro obj h
    obtain ⟨v1, v2, v3⟩ := t
    simp only [registerTriangles]
    generalize hobj1 : ({ obj with
      meshes := obj.meshes ++ [Mesh.mk3 obj.meshes.length obj.V v1 v2 v3] } : FlattenObject α)
      = obj1
    have hV1 : obj1.V = obj.V := by rw [← hobj1]
    have hw1 : obj1.edge2weight = obj.edge2weight := by rw [← hobj1]
    have hr1 : ∀ e w, obj1.edge2weight e = some w →
        w = Vec3.norm N (Vec3.sub (obj1.V e.1) (obj1.V e.2)) := by
      rw [hV1, hw1]; exact h
    have hrA := addEdge_weight_right N obj1 v1 v2 obj.meshes.length hr1
    have hrB := addEdge_weight_right N (addEdge N obj1 v1 v2 obj.meshes.length) v2 v3
      obj.meshes.length hrA
    have hrC := addEdge_weight_right N
      (addEdge N (addEdge N obj1 v1 v2 obj.meshes.length) v2 v3 obj.meshes.length) v1 v3
      obj.meshes.length hrB
    obtain ⟨k1, k2, k3⟩ := ih _ hrC
    simp only [addEdge_V, hV1] at k2
    refine ⟨?_, k2, ?_⟩
    · intro e w hw
      apply k1
      apply addEdge_weight_keep
      apply addEdge_weight_keep
      apply addEdge_weight_keep
      rw [hw1]; exact hw
    · intro t ht e he
      rcases List.mem_cons.mp ht with rfl | ht
      · rw [hasEdge_iff] at he
        have keep : ∀ o : FlattenObject α, (o.edge2weight e).isSome = true →
            ∀ x y m, ((addEdge N o x y m).edge2weight e).isSome = true := by
          intro o ho x y m
          obtain ⟨w, hw⟩ := Option.isSome_iff_exists.mp ho
          rw [addEdge_weight_keep N o x y m e w hw]; rfl
        have fin : ((addEdge N (addEdge N (addEdge N obj1 v1 v2 obj.meshes.length) v2 v3
            obj.meshes.length) v1 v3 obj.meshes.length).edge2weight e).isSome = true := by
          rcases he with he | he | he
          · subst he
            exact keep _ (keep _ (addEdge_weight_isSome N obj1 v1 v2 _) _ _ _) _ _ _
          · subst he
            exact keep _ (addEdge_weight_isSome N _ v2 v3 _) _ _ _
          · subst he
            exact addEdge_weight_isSome N _ v1 v3 _
        obtain ⟨w, hw⟩ := Option.isSome_iff_exists.mp fin
        rw [k1 e w hw]; rfl
      · exact k3 t ht e he

/-- Membership in an edge's mesh list after registration. -/
theorem mem_incidentFrom_iff (IDX : List (Int × Int × Int)) (e : Int × Int) (i : Nat) :
    i ∈ incidentFrom 0 IDX e ↔ ∃ t, IDX[i]? = some t ∧ hasEdge t e = true := by
  constructor
  · intro h
    obtain ⟨j, t, h1, h2, h3⟩ := mem_incidentFrom IDX 0 i e h
    rw [Nat.zero_add] at h2
    subst h2
    exact ⟨t, h1, (hasEdge_iff t e).mpr h3⟩
  · rintro ⟨t, h1, h2⟩
    have := mem_incidentFrom_of_hasEdge IDX e 0 i t h1 h2
    rwa [Nat.zero_add] at this

end EdgeMap

section Manifold

variable {α : Type} [LinearOrderedField α]

/-- A triangle with three distinct vertex ids pushes exactly one entry on each
of its edge keys. -/
theorem pushedBy_distinct (k : Nat) (t : Int × Int × Int) (e : Int × Int) (hd : DistinctIds t) :
    pushedBy k t e = if hasEdge t e = true then [k] else [] := by
  obtain ⟨h1, h2, h3⟩ := edgeKey_ne_of_distinct t.1 t.2.1 t.2.2 hd.1 hd.2.1 hd.2.2
  by_cases hh : hasEdge t e = true
  · rw [if_pos hh]
    rw [hasEdge_iff] at hh
    simp only [pushedBy]
    rcases hh with h | h | h
    · subst h
      simp [h1, h2]
    · subst h
      simp [h1.symm, h3]
    · subst h
      simp [h2.symm, h3.symm]
  · rw [if_neg hh, pushedBy_of_not_hasEdge k t e hh]

theorem incidentFrom_eq_trianglesOn (IDX : List (Int × Int × Int)) (e : Int × Int)
    (hd : ∀ t ∈ IDX, DistinctIds t) : ∀ k, incidentFrom k IDX e = trianglesOn k IDX e := by
  induction IDX with
  | nil => intro k; rfl
  | cons t rest ih =>
    intro k
    rw [incidentFrom_cons, pushedBy_distinct k t e (hd t (List.mem_cons_self _ _)),
      ih (fun t' ht' => hd t' (List.mem_cons_of_mem _ ht')) (k + 1)]
    rfl

theorem foundOn_eq_spec (IDX : List (Int × Int × Int)) (hd : ∀ t ∈ IDX, DistinctIds t) (p : Nat)
    (x y : Int) : foundOn (incidentFrom 0 IDX) p x y = specNebsOn IDX p x y := by
  simp only [foundOn, specNebsOn, ← edgeKey_eq_min_max,
    incidentFrom_eq_trianglesOn IDX _ hd 0]
  congr 1
  apply List.filter_congr
  intro i _
  rw [Bool.eq_iff_iff]
  simp

/-- With distinct vertex ids everywhere the neighbour list that the adjacency
pass builds is the list the specification describes. -/
theorem nebsOf_eq_spec (IDX : List (Int × Int × Int)) (hd : ∀ t ∈ IDX, DistinctIds t) (p : Nat)
    (t : Int × Int × Int) :
    nebsOf (incidentFrom 0 IDX) p t.1 t.2.1 t.2.2 = specNebs IDX p t := by
  simp only [nebsOf, specNebs, foundOn_eq_spec IDX hd]

/-- On an edge with exactly two incident triangles a triangle gets exactly one
neighbour entry. -/
theorem others_eq_one (IDX : List (Int × Int × Int)) (hd : ∀ t ∈ IDX, DistinctIds t) (p : Nat)
    (t : Int × Int × Int) (hp : IDX[p]? = some t) (e : Int × Int) (he : hasEdge t e = true)
    (h2 : incidentTriangles IDX e = 2) :
    ((incidentFrom 0 IDX e).filter (fun nb => nb != p)).length = 1 := by
  have hle := others_lt IDX hd p t hp e he
  have hge1 := othersCount_le IDX e p 0
  have hge2 := incidentTriangles_le IDX e p 0
  omega

/-- A closed manifold passes the assertion of the adjacency pass. -/
theorem nebsOf_length_of_closed (IDX : List (Int × Int × Int)) (hd : ∀ t ∈ IDX, DistinctIds t)
    (h2 : ∀ t ∈ IDX, ∀ e, hasEdge t e = true → incidentTriangles IDX e = 2) (p : Nat)
    (t : Int × Int × Int) (hp : IDX[p]? = some t) :
    (nebsOf (incidentFrom 0 IDX) p t.1 t.2.1 t.2.2).length = 3 := by
  have ht := List.getElem?_mem hp
  rw [length_nebsOf,
    others_eq_one IDX hd p t hp (edgeKey t.1 t.2.1) (by simp [hasEdge])
      (h2 t ht _ (by simp [hasEdge])),
    others_eq_one IDX hd p t hp (edgeKey t.2.1 t.2.2) (by simp [hasEdge])
      (h2 t ht _ (by simp [hasEdge])),
    others_eq_one IDX hd p t hp (edgeKey t.1 t.2.2) (by simp [hasEdge])
      (h2 t ht _ (by simp [hasEdge]))]

theorem buildGraph_nebMeshes (N : Numerics α) (V : Int → Vec3 α) (IDX : List (Int × Int × Int))
    (g : FlattenObject α) (hg : buildGraph N V IDX = some g) (p : Nat) (t : Int × Int × Int)
    (ht : IDX[p]? = some t) :
    (deref g.meshes p).nebMeshes = nebsOf (incidentFrom 0 IDX) p t.1 t.2.1 t.2.2 := by
  rw [buildGraph_deref N V IDX g hg p t ht]
  simp [Mesh.addNebs, Mesh.mk3]

end Manifold

/-! ## The two linear systems of the overlap predicates -/

section Geometry

variable {α : Type} [LinearOrderedField α]

end Geometry

section Segments

/-- For planar points the cross product of the two directions vanishes exactly
when the matrix of `lineCross` is singular. -/
theorem cross_planar (a b c d : Vec3 ℝ) (hp : Planar4 a b c d) :
    Vec3.cross (Vec3.sub b a) (Vec3.sub d c)
      = ⟨0, 0, -Mat2.det ⟨a.x - b.x, d.x - c.x, a.y - b.y, d.y - c.y⟩⟩ := by
  obtain ⟨ha, hb, hc, hd⟩ := hp
  simp only [Vec3.cross, Vec3.sub, Mat2.det, ha, hb, hc, hd, Vec3.mk.injEq]
  refine ⟨by ring, by ring, by ring⟩

theorem norm_cross_eq_zero_iff (N : Numerics ℝ) (hs : N.sqrt = Real.sqrt) (a b c d : Vec3 ℝ)
    (hp : Planar4 a b c d) :
    Vec3.norm N (Vec3.cross (Vec3.sub b a) (Vec3.sub d c)) = 0 ↔
      Mat2.det ⟨a.x - b.x, d.x - c.x, a.y - b.y, d.y - c.y⟩ = 0 := by
  rw [cross_planar a b c d hp]
  generalize Mat2.det ⟨a.x - b.x, d.x - c.x, a.y - b.y, d.y - c.y⟩ = D
  simp only [Vec3.norm, hs, Vec3.squaredNorm, Real.sqrt_eq_zero']
  constructor
  · intro h
    have h1 : D * D ≤ 0 := by linarith
    exact mul_self_eq_zero.mp (le_antisymm h1 (mul_self_nonneg D))
  · intro h
    subst h
    norm_num

end Segments

/-! ## Determinism, monotonicity and termination of the traversal -/

section Determinism

variable {α : Type} [LinearOrderedField α]

theorem setOrder_perm (addr : Nat → Nat) (s : List Nat) : (setOrder addr s).Perm s :=
  List.perm_insertionSort _ s

/-- The result of `overlap` does not depend on the order of the flattened set. -/
theorem overlap_perm (N : Numerics α) (ms : List (Mesh α)) (p P1 P2 : Vec3 α)
    (fl fl' : List Nat) (h : fl'.Perm fl) :
    overlap N ms p P1 P2 fl' = overlap N ms p P1 P2 fl := by
  rw [Bool.eq_iff_iff]
  simp only [overlap, List.any_eq_true]
  exact ⟨fun ⟨i, hi, hx⟩ => ⟨i, h.mem_iff.mp hi, hx⟩, fun ⟨i, hi, hx⟩ => ⟨i, h.mem_iff.mpr hi, hx⟩⟩

theorem flattenVertex_perm (N : Numerics α) (ms : List (Mesh α)) (mesh : Mesh α) (v3 v1 v2 : Int)
    (P1 P2 : Vec3 α) (fl fl' : List Nat) (h : fl'.Perm fl) :
    flattenVertex N ms mesh v3 v1 v2 P1 P2 fl' = flattenVertex N ms mesh v3 v1 v2 P1 P2 fl := by
  simp only [flattenVertex, overlap_perm N ms _ P1 P2 fl fl' h]

theorem flattenMesh_perm (N : Numerics α) (ms : List (Mesh α)) (T n : Nat) (e : Int × Int)
    (fl fl' : List Nat) (h : fl'.Perm fl) :
    flattenMesh N ms T n e fl' = flattenMesh N ms T n e fl := by
  simp only [flattenMesh, flattenVertex_perm N ms _ _ _ _ _ _ fl fl' h]

theorem flattenFirst_perm (N : Numerics α) (ms : List (Mesh α)) (mesh : Nat)
    (fl fl' : List Nat) (h : fl'.Perm fl) :
    flattenFirst N ms mesh fl' = flattenFirst N ms mesh fl := by
  simp only [flattenFirst, flattenVertex_perm N _ _ _ _ _ _ _ fl fl' h]

theorem visitNeighboursAt_eq (addr : Nat → Nat) (N : Numerics α) (curMesh : Nat)
    (nebs : List (Nat × (Int × Int))) :
    ∀ st : Bfs α, visitNeighboursAt addr N curMesh nebs st = visitNeighbours N curMesh nebs st := by
  induction nebs with
  | nil => intro st; rfl
  | cons x rest ih =>
    intro st
    obtain ⟨nebMesh, edge⟩ := x
    simp only [visitNeighboursAt, visitNeighbours,
      flattenMesh_perm N st.meshes curMesh nebMesh edge st.flattened _
        (setOrder_perm addr st.flattened), ih]

theorem bfsAt_eq (addr : Nat → Nat) (N : Numerics α) :
    ∀ (fuel : Nat) (st : Bfs α), bfsAt addr N fuel st = bfs N fuel st := by
  intro fuel
  induction fuel with
  | zero => intro st; rfl
  | succ fuel ih =>
    intro st
    simp only [bfsAt, bfs, visitNeighboursAt_eq, ih]

/-- The constructor gives the same result wherever the mesh objects live. -/
theorem ctorAt_eq (addr : Nat → Nat) (N : Numerics α) (V : Int → Vec3 α)
    (IDX : List (Int × Int × Int)) :
    FlattenObject.ctorAt addr N V IDX = FlattenObject.ctor N V IDX := by
  simp only [FlattenObject.ctorAt, FlattenObject.ctor, flattenAll, bfsAt_eq,
    flattenFirst_perm N _ 0 [] _ (setOrder_perm addr [])]

end Determinism

section Terminal

variable {α : Type} [LinearOrderedField α]

/-- One pass of the inner loop only appends to the flattened list and leaves
every mesh that was already flattened as it was. -/
theorem visitNeighbours_terminal (N : Numerics α) (curMesh : Nat)
    (nebs : List (Nat × (Int × Int))) (st st' : Bfs α)
    (h : visitNeighbours N curMesh nebs st = some st') :
    st.flattened <+: st'.flattened ∧
      ∀ p ∈ st.flattened, deref st'.meshes p = deref st.meshes p := by
  have hP := visitNeighbours_invariant N curMesh
    (fun s => st.flattened <+: s.flattened ∧
      ∀ p ∈ st.flattened, deref s.meshes p = deref st.meshes p)
    nebs
    (fun s nb e ms' _ hs hnot hf => by
      obtain ⟨h1, h2⟩ := hs
      refine ⟨h1.trans (List.prefix_append _ _), fun p hp => ?_⟩
      have hps : p ∈ s.flattened := h1.subset hp
      have hne : nb ≠ p := fun hc => hnot (hc ▸ hps)
      rw [(flattenMesh_sameShape N _ _ _ _ _ _ _ hf).2 p hne]
      exact h2 p hp)
    st st' ⟨List.prefix_refl _, fun _ _ => rfl⟩ h
  exact hP

/-- The traversal from any state only appends to the flattened list and leaves
every mesh that was already flattened as it was. -/
theorem bfs_terminal (N : Numerics α) : ∀ (fuel : Nat) (st st' : Bfs α),
    bfs N fuel st = some st' →
    st.flattened <+: st'.flattened ∧
      ∀ p ∈ st.flattened, deref st'.meshes p = deref st.meshes p := by
  intro fuel
  induction fuel with
  | zero =>
    intro st st' h
    simp only [bfs] at h
    split at h
    · simp only [Option.some.injEq] at h
      subst h
      exact ⟨List.prefix_refl _, fun _ _ => rfl⟩
    · simp at h
  | succ fuel ih =>
    intro st st' h
    simp only [bfs] at h
    split at h
    · simp only [Option.some.injEq] at h
      subst h
      exact ⟨List.prefix_refl _, fun _ _ => rfl⟩
    · rename_i curMesh rest he
      cases hv : visitNeighbours N curMesh (deref st.meshes curMesh).nebMeshes
          { st with q := rest } with
      | none => simp [hv] at h
      | some st1 =>
        simp only [hv] at h
        obtain ⟨a1, a2⟩ := visitNeighbours_terminal N curMesh _ _ st1 hv
        obtain ⟨b1, b2⟩ := ih st1 st' h
        simp only at a1 a2
        refine ⟨a1.trans b1, fun p hp => ?_⟩
        rw [b2 p (a1.subset hp), a2 p hp]

end Terminal

section Termination

variable {α : Type} [LinearOrderedField α]

/-- The search for the third vertex succeeds when some vertex of the mesh
differs from both ends of the edge. -/
theorem flattenMesh_isSome (N : Numerics α) (ms : List (Mesh α)) (T n : Nat) (e : Int × Int)
    (fl : List Nat) (h : ∃ c ∈ (deref ms n).vids, c ≠ e.1 ∧ c ≠ e.2) :
    ∃ r, flattenMesh N ms T n e fl = some r := by
  obtain ⟨c, hc, h1, h2⟩ := h
  have hf : ((deref ms n).vids.find? (fun vid => vid != e.1 && vid != e.2)).isSome = true := by
    rw [List.find?_isSome]
    exact ⟨c, hc, by simp [h1, h2]⟩
  obtain ⟨c', hc'⟩ := Option.isSome_iff_exists.mp hf
  simp only [flattenMesh, hc']
  cases flattenVertex N ms (deref ms n) c' e.1 e.2 ((deref ms T).vid2fv e.1)
      ((deref ms T).vid2fv e.2) fl with
  | none => exact ⟨_, rfl⟩
  | some p => exact ⟨_, rfl⟩

/-- The inner loop returns when every listed neighbour has a vertex off the
shared edge. -/
theorem visitNeighbours_total (N : Numerics α) (curMesh : Nat) (ms0 : List (Mesh α))
    (nebs : List (Nat × (Int × Int)))
    (hU : ∀ nb e, (nb, e) ∈ nebs → ∃ c ∈ (deref ms0 nb).vids, c ≠ e.1 ∧ c ≠ e.2) :
    ∀ st : Bfs α, SameShape ms0 st.meshes →
      ∃ st', visitNeighbours N curMesh nebs st = some st' ∧ SameShape ms0 st'.meshes := by
  induction nebs with
  | nil => intro st hs; exact ⟨st, rfl, hs⟩
  | cons x rest ih =>
    obtain ⟨nb, e⟩ := x
    have ih' := ih (fun nb' e' hm => hU nb' e' (List.mem_cons_of_mem _ hm))
    intro st hs
    simp only [visitNeighbours]
    split
    · exact ih' st hs
    · obtain ⟨c, hc, h1, h2⟩ := hU nb e (List.mem_cons_self _ _)
      obtain ⟨r, hr⟩ := flattenMesh_isSome N st.meshes curMesh nb e st.flattened
        ⟨c, by rw [(hs.2 nb).1]; exact hc, h1, h2⟩
      obtain ⟨ok, ms'⟩ := r
      cases ok with
      | true =>
        simp only [hr]
        exact ih' _ (sameShape_trans hs (flattenMesh_sameShape N _ _ _ _ _ _ _ hr).1)
      | false =>
        simp only [hr]
        exact ih' st hs

/-- The traversal returns within the bound: the loop body runs once per queue
entry, and the queue never holds more than the meshes not yet dequeued. -/
theorem bfs_total (N : Numerics α) (ms0 : List (Mesh α))
    (hU : ∀ p nb e, (nb, e) ∈ (deref ms0 p).nebMeshes →
      ∃ c ∈ (deref ms0 nb).vids, c ≠ e.1 ∧ c ≠ e.2) :
    ∀ (fuel : Nat) (st : Bfs α), st.WellFormed → SameShape ms0 st.meshes →
      st.q.length + (st.meshes.length - st.flattened.length) ≤ fuel →
      ∃ st', bfs N fuel st = some st' ∧ st'.q = [] ∧ st'.WellFormed ∧
        st'.meshes.length = st.meshes.length := by
  intro fuel
  induction fuel with
  | zero =>
    intro st hw _ hm
    have hq : st.q = [] := List.length_eq_zero.mp (by omega)
    exact ⟨st, by simp [bfs, hq], hq, hw, rfl⟩
  | succ fuel ih =>
    intro st hw hs hm
    simp only [bfs]
    cases hq : st.q with
    | nil => exact ⟨st, rfl, hq, hw, rfl⟩
    | cons curMesh rest =>
      simp only []
      obtain ⟨st1, hv, hs1⟩ := visitNeighbours_total N curMesh ms0
        (deref st.meshes curMesh).nebMeshes
        (fun nb e hm => hU curMesh nb e (by rw [← (hs.2 curMesh).2.2]; exact hm))
        { st with q := rest } hs
      rw [hv]
      simp only []
      obtain ⟨hw1, hl, hc⟩ := visitNeighbours_wellFormed N curMesh { st with q := rest } st1
        hw hv
      have hb := length_le_of_nodup_lt st1.flattened st1.meshes.length hw1.1 hw1.2.1
      simp only at hl hc
      rw [hq, List.length_cons] at hm
      obtain ⟨st', h1, h2, h3, h4⟩ := ih st1 hw1 hs1 (by omega)
      exact ⟨st', h1, h2, h3, h4.trans hl⟩

/-- In a built graph whose triangles have three distinct vertex ids every
neighbour has a vertex off the shared edge. -/
theorem buildGraph_third (N : Numerics α) (V : Int → Vec3 α) (IDX : List (Int × Int × Int))
    (g : FlattenObject α) (hg : buildGraph N V IDX = some g) (hd : ∀ t ∈ IDX, DistinctIds t)
    (p nb : Nat) (e : Int × Int) (h : (nb, e) ∈ (deref g.meshes p).nebMeshes) :
    ∃ c ∈ (deref g.meshes nb).vids, c ≠ e.1 ∧ c ≠ e.2 := by
  obtain ⟨t, t', -, h2, -, -, h5⟩ := buildGraph_nebs N V IDX g hg p nb e h
  have hv : (deref g.meshes nb).vids = [t'.1, t'.2.1, t'.2.2] := by
    rw [buildGraph_deref N V IDX g hg nb t' h2]; rfl
  obtain ⟨d1, d2, d3⟩ := hd t' (List.getElem?_mem h2)
  rw [hv]
  rcases h5 with h | h | h
  · refine ⟨t'.2.2, by simp, ?_⟩
    rcases edgeKey_cases t'.1 t'.2.1 with hk | hk <;> rw [h, hk] <;>
      simp only [ne_eq] <;> exact ⟨by tauto, by tauto⟩
  · refine ⟨t'.1, by simp, ?_⟩
    rcases edgeKey_cases t'.2.1 t'.2.2 with hk | hk <;> rw [h, hk] <;>
      simp only [ne_eq] <;> exact ⟨by tauto, by tauto⟩
  · refine ⟨t'.2.1, by simp, ?_⟩
    rcases edgeKey_cases t'.1 t'.2.2 with hk | hk <;> rw [h, hk] <;>
      simp only [ne_eq] <;> exact ⟨by tauto, by tauto⟩

/-- The traversal of the constructor on a built graph with distinct vertex ids
returns within one iteration per mesh. -/
theorem ctor_total (N : Numerics α) (V : Int → Vec3 α) (IDX : List (Int × Int × Int))
    (g : FlattenObject α) (hg : buildGraph N V IDX = some g) (hne : IDX ≠ [])
    (hd : ∀ t ∈ IDX, DistinctIds t) :
    ∃ st, FlattenObject.ctor N V IDX = some st ∧
      bfs N IDX.length ⟨(flattenFirst N g.meshes 0 []).2, [0], [0]⟩ = some st ∧
      (∀ k, bfs N (IDX.length + k) ⟨(flattenFirst N g.meshes 0 []).2, [0], [0]⟩ = some st) ∧
      st.q = [] ∧ st.flattened.Nodup ∧ st.flattened.length ≤ IDX.length := by
  have hlen := (buildGraph_meshes N V IDX g hg).1
  have h0 : 0 < g.meshes.length := by
    rw [hlen]; exact List.length_pos.mpr hne
  have hsh := flattenFirst_sameShape N g.meshes 0 []
  have hl1 : (flattenFirst N g.meshes 0 []).2.length = IDX.length := hsh.1.trans hlen
  have hw : Bfs.WellFormed (⟨(flattenFirst N g.meshes 0 []).2, [0], [0]⟩ : Bfs α) := by
    refine ⟨List.nodup_singleton 0, ?_, ?_⟩
    · intro p hp
      rw [List.mem_singleton.mp hp]
      show 0 < (flattenFirst N g.meshes 0 []).2.length
      rw [hsh.1]; exact h0
    · intro p nb e hx
      simp only at hx ⊢
      rw [(hsh.2 p).2.2] at hx
      obtain ⟨t, t', -, h2, -⟩ := buildGraph_nebs N V IDX g hg p nb e hx
      rw [hl1]
      exact (List.getElem?_eq_some_iff.mp h2).1
  obtain ⟨st, h1, h2, h3, h4⟩ := bfs_total N g.meshes
    (fun p nb e h => buildGraph_third N V IDX g hg hd p nb e h) IDX.length _ hw hsh
    (by simp only [List.length_singleton, hl1]; omega)
  have hrun : FlattenObject.ctor N V IDX = some st := by
    simp only [FlattenObject.ctor, hg, flattenAll]
    rw [if_neg (by
      intro hc
      rw [List.isEmpty_iff] at hc
      rw [hc] at h0
      exact absurd h0 (by simp)), hl1]
    exact h1
  refine ⟨st, hrun, h1, ?_, h2, h3.1, ?_⟩
  · intro k
    rw [← h1, ← hl1]
    exact bfs_enough_fuel N V IDX g hg h0 k
  · have := length_le_of_nodup_lt st.flattened st.meshes.length h3.1 h3.2.1
    simp only at h4
    omega

end Termination

/-! ## The colour index of the object buffer -/

section BufferFacts

theorem colorIdxAfter_succ (k : Nat) : colorIdxAfter (k + 1) = ((k % 7 : Nat) : Int) + 1 := by
  induction k with
  | zero => decide
  | succ k ih =>
    rw [colorIdxAfter, ih]
    simp only [nextColorIdx, colorsSize]
    have h1 : (0 : Int) ≤ ((k % 7 : Nat) : Int) + 1 := by omega
    have h2 : ((k % 7 : Nat) : Int) + 1 < 2 ^ 64 := by
      have : k % 7 < 7 := Nat.mod_lt _ (by norm_num)
      omega
    rw [Int.emod_eq_of_lt h1 h2]
    omega

end BufferFacts

/-! ## The vertex buffers written at the end of the constructor -/

section Output

variable {α : Type} [LinearOrderedField α]

theorem flattenFirst_deref_ne (N : Numerics α) (ms : List (Mesh α)) (mesh p : Nat)
    (fl : List Nat) (h : mesh ≠ p) : deref (flattenFirst N ms mesh fl).2 p = deref ms p := by
  simp only [flattenFirst]
  split
  · rw [deref_setFlat_ne _ _ _ _ _ h, deref_setFlat_ne _ _ _ _ _ h]
  · rw [deref_setFlat_ne _ _ _ _ _ h, deref_setFlat_ne _ _ _ _ _ h, deref_setFlat_ne _ _ _ _ _ h]

/-- At the end of a run a mesh outside the flattened set is the mesh that
graph construction made. -/
theorem ctor_unflattened (N : Numerics α) (V : Int → Vec3 α) (IDX : List (Int × Int × Int))
    (st : Bfs α) (h : FlattenObject.ctor N V IDX = some st) :
    ∃ g, buildGraph N V IDX = some g ∧ SameShape g.meshes st.meshes ∧
      ∀ p, p ∉ st.flattened → deref st.meshes p = deref g.meshes p := by
  obtain ⟨g, hg, -, hb⟩ := ctor_some N V IDX st h
  refine ⟨g, hg, ?_⟩
  have := bfs_invariant N
    (fun ms fl => SameShape g.meshes ms ∧ ∀ p, p ∉ fl → deref ms p = deref g.meshes p)
    (fun ms fl cur nb e ms' hJ _ _ _ hf => by
      obtain ⟨h1, h2⟩ := hJ
      obtain ⟨k1, k2⟩ := flattenMesh_sameShape N _ _ _ _ _ _ _ hf
      refine ⟨sameShape_trans h1 k1, fun p hp => ?_⟩
      have hp1 : p ∉ fl := fun hc => hp (List.mem_append_left _ hc)
      have hp2 : nb ≠ p := fun hc => hp (hc ▸ List.mem_append_right _ (List.mem_singleton_self nb))
      rw [k2 p hp2, h2 p hp1])
    _ ⟨(flattenFirst N g.meshes 0 []).2, [0], [0]⟩ st
    ⟨flattenFirst_sameShape N g.meshes 0 [], fun p hp =>
      flattenFirst_deref_ne N g.meshes 0 p [] (fun hc => hp (by simp [hc]))⟩
    (fun p hp => hp) hb
  exact this.1

theorem default_getFlatV : (default : Mesh α).getFlatV = (Vec3.zero, Vec3.zero, Vec3.zero) := rfl

/-- The vertex buffer written for a mesh outside the flattened set holds three
times the zero vector, and every mesh has a vertex buffer. -/
theorem ctor_output (N : Numerics α) (V : Int → Vec3 α) (IDX : List (Int × Int × Int))
    (st : Bfs α) (h : FlattenObject.ctor N V IDX = some st) :
    (updateAll st.meshes).length = IDX.length ∧
    ∀ p, p < IDX.length → p ∉ st.flattened →
      (updateAll st.meshes)[p]? = some (Vec3.zero, Vec3.zero, Vec3.zero) := by
  obtain ⟨g, hg, hs, hu⟩ := ctor_unflattened N V IDX st h
  have hlen : st.meshes.length = IDX.length := hs.1.trans (buildGraph_meshes N V IDX g hg).1
  refine ⟨by simp [updateAll, hlen], fun p hp hnot => ?_⟩
  have ht : IDX[p]? = some IDX[p] := List.getElem?_eq_getElem hp
  have hd := hu p hnot
  rw [buildGraph_deref N V IDX g hg p _ ht] at hd
  have hp' : p < st.meshes.length := hlen ▸ hp
  have hget : st.meshes[p]? = some (deref st.meshes p) := by
    rw [deref_eq_getElem?, List.getElem?_eq_getElem hp']
    rfl
  simp only [updateAll, List.getElem?_map, hget, Option.map_some', hd, Option.some.injEq]
  simp only [Mesh.getFlatV, Mesh.addNebs, mk3_vid2fv]

end Output

/-! ## The overlap test under a change of scale of the two axes -/

section Scaling

variable {α : Type} [LinearOrderedField α]

theorem cramer3_scale (sx sy : α) (hx : sx ≠ 0) (hy : sy ≠ 0) (M : Mat3 α) (R : Vec3 α) :
    cramer3 ⟨sx * M.a00, sx * M.a01, sx * M.a02, sy * M.a10, sy * M.a11, sy * M.a12,
        M.a20, M.a21, M.a22⟩ ⟨sx * R.x, sy * R.y, R.z⟩ = cramer3 M R := by
  have hd : ∀ a b c d e f g h i : α,
      Mat3.det ⟨sx * a, sx * b, sx * c, sy * d, sy * e, sy * f, g, h, i⟩
        = (sx * sy) * Mat3.det ⟨a, b, c, d, e, f, g, h, i⟩ := by
    intros
    simp only [Mat3.det]
    ring
  simp only [cramer3, hd, mul_div_mul_left _ _ (mul_ne_zero hx hy)]

theorem cramer2_scale (sx sy : α) (hx : sx ≠ 0) (hy : sy ≠ 0) (M : Mat2 α) (R : Vec2 α) :
    cramer2 ⟨sx * M.a00, sx * M.a01, sy * M.a10, sy * M.a11⟩ ⟨sx * R.x, sy * R.y⟩
      = cramer2 M R := by
  have hd : Mat2.det ⟨sx * M.a00, sx * M.a01, sy * M.a10, sy * M.a11⟩ = (sx * sy) * Mat2.det M := by
    simp only [Mat2.det]
    ring
  have h1 : sx * R.x * (sy * M.a11) - sx * M.a01 * (sy * R.y)
      = (sx * sy) * (R.x * M.a11 - M.a01 * R.y) := by ring
  have h2 : sx * M.a00 * (sy * R.y) - sx * R.x * (sy * M.a10)
      = (sx * sy) * (M.a00 * R.y - R.x * M.a10) := by ring
  simp only [cramer2, hd, h1, h2, mul_div_mul_left _ _ (mul_ne_zero hx hy)]

/-- The test of `isInside` does not change when both axes are rescaled. -/
theorem isInsideTri_scale (sqrt : α → α) (sx sy : α) (hx : sx ≠ 0) (hy : sy ≠ 0)
    (p a b c : Vec3 α) :
    isInsideTri (exactNumerics sqrt) (Vec3.scaleXY sx sy p) (Vec3.scaleXY sx sy a)
        (Vec3.scaleXY sx sy b) (Vec3.scaleXY sx sy c)
      = isInsideTri (exactNumerics sqrt) p a b c := by
  have h := cramer3_scale sx sy hx hy ⟨a.x, b.x, c.x, a.y, b.y, c.y, 1, 1, 1⟩ ⟨p.x, p.y, 1⟩
  simp only at h
  simp only [isInsideTri, exactNumerics_solve3, Vec3.scaleXY, h]

/-- The test of `lineCross` on planar points does not change when both axes
are rescaled. -/
theorem lineCross_scale (sx sy : ℝ) (hx : sx ≠ 0) (hy : sy ≠ 0) (a b c d : Vec3 ℝ)
    (hp : Planar4 a b c d) :
    lineCross (exactNumerics Real.sqrt) (Vec3.scaleXY sx sy a) (Vec3.scaleXY sx sy b)
        (Vec3.scaleXY sx sy c) (Vec3.scaleXY sx sy d)
      = lineCross (exactNumerics Real.sqrt) a b c d := by
  have hp' : Planar4 (Vec3.scaleXY sx sy a) (Vec3.scaleXY sx sy b) (Vec3.scaleXY sx sy c)
      (Vec3.scaleXY sx sy d) := hp
  have h := cramer2_scale sx sy hx hy ⟨a.x - b.x, d.x - c.x, a.y - b.y, d.y - c.y⟩
    ⟨d.x - b.x, d.y - b.y⟩
  have hd : Mat2.det ⟨sx * a.x - sx * b.x, sx * d.x - sx * c.x, sy * a.y - sy * b.y,
      sy * d.y - sy * c.y⟩
      = (sx * sy) * Mat2.det ⟨a.x - b.x, d.x - c.x, a.y - b.y, d.y - c.y⟩ := by
    simp only [Mat2.det]
    ring
  have hz : (Vec3.norm (exactNumerics Real.sqrt) (Vec3.cross
        (Vec3.sub (Vec3.scaleXY sx sy b) (Vec3.scaleXY sx sy a))
        (Vec3.sub (Vec3.scaleXY sx sy d) (Vec3.scaleXY sx sy c))) = 0)
      ↔ (Vec3.norm (exactNumerics Real.sqrt) (Vec3.cross (Vec3.sub b a) (Vec3.sub d c)) = 0) := by
    rw [norm_cross_eq_zero_iff _ rfl _ _ _ _ hp', norm_cross_eq_zero_iff _ rfl _ _ _ _ hp]
    simp only [Vec3.scaleXY, hd, mul_eq_zero, hx, hy, or_self, false_or]
  simp only at h
  simp only [lineCross, hz, exactNumerics_solve2]
  simp only [Vec3.scaleXY, ← mul_sub, h]

/-- The body of the loop of `overlap` on planar points does not change when
both axes are rescaled. -/
theorem overlapTri_scale (sx sy : ℝ) (hx : sx ≠ 0) (hy : sy ≠ 0) (p q r a b c : Vec3 ℝ)
    (hp : p.z = 0) (hq : q.z = 0) (hr : r.z = 0) (ha : a.z = 0) (hb : b.z = 0) (hc : c.z = 0) :
    overlapTri (exactNumerics Real.sqrt) (Vec3.scaleXY sx sy p) (Vec3.scaleXY sx sy q)
        (Vec3.scaleXY sx sy r) (Vec3.scaleXY sx sy a) (Vec3.scaleXY sx sy b)
        (Vec3.scaleXY sx sy c)
      = overlapTri (exactNumerics Real.sqrt) p q r a b c := by
  simp only [overlapTri, isInsideTri_scale _ sx sy hx hy,
    lineCross_scale sx sy hx hy p q a b ⟨hp, hq, ha, hb⟩,
    lineCross_scale sx sy hx hy p q b c ⟨hp, hq, hb, hc⟩,
    lineCross_scale sx sy hx hy p q a c ⟨hp, hq, ha, hc⟩,
    lineCross_scale sx sy hx hy p r a b ⟨hp, hr, ha, hb⟩,
    lineCross_scale sx sy hx hy p r b c ⟨hp, hr, hb, hc⟩,
    lineCross_scale sx sy hx hy p r a c ⟨hp, hr, ha, hc⟩]

end Scaling

/-! ## The run of the constructor on a regular tetrahedron -/

section Tetrahedron

/-- In a triangle with three sides of squared length `Q` the scalar product of
two sides is `Q / 2` and the squared norm of their cross product `3/4 Q^2`. -/
theorem regular_face (p q r : Vec3 ℝ) (Q : ℝ) (h1 : (Vec3.sub q p).squaredNorm = Q)
    (h2 : (Vec3.sub r p).squaredNorm = Q) (h3 : (Vec3.sub r q).squaredNorm = Q) :
    Vec3.dot (Vec3.sub q p) (Vec3.sub r p) = Q / 2 ∧
      (Vec3.cross (Vec3.sub q p) (Vec3.sub r p)).squaredNorm = 3 / 4 * (Q * Q) := by
  have hd : Vec3.dot (Vec3.sub q p) (Vec3.sub r p) = Q / 2 := by
    simp only [Vec3.dot, Vec3.sub, Vec3.squaredNorm] at *
    linear_combination (h1 + h2 - h3) / 2
  refine ⟨hd, ?_⟩
  rw [Vec3.lagrange, hd, h1, h2]
  ring

/-- The two candidates of `flattenVertex` for an equilateral triangle of side
`e` and height `s`, laid on two planar points at distance `e`. -/
theorem regular_candidates (v1 v2 v3 P1 P2 : Vec3 ℝ) (e s : ℝ) (he : 0 < e) (hs : 0 < s)
    (hse : 4 * (s * s) = 3 * (e * e))
    (h12 : (Vec3.sub v2 v1).squaredNorm = e * e) (h13 : (Vec3.sub v3 v1).squaredNorm = e * e)
    (h23 : (Vec3.sub v3 v2).squaredNorm = e * e)
    (hP : e * e = (P2.y - P1.y) * (P2.y - P1.y) + (P2.x - P1.x) * (P2.x - P1.x))
    (hz1 : P1.z = 0) (hz2 : P2.z = 0) :
    flatCandidates (exactNumerics Real.sqrt) v1 v2 v3 P1 P2 =
      (⟨(P1.x + P2.x) / 2 - s * (P2.y - P1.y) / e, (P1.y + P2.y) / 2 + s * (P2.x - P1.x) / e, 0⟩,
       ⟨(P1.x + P2.x) / 2 + s * (P2.y - P1.y) / e, (P1.y + P2.y) / 2 - s * (P2.x - P1.x) / e,
         0⟩) := by
  obtain ⟨hd, hc⟩ := regular_face v1 v2 v3 (e * e) h12 h13 h23
  have hA : (s * e) * (s * e) = (Vec3.cross (Vec3.sub v2 v1) (Vec3.sub v3 v1)).squaredNorm := by
    rw [hc]
    linear_combination (e * e / 4) * hse
  rw [flatCandidates_closed (exactNumerics Real.sqrt) rfl v1 v2 v3 P1 P2 e (s * e) e he h12.symm
    (mul_pos hs he).le hA he hP, hd]
  have he0 : e ≠ 0 := he.ne'
  simp only [Vec3.add, Vec3.smul, hz1, hz2, Prod.mk.injEq, Vec3.mk.injEq]
  refine ⟨⟨?_, ?_, ?_⟩, ?_, ?_, ?_⟩ <;> field_simp <;> ring

theorem scaleXY_eq (sx sy x y X Y : ℝ) (hx : sx * x = X) (hy : sy * y = Y) :
    Vec3.scaleXY sx sy ⟨x, y, 0⟩ = ⟨X, Y, 0⟩ := by
  subst hx hy
  rfl

/-- The overlap test on points that are multiples, axis by axis, of given
points. -/
theorem overlapTri_scaled (sx sy : ℝ) (hx : 0 < sx) (hy : 0 < sy) (p q r a b c : Vec3 ℝ)
    (p' q' r' a' b' c' : Vec3 ℝ)
    (hp : Vec3.scaleXY sx sy p = p') (hq : Vec3.scaleXY sx sy q = q')
    (hr : Vec3.scaleXY sx sy r = r') (ha : Vec3.scaleXY sx sy a = a')
    (hb : Vec3.scaleXY sx sy b = b') (hc : Vec3.scaleXY sx sy c = c')
    (zp : p.z = 0) (zq : q.z = 0) (zr : r.z = 0) (za : a.z = 0) (zb : b.z = 0) (zc : c.z = 0) :
    overlapTri (exactNumerics Real.sqrt) p' q' r' a' b' c'
      = overlapTri (exactNumerics Real.sqrt) p q r a b c := by
  subst hp hq hr ha hb hc
  exact overlapTri_scale sx sy hx.ne' hy.ne' p q r a b c zp zq zr za zb zc

theorem tet_pO (e s : ℝ) : Vec3.scaleXY s e ⟨0, 0, 0⟩ = ⟨0, 0, 0⟩ :=
  scaleXY_eq s e 0 0 0 0 (by ring) (by ring)

theorem tet_pB (e s : ℝ) : Vec3.scaleXY s e ⟨0, 1, 0⟩ = ⟨0, e, 0⟩ :=
  scaleXY_eq s e 0 1 0 e (by ring) (by ring)

theorem tet_pC (e s : ℝ) : Vec3.scaleXY s e ⟨-1, 1 / 2, 0⟩ = ⟨-s, e / 2, 0⟩ :=
  scaleXY_eq s e (-1) (1 / 2) (-s) (e / 2) (by ring) (by ring)

theorem tet_pD (e s : ℝ) : Vec3.scaleXY s e ⟨1, 1 / 2, 0⟩ = ⟨s, e / 2, 0⟩ :=
  scaleXY_eq s e 1 (1 / 2) s (e / 2) (by ring) (by ring)

theorem tet_pE (e s : ℝ) : Vec3.scaleXY s e ⟨-1, 3 / 2, 0⟩ = ⟨-s, 3 * e / 2, 0⟩ :=
  scaleXY_eq s e (-1) (3 / 2) (-s) (3 * e / 2) (by ring) (by ring)

theorem tet_pF (e s : ℝ) : Vec3.scaleXY s e ⟨-1, -(1 / 2), 0⟩ = ⟨-s, -(e / 2), 0⟩ :=
  scaleXY_eq s e (-1) (-(1 / 2)) (-s) (-(e / 2)) (by ring) (by ring)

theorem tet_ov_C_T0 (e s : ℝ) (he : 0 < e) (hs : 0 < s) :
    overlapTri (exactNumerics Real.sqrt) ⟨-s, e / 2, 0⟩ ⟨0, 0, 0⟩ ⟨0, e, 0⟩
      ⟨0, 0, 0⟩ ⟨0, e, 0⟩ ⟨-s, e / 2, 0⟩ = true := by
  rw [overlapTri_scaled s e hs he _ _ _ _ _ _ _ _ _ _ _ _ (tet_pC e s) (tet_pO e s) (tet_pB e s)
    (tet_pO e s) (tet_pB e s) (tet_pC e s) rfl rfl rfl rfl rfl rfl]
  norm_num [overlapTri, isInsideTri, lineCross, Vec3.norm, Vec3.cross, Vec3.sub,
    Vec3.squaredNorm, exactNumerics_sqrt, exactNumerics_solve2, exactNumerics_solve3,
    cramer2, cramer3, Mat2.det, Mat3.det, Real.sqrt_eq_zero']

theorem tet_ov_D_T0 (e s : ℝ) (he : 0 < e) (hs : 0 < s) :
    overlapTri (exactNumerics Real.sqrt) ⟨s, e / 2, 0⟩ ⟨0, 0, 0⟩ ⟨0, e, 0⟩
      ⟨0, 0, 0⟩ ⟨0, e, 0⟩ ⟨-s, e / 2, 0⟩ = false := by
  rw [overlapTri_scaled s e hs he _ _ _ _ _ _ _ _ _ _ _ _ (tet_pD e s) (tet_pO e s) (tet_pB e s)
    (tet_pO e s) (tet_pB e s) (tet_pC e s) rfl rfl rfl rfl rfl rfl]
  norm_num [overlapTri, isInsideTri, lineCross, Vec3.norm, Vec3.cross, Vec3.sub,
    Vec3.squaredNorm, exactNumerics_sqrt, exactNumerics_solve2, exactNumerics_solve3,
    cramer2, cramer3, Mat2.det, Mat3.det, Real.sqrt_eq_zero']

theorem tet_ov_O_T0 (e s : ℝ) (he : 0 < e) (hs : 0 < s) :
    overlapTri (exactNumerics Real.sqrt) ⟨0, 0, 0⟩ ⟨0, e, 0⟩ ⟨-s, e / 2, 0⟩
      ⟨0, 0, 0⟩ ⟨0, e, 0⟩ ⟨-s, e / 2, 0⟩ = true := by
  rw [overlapTri_scaled s e hs he _ _ _ _ _ _ _ _ _ _ _ _ (tet_pO e s) (tet_pB e s) (tet_pC e s)
    (tet_pO e s) (tet_pB e s) (tet_pC e s) rfl rfl rfl rfl rfl rfl]
  norm_num [overlapTri, isInsideTri, lineCross, Vec3.norm, Vec3.cross, Vec3.sub,
    Vec3.squaredNorm, exactNumerics_sqrt, exactNumerics_solve2, exactNumerics_solve3,
    cramer2, cramer3, Mat2.det, Mat3.det, Real.sqrt_eq_zero']

theorem tet_ov_E_T0 (e s : ℝ) (he : 0 < e) (hs : 0 < s) :
    overlapTri (exactNumerics Real.sqrt) ⟨-s, 3 * e / 2, 0⟩ ⟨0, e, 0⟩ ⟨-s, e / 2, 0⟩
      ⟨0, 0, 0⟩ ⟨0, e, 0⟩ ⟨-s, e / 2, 0⟩ = false := by
  rw [overlapTri_scaled s e hs he _ _ _ _ _ _ _ _ _ _ _ _ (tet_pE e s) (tet_pB e s) (tet_pC e s)
    (tet_pO e s) (tet_pB e s) (tet_pC e s) rfl rfl rfl rfl rfl rfl]
  norm_num [overlapTri, isInsideTri, lineCross, Vec3.norm, Vec3.cross, Vec3.sub,
    Vec3.squaredNorm, exactNumerics_sqrt, exactNumerics_solve2, exactNumerics_solve3,
    cramer2, cramer3, Mat2.det, Mat3.det, Real.sqrt_eq_zero']

theorem tet_ov_E_T1 (e s : ℝ) (he : 0 < e) (hs : 0 < s) :
    overlapTri (exactNumerics Real.sqrt) ⟨-s, 3 * e / 2, 0⟩ ⟨0, e, 0⟩ ⟨-s, e / 2, 0⟩
      ⟨0, 0, 0⟩ ⟨0, e, 0⟩ ⟨s, e / 2, 0⟩ = false := by
  rw [overlapTri_scaled s e hs he _ _ _ _ _ _ _ _ _ _ _ _ (tet_pE e s) (tet_pB e s) (tet_pC e s)
    (tet_pO e s) (tet_pB e s) (tet_pD e s) rfl rfl rfl rfl rfl rfl]
  norm_num [overlapTri, isInsideTri, lineCross, Vec3.norm, Vec3.cross, Vec3.sub,
    Vec3.squaredNorm, exactNumerics_sqrt, exactNumerics_solve2, exactNumerics_solve3,
    cramer2, cramer3, Mat2.det, Mat3.det, Real.sqrt_eq_zero']

theorem tet_ov_F_T0 (e s : ℝ) (he : 0 < e) (hs : 0 < s) :
    overlapTri (exactNumerics Real.sqrt) ⟨-s, -(e / 2), 0⟩ ⟨0, 0, 0⟩ ⟨-s, e / 2, 0⟩
      ⟨0, 0, 0⟩ ⟨0, e, 0⟩ ⟨-s, e / 2, 0⟩ = false := by
  rw [overlapTri_scaled s e hs he _ _ _ _ _ _ _ _ _ _ _ _ (tet_pF e s) (tet_pO e s) (tet_pC e s)
    (tet_pO e s) (tet_pB e s) (tet_pC e s) rfl rfl rfl rfl rfl rfl]
  norm_num [overlapTri, isInsideTri, lineCross, Vec3.norm, Vec3.cross, Vec3.sub,
    Vec3.squaredNorm, exactNumerics_sqrt, exactNumerics_solve2, exactNumerics_solve3,
    cramer2, cramer3, Mat2.det, Mat3.det, Real.sqrt_eq_zero']

theorem tet_ov_F_T1 (e s : ℝ) (he : 0 < e) (hs : 0 < s) :
    overlapTri (exactNumerics Real.sqrt) ⟨-s, -(e / 2), 0⟩ ⟨0, 0, 0⟩ ⟨-s, e / 2, 0⟩
      ⟨0, 0, 0⟩ ⟨0, e, 0⟩ ⟨s, e / 2, 0⟩ = false := by
  rw [overlapTri_scaled s e hs he _ _ _ _ _ _ _ _ _ _ _ _ (tet_pF e s) (tet_pO e s) (tet_pC e s)
    (tet_pO e s) (tet_pB e s) (tet_pD e s) rfl rfl rfl rfl rfl rfl]
  norm_num [overlapTri, isInsideTri, lineCross, Vec3.norm, Vec3.cross, Vec3.sub,
    Vec3.squaredNorm, exactNumerics_sqrt, exactNumerics_solve2, exactNumerics_solve3,
    cramer2, cramer3, Mat2.det, Mat3.det, Real.sqrt_eq_zero']

theorem tet_ov_F_T2 (e s : ℝ) (he : 0 < e) (hs : 0 < s) :
    overlapTri (exactNumerics Real.sqrt) ⟨-s, -(e / 2), 0⟩ ⟨0, 0, 0⟩ ⟨-s, e / 2, 0⟩
      ⟨0, e, 0⟩ ⟨-s, e / 2, 0⟩ ⟨-s, 3 * e / 2, 0⟩ = false := by
  rw [overlapTri_scaled s e hs he _ _ _ _ _ _ _ _ _ _ _ _ (tet_pF e s) (tet_pO e s) (tet_pC e s)
    (tet_pB e s) (tet_pC e s) (tet_pE e s) rfl rfl rfl rfl rfl rfl]
  norm_num [overlapTri, isInsideTri, lineCross, Vec3.norm, Vec3.cross, Vec3.sub,
    Vec3.squaredNorm, exactNumerics_sqrt, exactNumerics_solve2, exactNumerics_solve3,
    cramer2, cramer3, Mat2.det, Mat3.det, Real.sqrt_eq_zero']


theorem tet_deref0 {α : Type} [LinearOrderedField α] (V : Int → Vec3 α) :
    deref (tetMeshes V) 0 = (Mesh.mk3 0 V 0 1 2).addNebs [(1, (0, 1)), (2, (1, 2)), (3, (0, 2))] := rfl

theorem tet_deref1 {α : Type} [LinearOrderedField α] (V : Int → Vec3 α) :
    deref (tetMeshes V) 1 = (Mesh.mk3 1 V 0 1 3).addNebs [(0, (0, 1)), (2, (1, 3)), (3, (0, 3))] := rfl

theorem tet_deref2 {α : Type} [LinearOrderedField α] (V : Int → Vec3 α) :
    deref (tetMeshes V) 2 = (Mesh.mk3 2 V 1 2 3).addNebs [(0, (1, 2)), (3, (2, 3)), (1, (1, 3))] := rfl

theorem tet_deref3 {α : Type} [LinearOrderedField α] (V : Int → Vec3 α) :
    deref (tetMeshes V) 3 = (Mesh.mk3 3 V 0 2 3).addNebs [(0, (0, 2)), (2, (2, 3)), (1, (0, 3))] := rfl

theorem tet_length {α : Type} [LinearOrderedField α] (V : Int → Vec3 α) :
    (tetMeshes V).length = 4 := rfl

theorem tet1_corners0 (V : Int → Vec3 ℝ) (e s : ℝ) :
    (deref (tet1 V e s) 0).corners = (⟨0, 0, 0⟩, ⟨0, e, 0⟩, ⟨-s, e / 2, 0⟩) := by
  simp [tet1, placed, deref_setFlat_vid2fv, deref_setFlat_vid2v, deref_setFlat_vid,
    deref_setFlat_vids, deref_setFlat_nebMeshes, length_setFlat, tet_length, tet_deref0,
    tet_deref1, tet_deref2, tet_deref3, Mesh.corners, Mesh.vid, Mesh.mk3, Mesh.addNebs, assign,
    Vec3.zero]

theorem tet_call1 (V : Int → Vec3 ℝ) (e s : ℝ) (he : 0 < e) (hs : 0 < s)
    (hse : 4 * (s * s) = 3 * (e * e)) (hV : RegularTetrahedron V (e * e)) :
    flattenMesh (exactNumerics Real.sqrt) (tet1 V e s) 0 1 (0, 1) [0]
      = some (true, tet2 V e s) := by
  have hc : flatCandidates (exactNumerics Real.sqrt) (V 0) (V 1) (V 3)
      ⟨0, 0, 0⟩ ⟨0, e, 0⟩ = (⟨-s, e / 2, 0⟩, ⟨s, e / 2, 0⟩) := by
    rw [regular_candidates (V 0) (V 1) (V 3) ⟨0, 0, 0⟩ ⟨0, e, 0⟩ e s he hs hse
      (hV.2 1 (by simp) 0 (by simp) (by decide)) (hV.2 3 (by simp) 0 (by simp) (by decide))
      (hV.2 3 (by simp) 1 (by simp) (by decide)) (by simp only []; linarith) rfl rfl]
    have he0 : e ≠ 0 := he.ne'
    simp only [Prod.mk.injEq, Vec3.mk.injEq, and_true]
    refine ⟨⟨?_, ?_⟩, ?_, ?_⟩ <;> field_simp
  have hv : (deref (tet1 V e s) 1).vids = [0, 1, 3] := by
    simp [tet1, placed, deref_setFlat_vid2fv, deref_setFlat_vid2v, deref_setFlat_vid,
    deref_setFlat_vids, deref_setFlat_nebMeshes, length_setFlat, tet_length, tet_deref0,
    tet_deref1, tet_deref2, tet_deref3, Mesh.corners, Mesh.vid, Mesh.mk3, Mesh.addNebs, assign,
    Vec3.zero]
  have hp : (deref (tet1 V e s) 0).vid2fv 0 = ⟨0, 0, 0⟩
      ∧ (deref (tet1 V e s) 0).vid2fv 1 = ⟨0, e, 0⟩ := by
    simp [tet1, placed, deref_setFlat_vid2fv, deref_setFlat_vid2v, deref_setFlat_vid,
    deref_setFlat_vids, deref_setFlat_nebMeshes, length_setFlat, tet_length, tet_deref0,
    tet_deref1, tet_deref2, tet_deref3, Mesh.corners, Mesh.vid, Mesh.mk3, Mesh.addNebs, assign,
    Vec3.zero]
  have h3 : (deref (tet1 V e s) 1).vid2v 0 = V 0
      ∧ (deref (tet1 V e s) 1).vid2v 1 = V 1
      ∧ (deref (tet1 V e s) 1).vid2v 3 = V 3 := by
    simp [tet1, placed, deref_setFlat_vid2fv, deref_setFlat_vid2v, deref_setFlat_vid,
    deref_setFlat_vids, deref_setFlat_nebMeshes, length_setFlat, tet_length, tet_deref0,
    tet_deref1, tet_deref2, tet_deref3, Mesh.corners, Mesh.vid, Mesh.mk3, Mesh.addNebs, assign,
    Vec3.zero]
  rw [flattenMesh_eq _ _ _ _ _ _ 3 _ (by rw [hv]; rfl)]
  simp only [flattenVertex, deref_setFlat_vid2fv, hp.1, hp.2, h3.1, h3.2.1, h3.2.2, hc,
    overlap_eq_any, List.any_cons, List.any_nil, tet1_corners0 V e s,
    tet_ov_C_T0 e s he hs, tet_ov_D_T0 e s he hs]
  simp [tet2, placed]

theorem tet2_corners0 (V : Int → Vec3 ℝ) (e s : ℝ) :
    (deref (tet2 V e s) 0).corners = (⟨0, 0, 0⟩, ⟨0, e, 0⟩, ⟨-s, e / 2, 0⟩) := by
  simp [tet1, tet2, placed, deref_setFlat_vid2fv, deref_setFlat_vid2v, deref_setFlat_vid,
    deref_setFlat_vids, deref_setFlat_nebMeshes, length_setFlat, tet_length, tet_deref0,
    tet_deref1, tet_deref2, tet_deref3, Mesh.corners, Mesh.vid, Mesh.mk3, Mesh.addNebs, assign,
    Vec3.zero]

theorem tet2_corners1 (V : Int → Vec3 ℝ) (e s : ℝ) :
    (deref (tet2 V e s) 1).corners = (⟨0, 0, 0⟩, ⟨0, e, 0⟩, ⟨s, e / 2, 0⟩) := by
  simp [tet1, tet2, placed, deref_setFlat_vid2fv, deref_setFlat_vid2v, deref_setFlat_vid,
    deref_setFlat_vids, deref_setFlat_nebMeshes, length_setFlat, tet_length, tet_deref0,
    tet_deref1, tet_deref2, tet_deref3, Mesh.corners, Mesh.vid, Mesh.mk3, Mesh.addNebs, assign,
    Vec3.zero]

theorem tet_call2 (V : Int → Vec3 ℝ) (e s : ℝ) (he : 0 < e) (hs : 0 < s)
    (hse : 4 * (s * s) = 3 * (e * e)) (hV : RegularTetrahedron V (e * e)) :
    flattenMesh (exactNumerics Real.sqrt) (tet2 V e s) 0 2 (1, 2) [0, 1]
      = some (true, tet3 V e s) := by
  have hc : flatCandidates (exactNumerics Real.sqrt) (V 1) (V 2) (V 3)
      ⟨0, e, 0⟩ ⟨-s, e / 2, 0⟩ = (⟨0, 0, 0⟩, ⟨-s, 3 * e / 2, 0⟩) := by
    rw [regular_candidates (V 1) (V 2) (V 3) ⟨0, e, 0⟩ ⟨-s, e / 2, 0⟩ e s he hs hse
      (hV.2 2 (by simp) 1 (by simp) (by decide)) (hV.2 3 (by simp) 1 (by simp) (by decide))
      (hV.2 3 (by simp) 2 (by simp) (by decide)) (by simp only []; linarith) rfl rfl]
    have he0 : e ≠ 0 := he.ne'
    simp only [Prod.mk.injEq, Vec3.mk.injEq, and_true]
    refine ⟨⟨?_, ?_⟩, ?_, ?_⟩ <;> field_simp <;> linarith
  have hv : (deref (tet2 V e s) 2).vids = [1, 2, 3] := by
    simp [tet1, tet2, placed, deref_setFlat_vid2fv, deref_setFlat_vid2v, deref_setFlat_vid,
    deref_setFlat_vids, deref_setFlat_nebMeshes, length_setFlat, tet_length, tet_deref0,
    tet_deref1, tet_deref2, tet_deref3, Mesh.corners, Mesh.vid, Mesh.mk3, Mesh.addNebs, assign,
    Vec3.zero]
  have hp : (deref (tet2 V e s) 0).vid2fv 1 = ⟨0, e, 0⟩
      ∧ (deref (tet2 V e s) 0).vid2fv 2 = ⟨-s, e / 2, 0⟩ := by
    simp [tet1, tet2, placed, deref_setFlat_vid2fv, deref_setFlat_vid2v, deref_setFlat_vid,
    deref_setFlat_vids, deref_setFlat_nebMeshes, length_setFlat, tet_length, tet_deref0,
    tet_deref1, tet_deref2, tet_deref3, Mesh.corners, Mesh.vid, Mesh.mk3, Mesh.addNebs, assign,
    Vec3.zero]
  have h3 : (deref (tet2 V e s) 2).vid2v 1 = V 1
      ∧ (deref (tet2 V e s) 2).vid2v 2 = V 2
      ∧ (deref (tet2 V e s) 2).vid2v 3 = V 3 := by
    simp [tet1, tet2, placed, deref_setFlat_vid2fv, deref_setFlat_vid2v, deref_setFlat_vid,
    deref_setFlat_vids, deref_setFlat_nebMeshes, length_setFlat, tet_length, tet_deref0,
    tet_deref1, tet_deref2, tet_deref3, Mesh.corners, Mesh.vid, Mesh.mk3, Mesh.addNebs, assign,
    Vec3.zero]
  rw [flattenMesh_eq _ _ _ _ _ _ 3 _ (by rw [hv]; rfl)]
  simp only [flattenVertex, deref_setFlat_vid2fv, hp.1, hp.2, h3.1, h3.2.1, h3.2.2, hc,
    overlap_eq_any, List.any_cons, List.any_nil, tet2_corners0 V e s, tet2_corners1 V e s,
    tet_ov_O_T0 e s he hs, tet_ov_E_T0 e s he hs, tet_ov_E_T1 e s he hs]
  simp [tet3, placed]

theorem tet3_corners0 (V : Int → Vec3 ℝ) (e s : ℝ) :
    (deref (tet3 V e s) 0).corners = (⟨0, 0, 0⟩, ⟨0, e, 0⟩, ⟨-s, e / 2, 0⟩) := by
  simp [tet1, tet2, tet3, placed, deref_setFlat_vid2fv, deref_setFlat_vid2v, deref_setFlat_vid,
    deref_setFlat_vids, deref_setFlat_nebMeshes, length_setFlat, tet_length, tet_deref0,
    tet_deref1, tet_deref2, tet_deref3, Mesh.corners, Mesh.vid, Mesh.mk3, Mesh.addNebs, assign,
    Vec3.zero]

theorem tet3_corners1 (V : Int → Vec3 ℝ) (e s : ℝ) :
    (deref (tet3 V e s) 1).corners = (⟨0, 0, 0⟩, ⟨0, e, 0⟩, ⟨s, e / 2, 0⟩) := by
  simp [tet1, tet2, tet3, placed, deref_setFlat_vid2fv, deref_setFlat_vid2v, deref_setFlat_vid,
    deref_setFlat_vids, deref_setFlat_nebMeshes, length_setFlat, tet_length, tet_deref0,
    tet_deref1, tet_deref2, tet_deref3, Mesh.corners, Mesh.vid, Mesh.mk3, Mesh.addNebs, assign,
    Vec3.zero]

theorem tet3_corners2 (V : Int → Vec3 ℝ) (e s : ℝ) :
    (deref (tet3 V e s) 2).corners = (⟨0, e, 0⟩, ⟨-s, e / 2, 0⟩, ⟨-s, 3 * e / 2, 0⟩) := by
  simp [tet1, tet2, tet3, placed, deref_setFlat_vid2fv, deref_setFlat_vid2v, deref_setFlat_vid,
    deref_setFlat_vids, deref_setFlat_nebMeshes, length_setFlat, tet_length, tet_deref0,
    tet_deref1, tet_deref2, tet_deref3, Mesh.corners, Mesh.vid, Mesh.mk3, Mesh.addNebs, assign,
    Vec3.zero]

theorem tet_call3 (V : Int → Vec3 ℝ) (e s : ℝ) (he : 0 < e) (hs : 0 < s)
    (hse : 4 * (s * s) = 3 * (e * e)) (hV : RegularTetrahedron V (e * e)) :
    flattenMesh (exactNumerics Real.sqrt) (tet3 V e s) 0 3 (0, 2) [0, 1, 2]
      = some (true, tet4 V e s) := by
  have hc : flatCandidates (exactNumerics Real.sqrt) (V 0) (V 2) (V 3)
      ⟨0, 0, 0⟩ ⟨-s, e / 2, 0⟩ = (⟨-s, -(e / 2), 0⟩, ⟨0, e, 0⟩) := by
    rw [regular_candidates (V 0) (V 2) (V 3) ⟨0, 0, 0⟩ ⟨-s, e / 2, 0⟩ e s he hs hse
      (hV.2 2 (by simp) 0 (by simp) (by decide)) (hV.2 3 (by simp) 0 (by simp) (by decide))
      (hV.2 3 (by simp) 2 (by simp) (by decide)) (by simp only []; linarith) rfl rfl]
    have he0 : e ≠ 0 := he.ne'
    simp only [Prod.mk.injEq, Vec3.mk.injEq, and_true]
    refine ⟨⟨?_, ?_⟩, ?_, ?_⟩ <;> field_simp <;> linarith
  have hv : (deref (tet3 V e s) 3).vids = [0, 2, 3] := by
    simp [tet1, tet2, tet3, placed, deref_setFlat_vid2fv, deref_setFlat_vid2v, deref_setFlat_vid,
    deref_setFlat_vids, deref_setFlat_nebMeshes, length_setFlat, tet_length, tet_deref0,
    tet_deref1, tet_deref2, tet_deref3, Mesh.corners, Mesh.vid, Mesh.mk3, Mesh.addNebs, assign,
    Vec3.zero]
  have hp : (deref (tet3 V e s) 0).vid2fv 0 = ⟨0, 0, 0⟩
      ∧ (deref (tet3 V e s) 0).vid2fv 2 = ⟨-s, e / 2, 0⟩ := by
    simp [tet1, tet2, tet3, placed, deref_setFlat_vid2fv, deref_setFlat_vid2v, deref_setFlat_vid,
    deref_setFlat_vids, deref_setFlat_nebMeshes, length_setFlat, tet_length, tet_deref0,
    tet_deref1, tet_deref2, tet_deref3, Mesh.corners, Mesh.vid, Mesh.mk3, Mesh.addNebs, assign,
    Vec3.zero]
  have h3 : (deref (tet3 V e s) 3).vid2v 0 = V 0
      ∧ (deref (tet3 V e s) 3).vid2v 2 = V 2
      ∧ (deref (tet3 V e s) 3).vid2v 3 = V 3 := by
    simp [tet1, tet2, tet3, placed, deref_setFlat_vid2fv, deref_setFlat_vid2v, deref_setFlat_vid,
    deref_setFlat_vids, deref_setFlat_nebMeshes, length_setFlat, tet_length, tet_deref0,
    tet_deref1, tet_deref2, tet_deref3, Mesh.corners, Mesh.vid, Mesh.mk3, Mesh.addNebs, assign,
    Vec3.zero]
  rw [flattenMesh_eq _ _ _ _ _ _ 3 _ (by rw [hv]; rfl)]
  simp only [flattenVertex, deref_setFlat_vid2fv, hp.1, hp.2, h3.1, h3.2.1, h3.2.2, hc,
    overlap_eq_any, List.any_cons, List.any_nil, tet3_corners0 V e s, tet3_corners1 V e s, tet3_corners2 V e s,
    tet_ov_F_T0 e s he hs, tet_ov_F_T1 e s he hs, tet_ov_F_T2 e s he hs]
  simp [tet4, placed]

theorem tet1_nebs0 (V : Int → Vec3 ℝ) (e s : ℝ) :
    (deref (tet1 V e s) 0).nebMeshes = [(1, (0, 1)), (2, (1, 2)), (3, (0, 2))] := by
  simp [tet1, placed, deref_setFlat_vid2fv, deref_setFlat_vid2v, deref_setFlat_vid,
    deref_setFlat_vids, deref_setFlat_nebMeshes, length_setFlat, tet_length, tet_deref0,
    tet_deref1, tet_deref2, tet_deref3, Mesh.corners, Mesh.vid, Mesh.mk3, Mesh.addNebs, assign,
    Vec3.zero]

theorem tet4_nebs1 (V : Int → Vec3 ℝ) (e s : ℝ) :
    (deref (tet4 V e s) 1).nebMeshes = [(0, (0, 1)), (2, (1, 3)), (3, (0, 3))] := by
  simp [tet1, tet2, tet3, tet4, placed, deref_setFlat_vid2fv, deref_setFlat_vid2v, deref_setFlat_vid,
    deref_setFlat_vids, deref_setFlat_nebMeshes, length_setFlat, tet_length, tet_deref0,
    tet_deref1, tet_deref2, tet_deref3, Mesh.corners, Mesh.vid, Mesh.mk3, Mesh.addNebs, assign,
    Vec3.zero]

theorem tet4_nebs2 (V : Int → Vec3 ℝ) (e s : ℝ) :
    (deref (tet4 V e s) 2).nebMeshes = [(0, (1, 2)), (3, (2, 3)), (1, (1, 3))] := by
  simp [tet1, tet2, tet3, tet4, placed, deref_setFlat_vid2fv, deref_setFlat_vid2v, deref_setFlat_vid,
    deref_setFlat_vids, deref_setFlat_nebMeshes, length_setFlat, tet_length, tet_deref0,
    tet_deref1, tet_deref2, tet_deref3, Mesh.corners, Mesh.vid, Mesh.mk3, Mesh.addNebs, assign,
    Vec3.zero]

theorem tet4_nebs3 (V : Int → Vec3 ℝ) (e s : ℝ) :
    (deref (tet4 V e s) 3).nebMeshes = [(0, (0, 2)), (2, (2, 3)), (1, (0, 3))] := by
  simp [tet1, tet2, tet3, tet4, placed, deref_setFlat_vid2fv, deref_setFlat_vid2v, deref_setFlat_vid,
    deref_setFlat_vids, deref_setFlat_nebMeshes, length_setFlat, tet_length, tet_deref0,
    tet_deref1, tet_deref2, tet_deref3, Mesh.corners, Mesh.vid, Mesh.mk3, Mesh.addNebs, assign,
    Vec3.zero]

theorem tet_nebs_closed :
    nebsOf (incidentFrom 0 tetIDX) 0 0 1 2 = [(1, (0, 1)), (2, (1, 2)), (3, (0, 2))] ∧
    nebsOf (incidentFrom 0 tetIDX) 1 0 1 3 = [(0, (0, 1)), (2, (1, 3)), (3, (0, 3))] ∧
    nebsOf (incidentFrom 0 tetIDX) 2 1 2 3 = [(0, (1, 2)), (3, (2, 3)), (1, (1, 3))] ∧
    nebsOf (incidentFrom 0 tetIDX) 3 0 2 3 = [(0, (0, 2)), (2, (2, 3)), (1, (0, 3))] := by
  decide

/-- The graph built from the index buffer of the tetrahedron, for any vertex
buffer. -/
theorem tet_graph {α : Type} [LinearOrderedField α] (N : Numerics α) (V : Int → Vec3 α) :
    ∃ g, buildGraph N V tetIDX = some g ∧ g.meshes = tetMeshes V := by
  obtain ⟨w, hw⟩ := buildGraph_spec N V tetIDX
  obtain ⟨h0, h1, h2, h3⟩ := tet_nebs_closed
  refine ⟨⟨tetMeshes V, incidentFrom 0 tetIDX, w, V⟩, ?_, rfl⟩
  rw [hw]
  simp only [tetIDX, meshesFrom, nebPass] at *
  simp [Mesh.vid, Mesh.mk3, h0, h1, h2, h3, Mesh.addNebs, tetMeshes]

theorem tet_seed (V : Int → Vec3 ℝ) (e s : ℝ) (he : 0 < e) (hs : 0 < s)
    (hse : 4 * (s * s) = 3 * (e * e)) (hV : RegularTetrahedron V (e * e)) :
    flattenFirst (exactNumerics Real.sqrt) (tetMeshes V) 0 [] = (true, tet1 V e s) := by
  have hc : (flatCandidates (exactNumerics Real.sqrt) (V 0) (V 1) (V 2)
      ⟨0, 0, 0⟩ ⟨0, e, 0⟩).1 = ⟨-s, e / 2, 0⟩ := by
    rw [regular_candidates (V 0) (V 1) (V 2) ⟨0, 0, 0⟩ ⟨0, e, 0⟩ e s he hs hse
      (hV.2 1 (by simp) 0 (by simp) (by decide)) (hV.2 2 (by simp) 0 (by simp) (by decide))
      (hV.2 2 (by simp) 1 (by simp) (by decide)) (by simp only []; ring) rfl rfl]
    have he0 : e ≠ 0 := he.ne'
    simp only [Vec3.mk.injEq, and_true]
    refine ⟨?_, ?_⟩ <;> field_simp
  have hL : Vec3.norm (exactNumerics Real.sqrt) (Vec3.sub (V 0) (V 1)) = e := by
    rw [Vec3.norm, exactNumerics_sqrt, hV.2 0 (by simp) 1 (by simp) (by decide)]
    exact Real.sqrt_mul_self he.le
  simp [flattenFirst, flattenVertex_nil, deref_setFlat_vid2fv, deref_setFlat_vid2v,
    deref_setFlat_vid, length_setFlat, tet_length, tet_deref0, Mesh.vid, Mesh.mk3, Mesh.addNebs,
    assign, hL, hc, tet1, placed]

/-- The whole run of the constructor on a regular tetrahedron of edge length
`e`, with `s` the height of a face. -/
theorem tet_run (V : Int → Vec3 ℝ) (e s : ℝ) (he : 0 < e) (hs : 0 < s)
    (hse : 4 * (s * s) = 3 * (e * e)) (hV : RegularTetrahedron V (e * e)) :
    FlattenObject.ctor (exactNumerics Real.sqrt) V tetIDX
      = some ⟨tet4 V e s, [0, 1, 2, 3], []⟩ := by
  obtain ⟨g, hg, hm⟩ := tet_graph (exactNumerics Real.sqrt) V
  have hl : (tet1 V e s).length = 4 := by
    simp [tet1, placed, length_setFlat, tet_length]
  simp only [FlattenObject.ctor, hg, hm, flattenAll, tet_seed V e s he hs hse hV, hl]
  simp [tetMeshes, bfs, visitNeighbours, tet1_nebs0, tet4_nebs1, tet4_nebs2, tet4_nebs3,
    tet_call1 V e s he hs hse hV, tet_call2 V e s he hs hse hV, tet_call3 V e s he hs hse hV]

theorem tet4_corners0 (V : Int → Vec3 ℝ) (e s : ℝ) :
    (deref (tet4 V e s) 0).corners = (⟨0, 0, 0⟩, ⟨0, e, 0⟩, ⟨-s, e / 2, 0⟩) := by
  simp [tet1, tet2, tet3, tet4, placed, deref_setFlat_vid2fv, deref_setFlat_vid2v, deref_setFlat_vid,
    deref_setFlat_vids, deref_setFlat_nebMeshes, length_setFlat, tet_length, tet_deref0,
    tet_deref1, tet_deref2, tet_deref3, Mesh.corners, Mesh.vid, Mesh.mk3, Mesh.addNebs, assign,
    Vec3.zero]

theorem tet4_corners1 (V : Int → Vec3 ℝ) (e s : ℝ) :
    (deref (tet4 V e s) 1).corners = (⟨0, 0, 0⟩, ⟨0, e, 0⟩, ⟨s, e / 2, 0⟩) := by
  simp [tet1, tet2, tet3, tet4, placed, deref_setFlat_vid2fv, deref_setFlat_vid2v, deref_setFlat_vid,
    deref_setFlat_vids, deref_setFlat_nebMeshes, length_setFlat, tet_length, tet_deref0,
    tet_deref1, tet_deref2, tet_deref3, Mesh.corners, Mesh.vid, Mesh.mk3, Mesh.addNebs, assign,
    Vec3.zero]

theorem tet4_corners2 (V : Int → Vec3 ℝ) (e s : ℝ) :
    (deref (tet4 V e s) 2).corners = (⟨0, e, 0⟩, ⟨-s, e / 2, 0⟩, ⟨-s, 3 * e / 2, 0⟩) := by
  simp [tet1, tet2, tet3, tet4, placed, deref_setFlat_vid2fv, deref_setFlat_vid2v, deref_setFlat_vid,
    deref_setFlat_vids, deref_setFlat_nebMeshes, length_setFlat, tet_length, tet_deref0,
    tet_deref1, tet_deref2, tet_deref3, Mesh.corners, Mesh.vid, Mesh.mk3, Mesh.addNebs, assign,
    Vec3.zero]

theorem tet4_corners3 (V : Int → Vec3 ℝ) (e s : ℝ) :
    (deref (tet4 V e s) 3).corners = (⟨0, 0, 0⟩, ⟨-s, e / 2, 0⟩, ⟨-s, -(e / 2), 0⟩) := by
  simp [tet1, tet2, tet3, tet4, placed, deref_setFlat_vid2fv, deref_setFlat_vid2v, deref_setFlat_vid,
    deref_setFlat_vids, deref_setFlat_nebMeshes, length_setFlat, tet_length, tet_deref0,
    tet_deref1, tet_deref2, tet_deref3, Mesh.corners, Mesh.vid, Mesh.mk3, Mesh.addNebs, assign,
    Vec3.zero]

/-- An affine function at a point of the interior of a triangle is a
combination, with positive weights, of its values at the corners. -/
theorem interior_affine (p a b c : Vec3 ℝ) (h : InInterior p a b c) (u v w : ℝ) :
    ∃ x0 x1 x2 : ℝ, 0 < x0 ∧ 0 < x1 ∧ 0 < x2 ∧
      u * p.x + v * p.y + w = x0 * (u * a.x + v * a.y + w) + x1 * (u * b.x + v * b.y + w)
        + x2 * (u * c.x + v * c.y + w) := by
  obtain ⟨x0, x1, x2, h0, h1, h2, hsum, hx, hy⟩ := h
  refine ⟨x0, x1, x2, h0, h1, h2, ?_⟩
  rw [hx, hy]
  linear_combination (-w) * hsum

/-- Two flat triangles on different sides of a line have disjoint interiors:
the affine function `u x + v y + w` is non-negative at the corners of the
first, not zero at all three, and non-positive at the corners of the second. -/
theorem not_interiorsMeet_of_line (m1 m2 : Mesh ℝ) (a b c a' b' c' : Vec3 ℝ)
    (h1 : m1.corners = (a, b, c)) (h2 : m2.corners = (a', b', c')) (u v w : ℝ)
    (ha : 0 ≤ u * a.x + v * a.y + w) (hb : 0 ≤ u * b.x + v * b.y + w)
    (hc : 0 ≤ u * c.x + v * c.y + w)
    (hpos : 0 < (u * a.x + v * a.y + w) + (u * b.x + v * b.y + w) + (u * c.x + v * c.y + w))
    (ha' : u * a'.x + v * a'.y + w ≤ 0) (hb' : u * b'.x + v * b'.y + w ≤ 0)
    (hc' : u * c'.x + v * c'.y + w ≤ 0) : ¬ InteriorsMeet m1 m2 := by
  rintro ⟨p, hp1, hp2⟩
  rw [h1] at hp1
  rw [h2] at hp2
  obtain ⟨x0, x1, x2, hx0, hx1, hx2, hf⟩ := interior_affine p a b c hp1 u v w
  obtain ⟨y0, y1, y2, hy0, hy1, hy2, hg⟩ := interior_affine p a' b' c' hp2 u v w
  generalize u * a.x + v * a.y + w = fa at *
  generalize u * b.x + v * b.y + w = fb at *
  generalize u * c.x + v * c.y + w = fc at *
  generalize u * a'.x + v * a'.y + w = ga at *
  generalize u * b'.x + v * b'.y + w = gb at *
  generalize u * c'.x + v * c'.y + w = gc at *
  have t0 := mul_nonneg hx0.le ha
  have t1 := mul_nonneg hx1.le hb
  have t2 := mul_nonneg hx2.le hc
  have s0 := mul_nonneg hy0.le (neg_nonneg.mpr ha')
  have s1 := mul_nonneg hy1.le (neg_nonneg.mpr hb')
  have s2 := mul_nonneg hy2.le (neg_nonneg.mpr hc')
  have e0 : x0 * fa = 0 := by linarith
  have e1 : x1 * fb = 0 := by linarith
  have e2 : x2 * fc = 0 := by linarith
  have z0 := (mul_eq_zero.mp e0).resolve_left hx0.ne'
  have z1 := (mul_eq_zero.mp e1).resolve_left hx1.ne'
  have z2 := (mul_eq_zero.mp e2).resolve_left hx2.ne'
  linarith

theorem InteriorsMeet.symm {α : Type} [LinearOrderedField α] (m1 m2 : Mesh α)
    (h : InteriorsMeet m1 m2) : InteriorsMeet m2 m1 := by
  obtain ⟨p, h1, h2⟩ := h
  exact ⟨p, h2, h1⟩

theorem tet_disjoint01 (V : Int → Vec3 ℝ) (e s : ℝ) (hs : 0 < s) :
    ¬ InteriorsMeet (deref (tet4 V e s) 1) (deref (tet4 V e s) 0) := by
  apply not_interiorsMeet_of_line _ _ _ _ _ _ _ _ (tet4_corners1 V e s) (tet4_corners0 V e s) 1 0 0
    <;> simp only [] <;> linarith

theorem tet_disjoint12 (V : Int → Vec3 ℝ) (e s : ℝ) (hs : 0 < s) :
    ¬ InteriorsMeet (deref (tet4 V e s) 1) (deref (tet4 V e s) 2) := by
  apply not_interiorsMeet_of_line _ _ _ _ _ _ _ _ (tet4_corners1 V e s) (tet4_corners2 V e s) 1 0 0
    <;> simp only [] <;> linarith

theorem tet_disjoint13 (V : Int → Vec3 ℝ) (e s : ℝ) (hs : 0 < s) :
    ¬ InteriorsMeet (deref (tet4 V e s) 1) (deref (tet4 V e s) 3) := by
  apply not_interiorsMeet_of_line _ _ _ _ _ _ _ _ (tet4_corners1 V e s) (tet4_corners3 V e s) 1 0 0
    <;> simp only [] <;> linarith

theorem tet_disjoint02 (V : Int → Vec3 ℝ) (e s : ℝ) (he : 0 < e) (hs : 0 < s) :
    ¬ InteriorsMeet (deref (tet4 V e s) 0) (deref (tet4 V e s) 2) := by
  have hse := mul_pos hs he
  apply not_interiorsMeet_of_line _ _ _ _ _ _ _ _ (tet4_corners0 V e s) (tet4_corners2 V e s)
    (e / 2) (-s) (s * e) <;> simp only [] <;> linarith

theorem tet_disjoint03 (V : Int → Vec3 ℝ) (e s : ℝ) (he : 0 < e) (hs : 0 < s) :
    ¬ InteriorsMeet (deref (tet4 V e s) 0) (deref (tet4 V e s) 3) := by
  have hse := mul_pos hs he
  apply not_interiorsMeet_of_line _ _ _ _ _ _ _ _ (tet4_corners0 V e s) (tet4_corners3 V e s)
    (e / 2) s 0 <;> simp only [] <;> linarith

theorem tet_disjoint23 (V : Int → Vec3 ℝ) (e s : ℝ) (he : 0 < e) :
    ¬ InteriorsMeet (deref (tet4 V e s) 2) (deref (tet4 V e s) 3) := by
  apply not_interiorsMeet_of_line _ _ _ _ _ _ _ _ (tet4_corners2 V e s) (tet4_corners3 V e s)
    0 1 (-(e / 2)) <;> simp only [] <;> linarith

/-- The four flat triangles of the unfolded regular tetrahedron have pairwise
disjoint interiors. -/
theorem tet_disjoint (V : Int → Vec3 ℝ) (e s : ℝ) (he : 0 < e) (hs : 0 < s) (i j : Nat)
    (hi : i < 4) (hj : j < 4) (hij : i ≠ j) :
    ¬ InteriorsMeet (deref (tet4 V e s) i) (deref (tet4 V e s) j) := by
  have h10 := tet_disjoint01 V e s hs
  have h12 := tet_disjoint12 V e s hs
  have h13 := tet_disjoint13 V e s hs
  have h02 := tet_disjoint02 V e s he hs
  have h03 := tet_disjoint03 V e s he hs
  have h23 := tet_disjoint23 V e s he
  interval_cases i <;> interval_cases j
  · exact absurd rfl hij
  · exact fun h => h10 (InteriorsMeet.symm _ _ h)
  · exact h02
  · exact h03
  · exact h10
  · exact absurd rfl hij
  · exact h12
  · exact h13
  · exact fun h => h02 (InteriorsMeet.symm _ _ h)
  · exact fun h => h12 (InteriorsMeet.symm _ _ h)
  · exact absurd rfl hij
  · exact h23
  · exact fun h => h03 (InteriorsMeet.symm _ _ h)
  · exact fun h => h13 (InteriorsMeet.symm _ _ h)
  · exact fun h => h23 (InteriorsMeet.symm _ _ h)
  · exact absurd rfl hij

/-- A vertex buffer with the six squared distances equal to `q > 0` unfolds
as `tet_run` says, with `e` the square root of `q` and `s = (sqrt 3 / 2) e`. -/
theorem tet_run_sqrt (V : Int → Vec3 ℝ) (q : ℝ) (h : RegularTetrahedron V q) :
    FlattenObject.ctor (exactNumerics Real.sqrt) V tetIDX
      = some ⟨tet4 V (Real.sqrt q) (Real.sqrt 3 / 2 * Real.sqrt q), [0, 1, 2, 3], []⟩ := by
  have he : 0 < Real.sqrt q := Real.sqrt_pos.mpr h.1
  have h3 : 0 < Real.sqrt 3 := Real.sqrt_pos.mpr (by norm_num)
  have hq : Real.sqrt q * Real.sqrt q = q := Real.mul_self_sqrt h.1.le
  have h33 : Real.sqrt 3 * Real.sqrt 3 = 3 := Real.mul_self_sqrt (by norm_num)
  refine tet_run V (Real.sqrt q) (Real.sqrt 3 / 2 * Real.sqrt q) he (by positivity) ?_ ?_
  · linear_combination (Real.sqrt q * Real.sqrt q) * h33
  · rw [hq]
    exact h

theorem tetV_regular : RegularTetrahedron (tetV : Int → Vec3 ℝ) 8 := by
  refine ⟨by norm_num, ?_⟩
  intro i hi j hj hij
  simp only [List.mem_cons, List.mem_singleton, List.not_mem_nil, or_false] at hi hj
  rcases hi with rfl | rfl | rfl | rfl <;> rcases hj with rfl | rfl | rfl | rfl <;>
    first
    | exact absurd rfl hij
    | norm_num [tetV, Vec3.sub, Vec3.squaredNorm]

end Tetrahedron

/-! ## The run of the constructor on the kite, in exact real arithmetic -/

section Kite

theorem kite_deref0 {α : Type} [LinearOrderedField α] : deref (kiteMeshes : List (Mesh α)) 0
    = (Mesh.mk3 0 kiteV 0 1 2).addNebs [(1, (0, 1)), (2, (1, 2)), (3, (0, 2))] := rfl

theorem kite_deref1 {α : Type} [LinearOrderedField α] : deref (kiteMeshes : List (Mesh α)) 1
    = (Mesh.mk3 1 kiteV 0 1 3).addNebs [(0, (0, 1)), (2, (1, 3)), (3, (0, 3))] := rfl

theorem kite_deref2 {α : Type} [LinearOrderedField α] : deref (kiteMeshes : List (Mesh α)) 2
    = (Mesh.mk3 2 kiteV 1 2 3).addNebs [(0, (1, 2)), (3, (2, 3)), (1, (1, 3))] := rfl

theorem kite_deref3 {α : Type} [LinearOrderedField α] : deref (kiteMeshes : List (Mesh α)) 3
    = (Mesh.mk3 3 kiteV 0 2 3).addNebs [(0, (0, 2)), (2, (2, 3)), (1, (0, 3))] := rfl

theorem kite_length {α : Type} [LinearOrderedField α] :
    (kiteMeshes : List (Mesh α)).length = 4 := rfl

theorem kite1_corners0 :
    (deref (kite1 : List (Mesh ℝ)) 0).corners
      = (⟨0, 0, 0⟩, ⟨0, 18, 0⟩, ⟨-12, 9, 0⟩) := by
  simp [kite1, placed, deref_setFlat_vid2fv, deref_setFlat_vid2v, deref_setFlat_vid,
    deref_setFlat_vids, deref_setFlat_nebMeshes, length_setFlat, kite_length, kite_deref0,
    kite_deref1, kite_deref2, kite_deref3, Mesh.corners, Mesh.vid, Mesh.mk3, Mesh.addNebs, assign,
    kiteV, Vec3.zero]

theorem kite2_corners0 :
    (deref (kite2 : List (Mesh ℝ)) 0).corners
      = (⟨0, 0, 0⟩, ⟨0, 18, 0⟩, ⟨-12, 9, 0⟩) := by
  simp [kite1, kite2, placed, deref_setFlat_vid2fv, deref_setFlat_vid2v, deref_setFlat_vid,
    deref_setFlat_vids, deref_setFlat_nebMeshes, length_setFlat, kite_length, kite_deref0,
    kite_deref1, kite_deref2, kite_deref3, Mesh.corners, Mesh.vid, Mesh.mk3, Mesh.addNebs, assign,
    kiteV, Vec3.zero]

theorem kite2_corners1 :
    (deref (kite2 : List (Mesh ℝ)) 1).corners
      = (⟨0, 0, 0⟩, ⟨0, 18, 0⟩, ⟨-40, 9, 0⟩) := by
  simp [kite1, kite2, placed, deref_setFlat_vid2fv, deref_setFlat_vid2v, deref_setFlat_vid,
    deref_setFlat_vids, deref_setFlat_nebMeshes, length_setFlat, kite_length, kite_deref0,
    kite_deref1, kite_deref2, kite_deref3, Mesh.corners, Mesh.vid, Mesh.mk3, Mesh.addNebs, assign,
    kiteV, Vec3.zero]

theorem kite3_corners0 :
    (deref (kite3 : List (Mesh ℝ)) 0).corners
      = (⟨0, 0, 0⟩, ⟨0, 18, 0⟩, ⟨-12, 9, 0⟩) := by
  simp [kite1, kite2, kite3, placed, deref_setFlat_vid2fv, deref_setFlat_vid2v, deref_setFlat_vid,
    deref_setFlat_vids, deref_setFlat_nebMeshes, length_setFlat, kite_length, kite_deref0,
    kite_deref1, kite_deref2, kite_deref3, Mesh.corners, Mesh.vid, Mesh.mk3, Mesh.addNebs, assign,
    kiteV, Vec3.zero]

theorem kite3_corners1 :
    (deref (kite3 : List (Mesh ℝ)) 1).corners
      = (⟨0, 0, 0⟩, ⟨0, 18, 0⟩, ⟨-40, 9, 0⟩) := by
  simp [kite1, kite2, kite3, placed, deref_setFlat_vid2fv, deref_setFlat_vid2v, deref_setFlat_vid,
    deref_setFlat_vids, deref_setFlat_nebMeshes, length_setFlat, kite_length, kite_deref0,
    kite_deref1, kite_deref2, kite_deref3, Mesh.corners, Mesh.vid, Mesh.mk3, Mesh.addNebs, assign,
    kiteV, Vec3.zero]

theorem kite3_corners2 :
    (deref (kite3 : List (Mesh ℝ)) 2).corners
      = (⟨0, 18, 0⟩, ⟨11748 / 1681, 52569 / 1681, 0⟩, ⟨-40, 9, 0⟩) := by
  simp [kite1, kite2, kite3, placed, deref_setFlat_vid2fv, deref_setFlat_vid2v, deref_setFlat_vid,
    deref_setFlat_vids, deref_setFlat_nebMeshes, length_setFlat, kite_length, kite_deref0,
    kite_deref1, kite_deref2, kite_deref3, Mesh.corners, Mesh.vid, Mesh.mk3, Mesh.addNebs, assign,
    kiteV, Vec3.zero]

theorem kite1_nebs0 :
    (deref (kite1 : List (Mesh ℝ)) 0).nebMeshes = [(1, (0, 1)), (2, (1, 2)), (3, (0, 2))] := by
  simp [kite1, placed, deref_setFlat_vid2fv, deref_setFlat_vid2v, deref_setFlat_vid,
    deref_setFlat_vids, deref_setFlat_nebMeshes, length_setFlat, kite_length, kite_deref0,
    kite_deref1, kite_deref2, kite_deref3, Mesh.corners, Mesh.vid, Mesh.mk3, Mesh.addNebs, assign,
    kiteV, Vec3.zero]

theorem kite2_nebs1 :
    (deref (kite2 : List (Mesh ℝ)) 1).nebMeshes = [(0, (0, 1)), (2, (1, 3)), (3, (0, 3))] := by
  simp [kite1, kite2, placed, deref_setFlat_vid2fv, deref_setFlat_vid2v, deref_setFlat_vid,
    deref_setFlat_vids, deref_setFlat_nebMeshes, length_setFlat, kite_length, kite_deref0,
    kite_deref1, kite_deref2, kite_deref3, Mesh.corners, Mesh.vid, Mesh.mk3, Mesh.addNebs, assign,
    kiteV, Vec3.zero]

theorem kite4_nebs2 :
    (deref (kite4 : List (Mesh ℝ)) 2).nebMeshes = [(0, (1, 2)), (3, (2, 3)), (1, (1, 3))] := by
  simp [kite1, kite2, kite3, kite4, placed, deref_setFlat_vid2fv, deref_setFlat_vid2v, deref_setFlat_vid,
    deref_setFlat_vids, deref_setFlat_nebMeshes, length_setFlat, kite_length, kite_deref0,
    kite_deref1, kite_deref2, kite_deref3, Mesh.corners, Mesh.vid, Mesh.mk3, Mesh.addNebs, assign,
    kiteV, Vec3.zero]

theorem kite4_nebs3 :
    (deref (kite4 : List (Mesh ℝ)) 3).nebMeshes = [(0, (0, 2)), (2, (2, 3)), (1, (0, 3))] := by
  simp [kite1, kite2, kite3, kite4, placed, deref_setFlat_vid2fv, deref_setFlat_vid2v, deref_setFlat_vid,
    deref_setFlat_vids, deref_setFlat_nebMeshes, length_setFlat, kite_length, kite_deref0,
    kite_deref1, kite_deref2, kite_deref3, Mesh.corners, Mesh.vid, Mesh.mk3, Mesh.addNebs, assign,
    kiteV, Vec3.zero]

theorem kite_ov_C3_O_B_0 :
    overlapTri (exactNumerics Real.sqrt) ⟨-40, 9, 0⟩ ⟨0, 0, 0⟩ ⟨0, 18, 0⟩
      ⟨0, 0, 0⟩ ⟨0, 18, 0⟩ ⟨-12, 9, 0⟩ = false := by
  norm_num [overlapTri, isInsideTri, lineCross, Vec3.norm, Vec3.cross, Vec3.sub,
    Vec3.squaredNorm, exactNumerics_sqrt, exactNumerics_solve2, exactNumerics_solve3,
    cramer2, cramer3, Mat2.det, Mat3.det, Real.sqrt_eq_zero']

theorem kite_call1 :
    flattenMesh (exactNumerics Real.sqrt) kite1 0 1 (0, 1) [0] = some (true, kite2) := by
  have hc : flatCandidates (exactNumerics Real.sqrt) ⟨0, 0, 0⟩ ⟨0, 18, 0⟩ ⟨-40, 9, 0⟩
      ⟨0, 0, 0⟩ ⟨0, 18, 0⟩ = (⟨-40, 9, 0⟩, ⟨40, 9, 0⟩) := by
    rw [flatCandidates_closed (exactNumerics Real.sqrt) rfl _ _ _ _ _ 18 720 18 (by norm_num)
      (by norm_num [Vec3.sub, Vec3.squaredNorm]) (by norm_num)
      (by norm_num [Vec3.sub, Vec3.squaredNorm, Vec3.cross]) (by norm_num) (by norm_num)]
    norm_num [Vec3.add, Vec3.smul, Vec3.dot, Vec3.sub]
  have hv : (deref (kite1 : List (Mesh ℝ)) 1).vids = [0, 1, 3] := by
    simp [kite1, placed, deref_setFlat_vid2fv, deref_setFlat_vid2v, deref_setFlat_vid,
    deref_setFlat_vids, deref_setFlat_nebMeshes, length_setFlat, kite_length, kite_deref0,
    kite_deref1, kite_deref2, kite_deref3, Mesh.corners, Mesh.vid, Mesh.mk3, Mesh.addNebs, assign,
    kiteV, Vec3.zero]
  have hp : (deref (kite1 : List (Mesh ℝ)) 0).vid2fv 0 = ⟨0, 0, 0⟩
      ∧ (deref (kite1 : List (Mesh ℝ)) 0).vid2fv 1 = ⟨0, 18, 0⟩ := by
    simp [kite1, placed, deref_setFlat_vid2fv, deref_setFlat_vid2v, deref_setFlat_vid,
    deref_setFlat_vids, deref_setFlat_nebMeshes, length_setFlat, kite_length, kite_deref0,
    kite_deref1, kite_deref2, kite_deref3, Mesh.corners, Mesh.vid, Mesh.mk3, Mesh.addNebs, assign,
    kiteV, Vec3.zero]
  have h3 : (deref (kite1 : List (Mesh ℝ)) 1).vid2v 0 = ⟨0, 0, 0⟩
      ∧ (deref (kite1 : List (Mesh ℝ)) 1).vid2v 1 = ⟨0, 18, 0⟩
      ∧ (deref (kite1 : List (Mesh ℝ)) 1).vid2v 3 = ⟨-40, 9, 0⟩ := by
    simp [kite1, placed, deref_setFlat_vid2fv, deref_setFlat_vid2v, deref_setFlat_vid,
    deref_setFlat_vids, deref_setFlat_nebMeshes, length_setFlat, kite_length, kite_deref0,
    kite_deref1, kite_deref2, kite_deref3, Mesh.corners, Mesh.vid, Mesh.mk3, Mesh.addNebs, assign,
    kiteV, Vec3.zero]
  rw [flattenMesh_eq _ _ _ _ _ _ 3 _ (by rw [hv]; rfl)]
  simp only [flattenVertex, deref_setFlat_vid2fv, hp.1, hp.2, h3.1, h3.2.1, h3.2.2, hc,
    overlap_eq_any, List.any_cons, List.any_nil, kite1_corners0,
    kite_ov_C3_O_B_0]
  simp [kite2, placed]

theorem kite_ov_E_B_C2_0 :
    overlapTri (exactNumerics Real.sqrt) ⟨40, 9, 0⟩ ⟨0, 18, 0⟩ ⟨-12, 9, 0⟩
      ⟨0, 0, 0⟩ ⟨0, 18, 0⟩ ⟨-12, 9, 0⟩ = true := by
  norm_num [overlapTri, isInsideTri, lineCross, Vec3.norm, Vec3.cross, Vec3.sub,
    Vec3.squaredNorm, exactNumerics_sqrt, exactNumerics_solve2, exactNumerics_solve3,
    cramer2, cramer3, Mat2.det, Mat3.det, Real.sqrt_eq_zero']

theorem kite_ov_F_B_C2_0 :
    overlapTri (exactNumerics Real.sqrt) ⟨64 / 25, 1473 / 25, 0⟩ ⟨0, 18, 0⟩ ⟨-12, 9, 0⟩
      ⟨0, 0, 0⟩ ⟨0, 18, 0⟩ ⟨-12, 9, 0⟩ = false := by
  norm_num [overlapTri, isInsideTri, lineCross, Vec3.norm, Vec3.cross, Vec3.sub,
    Vec3.squaredNorm, exactNumerics_sqrt, exactNumerics_solve2, exactNumerics_solve3,
    cramer2, cramer3, Mat2.det, Mat3.det, Real.sqrt_eq_zero']

theorem kite_ov_F_B_C2_1 :
    overlapTri (exactNumerics Real.sqrt) ⟨64 / 25, 1473 / 25, 0⟩ ⟨0, 18, 0⟩ ⟨-12, 9, 0⟩
      ⟨0, 0, 0⟩ ⟨0, 18, 0⟩ ⟨-40, 9, 0⟩ = true := by
  norm_num [overlapTri, isInsideTri, lineCross, Vec3.norm, Vec3.cross, Vec3.sub,
    Vec3.squaredNorm, exactNumerics_sqrt, exactNumerics_solve2, exactNumerics_solve3,
    cramer2, cramer3, Mat2.det, Mat3.det, Real.sqrt_eq_zero']

theorem kite_call2 :
    flattenMesh (exactNumerics Real.sqrt) kite2 0 2 (1, 2) [0, 1] = some (false, kite2) := by
  have hc : flatCandidates (exactNumerics Real.sqrt) ⟨0, 18, 0⟩ ⟨12, 9, 0⟩ ⟨-40, 9, 0⟩
      ⟨0, 18, 0⟩ ⟨-12, 9, 0⟩ = (⟨40, 9, 0⟩, ⟨64 / 25, 1473 / 25, 0⟩) := by
    rw [flatCandidates_closed (exactNumerics Real.sqrt) rfl _ _ _ _ _ 15 468 15 (by norm_num)
      (by norm_num [Vec3.sub, Vec3.squaredNorm]) (by norm_num)
      (by norm_num [Vec3.sub, Vec3.squaredNorm, Vec3.cross]) (by norm_num) (by norm_num)]
    norm_num [Vec3.add, Vec3.smul, Vec3.dot, Vec3.sub]
  have hv : (deref (kite2 : List (Mesh ℝ)) 2).vids = [1, 2, 3] := by
    simp [kite1, kite2, placed, deref_setFlat_vid2fv, deref_setFlat_vid2v, deref_setFlat_vid,
    deref_setFlat_vids, deref_setFlat_nebMeshes, length_setFlat, kite_length, kite_deref0,
    kite_deref1, kite_deref2, kite_deref3, Mesh.corners, Mesh.vid, Mesh.mk3, Mesh.addNebs, assign,
    kiteV, Vec3.zero]
  have hp : (deref (kite2 : List (Mesh ℝ)) 0).vid2fv 1 = ⟨0, 18, 0⟩
      ∧ (deref (kite2 : List (Mesh ℝ)) 0).vid2fv 2 = ⟨-12, 9, 0⟩ := by
    simp [kite1, kite2, placed, deref_setFlat_vid2fv, deref_setFlat_vid2v, deref_setFlat_vid,
    deref_setFlat_vids, deref_setFlat_nebMeshes, length_setFlat, kite_length, kite_deref0,
    kite_deref1, kite_deref2, kite_deref3, Mesh.corners, Mesh.vid, Mesh.mk3, Mesh.addNebs, assign,
    kiteV, Vec3.zero]
  have h3 : (deref (kite2 : List (Mesh ℝ)) 2).vid2v 1 = ⟨0, 18, 0⟩
      ∧ (deref (kite2 : List (Mesh ℝ)) 2).vid2v 2 = ⟨12, 9, 0⟩
      ∧ (deref (kite2 : List (Mesh ℝ)) 2).vid2v 3 = ⟨-40, 9, 0⟩ := by
    simp [kite1, kite2, placed, deref_setFlat_vid2fv, deref_setFlat_vid2v, deref_setFlat_vid,
    deref_setFlat_vids, deref_setFlat_nebMeshes, length_setFlat, kite_length, kite_deref0,
    kite_deref1, kite_deref2, kite_deref3, Mesh.corners, Mesh.vid, Mesh.mk3, Mesh.addNebs, assign,
    kiteV, Vec3.zero]
  rw [flattenMesh_eq _ _ _ _ _ _ 3 _ (by rw [hv]; rfl)]
  simp only [flattenVertex, deref_setFlat_vid2fv, hp.1, hp.2, h3.1, h3.2.1, h3.2.2, hc,
    overlap_eq_any, List.any_cons, List.any_nil, kite2_corners0, kite2_corners1,
    kite_ov_E_B_C2_0, kite_ov_F_B_C2_0, kite_ov_F_B_C2_1]
  simp

theorem kite_ov_G_O_C2_0 :
    overlapTri (exactNumerics Real.sqrt) ⟨64 / 25, -1023 / 25, 0⟩ ⟨0, 0, 0⟩ ⟨-12, 9, 0⟩
      ⟨0, 0, 0⟩ ⟨0, 18, 0⟩ ⟨-12, 9, 0⟩ = false := by
  norm_num [overlapTri, isInsideTri, lineCross, Vec3.norm, Vec3.cross, Vec3.sub,
    Vec3.squaredNorm, exactNumerics_sqrt, exactNumerics_solve2, exactNumerics_solve3,
    cramer2, cramer3, Mat2.det, Mat3.det, Real.sqrt_eq_zero']

theorem kite_ov_G_O_C2_1 :
    overlapTri (exactNumerics Real.sqrt) ⟨64 / 25, -1023 / 25, 0⟩ ⟨0, 0, 0⟩ ⟨-12, 9, 0⟩
      ⟨0, 0, 0⟩ ⟨0, 18, 0⟩ ⟨-40, 9, 0⟩ = true := by
  norm_num [overlapTri, isInsideTri, lineCross, Vec3.norm, Vec3.cross, Vec3.sub,
    Vec3.squaredNorm, exactNumerics_sqrt, exactNumerics_solve2, exactNumerics_solve3,
    cramer2, cramer3, Mat2.det, Mat3.det, Real.sqrt_eq_zero']

theorem kite_ov_E_O_C2_0 :
    overlapTri (exactNumerics Real.sqrt) ⟨40, 9, 0⟩ ⟨0, 0, 0⟩ ⟨-12, 9, 0⟩
      ⟨0, 0, 0⟩ ⟨0, 18, 0⟩ ⟨-12, 9, 0⟩ = true := by
  norm_num [overlapTri, isInsideTri, lineCross, Vec3.norm, Vec3.cross, Vec3.sub,
    Vec3.squaredNorm, exactNumerics_sqrt, exactNumerics_solve2, exactNumerics_solve3,
    cramer2, cramer3, Mat2.det, Mat3.det, Real.sqrt_eq_zero']

theorem kite_call3 :
    flattenMesh (exactNumerics Real.sqrt) kite2 0 3 (0, 2) [0, 1] = some (false, kite2) := by
  have hc : flatCandidates (exactNumerics Real.sqrt) ⟨0, 0, 0⟩ ⟨12, 9, 0⟩ ⟨-40, 9, 0⟩
      ⟨0, 0, 0⟩ ⟨-12, 9, 0⟩ = (⟨64 / 25, -1023 / 25, 0⟩, ⟨40, 9, 0⟩) := by
    rw [flatCandidates_closed (exactNumerics Real.sqrt) rfl _ _ _ _ _ 15 468 15 (by norm_num)
      (by norm_num [Vec3.sub, Vec3.squaredNorm]) (by norm_num)
      (by norm_num [Vec3.sub, Vec3.squaredNorm, Vec3.cross]) (by norm_num) (by norm_num)]
    norm_num [Vec3.add, Vec3.smul, Vec3.dot, Vec3.sub]
  have hv : (deref (kite2 : List (Mesh ℝ)) 3).vids = [0, 2, 3] := by
    simp [kite1, kite2, placed, deref_setFlat_vid2fv, deref_setFlat_vid2v, deref_setFlat_vid,
    deref_setFlat_vids, deref_setFlat_nebMeshes, length_setFlat, kite_length, kite_deref0,
    kite_deref1, kite_deref2, kite_deref3, Mesh.corners, Mesh.vid, Mesh.mk3, Mesh.addNebs, assign,
    kiteV, Vec3.zero]
  have hp : (deref (kite2 : List (Mesh ℝ)) 0).vid2fv 0 = ⟨0, 0, 0⟩
      ∧ (deref (kite2 : List (Mesh ℝ)) 0).vid2fv 2 = ⟨-12, 9, 0⟩ := by
    simp [kite1, kite2, placed, deref_setFlat_vid2fv, deref_setFlat_vid2v, deref_setFlat_vid,
    deref_setFlat_vids, deref_setFlat_nebMeshes, length_setFlat, kite_length, kite_deref0,
    kite_deref1, kite_deref2, kite_deref3, Mesh.corners, Mesh.vid, Mesh.mk3, Mesh.addNebs, assign,
    kiteV, Vec3.zero]
  have h3 : (deref (kite2 : List (Mesh ℝ)) 3).vid2v 0 = ⟨0, 0, 0⟩
      ∧ (deref (kite2 : List (Mesh ℝ)) 3).vid2v 2 = ⟨12, 9, 0⟩
      ∧ (deref (kite2 : List (Mesh ℝ)) 3).vid2v 3 = ⟨-40, 9, 0⟩ := by
    simp [kite1, kite2, placed, deref_setFlat_vid2fv, deref_setFlat_vid2v, deref_setFlat_vid,
    deref_setFlat_vids, deref_setFlat_nebMeshes, length_setFlat, kite_length, kite_deref0,
    kite_deref1, kite_deref2, kite_deref3, Mesh.corners, Mesh.vid, Mesh.mk3, Mesh.addNebs, assign,
    kiteV, Vec3.zero]
  rw [flattenMesh_eq _ _ _ _ _ _ 3 _ (by rw [hv]; rfl)]
  simp only [flattenVertex, deref_setFlat_vid2fv, hp.1, hp.2, h3.1, h3.2.1, h3.2.2, hc,
    overlap_eq_any, List.any_cons, List.any_nil, kite2_corners0, kite2_corners1,
    kite_ov_G_O_C2_0, kite_ov_G_O_C2_1, kite_ov_E_O_C2_0]
  simp

theorem kite_ov_v2_B_C3_0 :
    overlapTri (exactNumerics Real.sqrt) ⟨12, 9, 0⟩ ⟨0, 18, 0⟩ ⟨-40, 9, 0⟩
      ⟨0, 0, 0⟩ ⟨0, 18, 0⟩ ⟨-12, 9, 0⟩ = true := by
  norm_num [overlapTri, isInsideTri, lineCross, Vec3.norm, Vec3.cross, Vec3.sub,
    Vec3.squaredNorm, exactNumerics_sqrt, exactNumerics_solve2, exactNumerics_solve3,
    cramer2, cramer3, Mat2.det, Mat3.det, Real.sqrt_eq_zero']

theorem kite_ov_H_B_C3_0 :
    overlapTri (exactNumerics Real.sqrt) ⟨11748 / 1681, 52569 / 1681, 0⟩ ⟨0, 18, 0⟩ ⟨-40, 9, 0⟩
      ⟨0, 0, 0⟩ ⟨0, 18, 0⟩ ⟨-12, 9, 0⟩ = false := by
  norm_num [overlapTri, isInsideTri, lineCross, Vec3.norm, Vec3.cross, Vec3.sub,
    Vec3.squaredNorm, exactNumerics_sqrt, exactNumerics_solve2, exactNumerics_solve3,
    cramer2, cramer3, Mat2.det, Mat3.det, Real.sqrt_eq_zero']

theorem kite_ov_H_B_C3_1 :
    overlapTri (exactNumerics Real.sqrt) ⟨11748 / 1681, 52569 / 1681, 0⟩ ⟨0, 18, 0⟩ ⟨-40, 9, 0⟩
      ⟨0, 0, 0⟩ ⟨0, 18, 0⟩ ⟨-40, 9, 0⟩ = false := by
  norm_num [overlapTri, isInsideTri, lineCross, Vec3.norm, Vec3.cross, Vec3.sub,
    Vec3.squaredNorm, exactNumerics_sqrt, exactNumerics_solve2, exactNumerics_solve3,
    cramer2, cramer3, Mat2.det, Mat3.det, Real.sqrt_eq_zero']

theorem kite_call4 :
    flattenMesh (exactNumerics Real.sqrt) kite2 1 2 (1, 3) [0, 1] = some (true, kite3) := by
  have hc : flatCandidates (exactNumerics Real.sqrt) ⟨0, 18, 0⟩ ⟨-40, 9, 0⟩ ⟨12, 9, 0⟩
      ⟨0, 18, 0⟩ ⟨-40, 9, 0⟩ = (⟨12, 9, 0⟩, ⟨11748 / 1681, 52569 / 1681, 0⟩) := by
    rw [flatCandidates_closed (exactNumerics Real.sqrt) rfl _ _ _ _ _ 41 468 41 (by norm_num)
      (by norm_num [Vec3.sub, Vec3.squaredNorm]) (by norm_num)
      (by norm_num [Vec3.sub, Vec3.squaredNorm, Vec3.cross]) (by norm_num) (by norm_num)]
    norm_num [Vec3.add, Vec3.smul, Vec3.dot, Vec3.sub]
  have hv : (deref (kite2 : List (Mesh ℝ)) 2).vids = [1, 2, 3] := by
    simp [kite1, kite2, placed, deref_setFlat_vid2fv, deref_setFlat_vid2v, deref_setFlat_vid,
    deref_setFlat_vids, deref_setFlat_nebMeshes, length_setFlat, kite_length, kite_deref0,
    kite_deref1, kite_deref2, kite_deref3, Mesh.corners, Mesh.vid, Mesh.mk3, Mesh.addNebs, assign,
    kiteV, Vec3.zero]
  have hp : (deref (kite2 : List (Mesh ℝ)) 1).vid2fv 1 = ⟨0, 18, 0⟩
      ∧ (deref (kite2 : List (Mesh ℝ)) 1).vid2fv 3 = ⟨-40, 9, 0⟩ := by
    simp [kite1, kite2, placed, deref_setFlat_vid2fv, deref_setFlat_vid2v, deref_setFlat_vid,
    deref_setFlat_vids, deref_setFlat_nebMeshes, length_setFlat, kite_length, kite_deref0,
    kite_deref1, kite_deref2, kite_deref3, Mesh.corners, Mesh.vid, Mesh.mk3, Mesh.addNebs, assign,
    kiteV, Vec3.zero]
  have h3 : (deref (kite2 : List (Mesh ℝ)) 2).vid2v 1 = ⟨0, 18, 0⟩
      ∧ (deref (kite2 : List (Mesh ℝ)) 2).vid2v 3 = ⟨-40, 9, 0⟩
      ∧ (deref (kite2 : List (Mesh ℝ)) 2).vid2v 2 = ⟨12, 9, 0⟩ := by
    simp [kite1, kite2, placed, deref_setFlat_vid2fv, deref_setFlat_vid2v, deref_setFlat_vid,
    deref_setFlat_vids, deref_setFlat_nebMeshes, length_setFlat, kite_length, kite_deref0,
    kite_deref1, kite_deref2, kite_deref3, Mesh.corners, Mesh.vid, Mesh.mk3, Mesh.addNebs, assign,
    kiteV, Vec3.zero]
  rw [flattenMesh_eq _ _ _ _ _ _ 2 _ (by rw [hv]; rfl)]
  simp only [flattenVertex, deref_setFlat_vid2fv, hp.1, hp.2, h3.1, h3.2.1, h3.2.2, hc,
    overlap_eq_any, List.any_cons, List.any_nil, kite2_corners0, kite2_corners1,
    kite_ov_v2_B_C3_0, kite_ov_H_B_C3_0, kite_ov_H_B_C3_1]
  simp [kite3, placed]

theorem kite_ov_K_O_C3_0 :
    overlapTri (exactNumerics Real.sqrt) ⟨11748 / 1681, -22311 / 1681, 0⟩ ⟨0, 0, 0⟩ ⟨-40, 9, 0⟩
      ⟨0, 0, 0⟩ ⟨0, 18, 0⟩ ⟨-12, 9, 0⟩ = false := by
  norm_num [overlapTri, isInsideTri, lineCross, Vec3.norm, Vec3.cross, Vec3.sub,
    Vec3.squaredNorm, exactNumerics_sqrt, exactNumerics_solve2, exactNumerics_solve3,
    cramer2, cramer3, Mat2.det, Mat3.det, Real.sqrt_eq_zero']

theorem kite_ov_K_O_C3_1 :
    overlapTri (exactNumerics Real.sqrt) ⟨11748 / 1681, -22311 / 1681, 0⟩ ⟨0, 0, 0⟩ ⟨-40, 9, 0⟩
      ⟨0, 0, 0⟩ ⟨0, 18, 0⟩ ⟨-40, 9, 0⟩ = false := by
  norm_num [overlapTri, isInsideTri, lineCross, Vec3.norm, Vec3.cross, Vec3.sub,
    Vec3.squaredNorm, exactNumerics_sqrt, exactNumerics_solve2, exactNumerics_solve3,
    cramer2, cramer3, Mat2.det, Mat3.det, Real.sqrt_eq_zero']

theorem kite_ov_K_O_C3_2 :
    overlapTri (exactNumerics Real.sqrt) ⟨11748 / 1681, -22311 / 1681, 0⟩ ⟨0, 0, 0⟩ ⟨-40, 9, 0⟩
      ⟨0, 18, 0⟩ ⟨11748 / 1681, 52569 / 1681, 0⟩ ⟨-40, 9, 0⟩ = false := by
  norm_num [overlapTri, isInsideTri, lineCross, Vec3.norm, Vec3.cross, Vec3.sub,
    Vec3.squaredNorm, exactNumerics_sqrt, exactNumerics_solve2, exactNumerics_solve3,
    cramer2, cramer3, Mat2.det, Mat3.det, Real.sqrt_eq_zero']

theorem kite_call5 :
    flattenMesh (exactNumerics Real.sqrt) kite3 1 3 (0, 3) [0, 1, 2] = some (true, kite4) := by
  have hc : flatCandidates (exactNumerics Real.sqrt) ⟨0, 0, 0⟩ ⟨-40, 9, 0⟩ ⟨12, 9, 0⟩
      ⟨0, 0, 0⟩ ⟨-40, 9, 0⟩ = (⟨11748 / 1681, -22311 / 1681, 0⟩, ⟨12, 9, 0⟩) := by
    rw [flatCandidates_closed (exactNumerics Real.sqrt) rfl _ _ _ _ _ 41 468 41 (by norm_num)
      (by norm_num [Vec3.sub, Vec3.squaredNorm]) (by norm_num)
      (by norm_num [Vec3.sub, Vec3.squaredNorm, Vec3.cross]) (by norm_num) (by norm_num)]
    norm_num [Vec3.add, Vec3.smul, Vec3.dot, Vec3.sub]
  have hv : (deref (kite3 : List (Mesh ℝ)) 3).vids = [0, 2, 3] := by
    simp [kite1, kite2, kite3, placed, deref_setFlat_vid2fv, deref_setFlat_vid2v, deref_setFlat_vid,
    deref_setFlat_vids, deref_setFlat_nebMeshes, length_setFlat, kite_length, kite_deref0,
    kite_deref1, kite_deref2, kite_deref3, Mesh.corners, Mesh.vid, Mesh.mk3, Mesh.addNebs, assign,
    kiteV, Vec3.zero]
  have hp : (deref (kite3 : List (Mesh ℝ)) 1).vid2fv 0 = ⟨0, 0, 0⟩
      ∧ (deref (kite3 : List (Mesh ℝ)) 1).vid2fv 3 = ⟨-40, 9, 0⟩ := by
    simp [kite1, kite2, kite3, placed, deref_setFlat_vid2fv, deref_setFlat_vid2v, deref_setFlat_vid,
    deref_setFlat_vids, deref_setFlat_nebMeshes, length_setFlat, kite_length, kite_deref0,
    kite_deref1, kite_deref2, kite_deref3, Mesh.corners, Mesh.vid, Mesh.mk3, Mesh.addNebs, assign,
    kiteV, Vec3.zero]
  have h3 : (deref (kite3 : List (Mesh ℝ)) 3).vid2v 0 = ⟨0, 0, 0⟩
      ∧ (deref (kite3 : List (Mesh ℝ)) 3).vid2v 3 = ⟨-40, 9, 0⟩
      ∧ (deref (kite3 : List (Mesh ℝ)) 3).vid2v 2 = ⟨12, 9, 0⟩ := by
    simp [kite1, kite2, kite3, placed, deref_setFlat_vid2fv, deref_setFlat_vid2v, deref_setFlat_vid,
    deref_setFlat_vids, deref_setFlat_nebMeshes, length_setFlat, kite_length, kite_deref0,
    kite_deref1, kite_deref2, kite_deref3, Mesh.corners, Mesh.vid, Mesh.mk3, Mesh.addNebs, assign,
    kiteV, Vec3.zero]
  rw [flattenMesh_eq _ _ _ _ _ _ 2 _ (by rw [hv]; rfl)]
  simp only [flattenVertex, deref_setFlat_vid2fv, hp.1, hp.2, h3.1, h3.2.1, h3.2.2, hc,
    overlap_eq_any, List.any_cons, List.any_nil, kite3_corners0, kite3_corners1, kite3_corners2,
    kite_ov_K_O_C3_0, kite_ov_K_O_C3_1, kite_ov_K_O_C3_2]
  simp [kite4, placed]

theorem kite_nebs_closed :
    nebsOf (incidentFrom 0 kiteIDX) 0 0 1 2 = [(1, (0, 1)), (2, (1, 2)), (3, (0, 2))] ∧
    nebsOf (incidentFrom 0 kiteIDX) 1 0 1 3 = [(0, (0, 1)), (2, (1, 3)), (3, (0, 3))] ∧
    nebsOf (incidentFrom 0 kiteIDX) 2 1 2 3 = [(0, (1, 2)), (3, (2, 3)), (1, (1, 3))] ∧
    nebsOf (incidentFrom 0 kiteIDX) 3 0 2 3 = [(0, (0, 2)), (2, (2, 3)), (1, (0, 3))] := by
  decide

/-- The graph built from the kite. -/
theorem kite_graph {α : Type} [LinearOrderedField α] (N : Numerics α) :
    ∃ g, buildGraph N kiteV kiteIDX = some g ∧ g.meshes = kiteMeshes := by
  obtain ⟨w, hw⟩ := buildGraph_spec N (kiteV : Int → Vec3 α) kiteIDX
  obtain ⟨h0, h1, h2, h3⟩ := kite_nebs_closed
  refine ⟨⟨kiteMeshes, incidentFrom 0 kiteIDX, w, kiteV⟩, ?_, rfl⟩
  rw [hw]
  simp only [kiteIDX, meshesFrom, nebPass] at *
  simp [Mesh.vid, Mesh.mk3, h0, h1, h2, h3, Mesh.addNebs, kiteMeshes]

theorem kite_seed : flattenFirst (exactNumerics Real.sqrt) kiteMeshes 0 [] = (true, kite1) := by
  have hc : (flatCandidates (exactNumerics Real.sqrt) ⟨0, 0, 0⟩ ⟨0, 18, 0⟩ ⟨12, 9, 0⟩
      ⟨0, 0, 0⟩ ⟨0, 18, 0⟩).1 = ⟨-12, 9, 0⟩ := by
    rw [flatCandidates_closed (exactNumerics Real.sqrt) rfl _ _ _ _ _ 18 216 18 (by norm_num)
      (by norm_num [Vec3.sub, Vec3.squaredNorm]) (by norm_num)
      (by norm_num [Vec3.sub, Vec3.squaredNorm, Vec3.cross]) (by norm_num) (by norm_num)]
    norm_num [Vec3.add, Vec3.smul, Vec3.dot, Vec3.sub]
  have h18 : Real.sqrt (18 * 18) = 18 := Real.sqrt_mul_self (by norm_num)
  simp [flattenFirst, flattenVertex_nil, deref_setFlat_vid2fv, deref_setFlat_vid2v,
    deref_setFlat_vid, length_setFlat, kite_length, kite_deref0, Mesh.vid, Mesh.mk3, Mesh.addNebs,
    assign, kiteV, Vec3.norm, Vec3.sub, Vec3.squaredNorm, exactNumerics_sqrt, h18, hc, kite1,
    placed]

/-- The whole run of the constructor on the kite. -/
theorem kite_run :
    FlattenObject.ctor (exactNumerics Real.sqrt) kiteV kiteIDX
      = some ⟨kite4, [0, 1, 2, 3], []⟩ := by
  obtain ⟨g, hg, hm⟩ := kite_graph (exactNumerics Real.sqrt)
  have hl : (kite1 : List (Mesh ℝ)).length = 4 := by
    simp [kite1, placed, length_setFlat, kite_length]
  simp only [FlattenObject.ctor, hg, hm, flattenAll, kite_seed, hl]
  simp [kiteMeshes, bfs, visitNeighbours, kite1_nebs0, kite2_nebs1, kite4_nebs2, kite4_nebs3,
    kite_call1, kite_call2, kite_call3, kite_call4, kite_call5]

end Kite

/-! ## The run of the constructor on the book -/

section Book

theorem book_deref0 {α : Type} [LinearOrderedField α] : deref (bookMeshes : List (Mesh α)) 0
    = (Mesh.mk3 0 bookV 0 1 2).addNebs [(1, (0, 1)), (2, (0, 1)), (3, (0, 1))] := rfl

theorem book_deref1 {α : Type} [LinearOrderedField α] : deref (bookMeshes : List (Mesh α)) 1
    = (Mesh.mk3 1 bookV 0 1 3).addNebs [(0, (0, 1)), (2, (0, 1)), (3, (0, 1))] := rfl

theorem book_deref2 {α : Type} [LinearOrderedField α] : deref (bookMeshes : List (Mesh α)) 2
    = (Mesh.mk3 2 bookV 0 1 4).addNebs [(0, (0, 1)), (1, (0, 1)), (3, (0, 1))] := rfl

theorem book_deref3 {α : Type} [LinearOrderedField α] : deref (bookMeshes : List (Mesh α)) 3
    = (Mesh.mk3 3 bookV 0 1 5).addNebs [(0, (0, 1)), (1, (0, 1)), (2, (0, 1))] := rfl

theorem book_length {α : Type} [LinearOrderedField α] :
    (bookMeshes : List (Mesh α)).length = 4 := rfl

theorem book_ov0 :
    overlapTri (exactNumerics Real.sqrt) ⟨-1, 1, 0⟩ ⟨0, 0, 0⟩ ⟨0, 2, 0⟩
      ⟨0, 0, 0⟩ ⟨0, 2, 0⟩ ⟨-1, 1, 0⟩ = true := by
  norm_num [overlapTri, isInsideTri, lineCross, Vec3.norm, Vec3.cross, Vec3.sub,
    Vec3.squaredNorm, exactNumerics_sqrt, exactNumerics_solve2, exactNumerics_solve3,
    cramer2, cramer3, Mat2.det, Mat3.det, Real.sqrt_eq_zero']

theorem book_ov1 :
    overlapTri (exactNumerics Real.sqrt) ⟨1, 1, 0⟩ ⟨0, 0, 0⟩ ⟨0, 2, 0⟩
      ⟨0, 0, 0⟩ ⟨0, 2, 0⟩ ⟨-1, 1, 0⟩ = false := by
  norm_num [overlapTri, isInsideTri, lineCross, Vec3.norm, Vec3.cross, Vec3.sub,
    Vec3.squaredNorm, exactNumerics_sqrt, exactNumerics_solve2, exactNumerics_solve3,
    cramer2, cramer3, Mat2.det, Mat3.det, Real.sqrt_eq_zero']

theorem book1_corners0 :
    (deref (book1 : List (Mesh ℝ)) 0).corners
      = (⟨0, 0, 0⟩, ⟨0, 2, 0⟩, ⟨-1, 1, 0⟩) := by
  simp [book1, placed, deref_setFlat_vid2fv, deref_setFlat_vid2v, deref_setFlat_vid,
    deref_setFlat_vids, deref_setFlat_nebMeshes, length_setFlat, book_length, book_deref0, book_deref1, book_deref2, book_deref3,
    Mesh.corners, Mesh.vid, Mesh.mk3, Mesh.addNebs, assign, bookV, Vec3.zero]

theorem book_call1 :
    flattenMesh (exactNumerics Real.sqrt) book1 0 1 (0, 1) [0] = some (true, book2) := by
  have hc : flatCandidates (exactNumerics Real.sqrt) ⟨0, 0, 0⟩ ⟨0, 2, 0⟩ ⟨-1, 1, 0⟩
      ⟨0, 0, 0⟩ ⟨0, 2, 0⟩ = (⟨-1, 1, 0⟩, ⟨1, 1, 0⟩) := by
    rw [flatCandidates_closed (exactNumerics Real.sqrt) rfl _ _ _ _ _ 2 2 2 (by norm_num)
      (by norm_num [Vec3.sub, Vec3.squaredNorm]) (by norm_num)
      (by norm_num [Vec3.sub, Vec3.squaredNorm, Vec3.cross]) (by norm_num) (by norm_num)]
    norm_num [Vec3.add, Vec3.smul, Vec3.dot, Vec3.sub]
  have hv : (deref (book1 : List (Mesh ℝ)) 1).vids = [0, 1, 3] := by
    simp [book1, placed, deref_setFlat_vid2fv, deref_setFlat_vid2v, deref_setFlat_vid,
    deref_setFlat_vids, deref_setFlat_nebMeshes, length_setFlat, book_length, book_deref0, book_deref1, book_deref2, book_deref3,
    Mesh.corners, Mesh.vid, Mesh.mk3, Mesh.addNebs, assign, bookV, Vec3.zero]
  have hp : (deref (book1 : List (Mesh ℝ)) 0).vid2fv 0 = ⟨0, 0, 0⟩
      ∧ (deref (book1 : List (Mesh ℝ)) 0).vid2fv 1 = ⟨0, 2, 0⟩ := by
    simp [book1, placed, deref_setFlat_vid2fv, deref_setFlat_vid2v, deref_setFlat_vid,
    deref_setFlat_vids, deref_setFlat_nebMeshes, length_setFlat, book_length, book_deref0, book_deref1, book_deref2, book_deref3,
    Mesh.corners, Mesh.vid, Mesh.mk3, Mesh.addNebs, assign, bookV, Vec3.zero]
  have h3 : (deref (book1 : List (Mesh ℝ)) 1).vid2v 0 = ⟨0, 0, 0⟩
      ∧ (deref (book1 : List (Mesh ℝ)) 1).vid2v 1 = ⟨0, 2, 0⟩
      ∧ (deref (book1 : List (Mesh ℝ)) 1).vid2v 3 = ⟨-1, 1, 0⟩ := by
    simp [book1, placed, deref_setFlat_vid2fv, deref_setFlat_vid2v, deref_setFlat_vid,
    deref_setFlat_vids, deref_setFlat_nebMeshes, length_setFlat, book_length, book_deref0, book_deref1, book_deref2, book_deref3,
    Mesh.corners, Mesh.vid, Mesh.mk3, Mesh.addNebs, assign, bookV, Vec3.zero]
  rw [flattenMesh_eq _ _ _ _ _ _ 3 _ (by rw [hv]; rfl)]
  simp only [flattenVertex, deref_setFlat_vid2fv, hp.1, hp.2, h3.1, h3.2.1, h3.2.2, hc,
    overlap_eq_any, List.any_cons, List.any_nil, book1_corners0,
    book_ov0, book_ov1]
  simp [book2, placed]

theorem book_ov2 :
    overlapTri (exactNumerics Real.sqrt) ⟨1, 1, 0⟩ ⟨0, 0, 0⟩ ⟨0, 2, 0⟩
      ⟨0, 0, 0⟩ ⟨0, 2, 0⟩ ⟨1, 1, 0⟩ = true := by
  norm_num [overlapTri, isInsideTri, lineCross, Vec3.norm, Vec3.cross, Vec3.sub,
    Vec3.squaredNorm, exactNumerics_sqrt, exactNumerics_solve2, exactNumerics_solve3,
    cramer2, cramer3, Mat2.det, Mat3.det, Real.sqrt_eq_zero']

theorem book2_corners0 :
    (deref (book2 : List (Mesh ℝ)) 0).corners
      = (⟨0, 0, 0⟩, ⟨0, 2, 0⟩, ⟨-1, 1, 0⟩) := by
  simp [book1, book2, placed, deref_setFlat_vid2fv, deref_setFlat_vid2v, deref_setFlat_vid,
    deref_setFlat_vids, deref_setFlat_nebMeshes, length_setFlat, book_length, book_deref0, book_deref1, book_deref2, book_deref3,
    Mesh.corners, Mesh.vid, Mesh.mk3, Mesh.addNebs, assign, bookV, Vec3.zero]

theorem book2_corners1 :
    (deref (book2 : List (Mesh ℝ)) 1).corners
      = (⟨0, 0, 0⟩, ⟨0, 2, 0⟩, ⟨1, 1, 0⟩) := by
  simp [book1, book2, placed, deref_setFlat_vid2fv, deref_setFlat_vid2v, deref_setFlat_vid,
    deref_setFlat_vids, deref_setFlat_nebMeshes, length_setFlat, book_length, book_deref0, book_deref1, book_deref2, book_deref3,
    Mesh.corners, Mesh.vid, Mesh.mk3, Mesh.addNebs, assign, bookV, Vec3.zero]

theorem book_call2 :
    flattenMesh (exactNumerics Real.sqrt) book2 0 2 (0, 1) [0, 1] = some (false, book2) := by
  have hc : flatCandidates (exactNumerics Real.sqrt) ⟨0, 0, 0⟩ ⟨0, 2, 0⟩ ⟨0, 1, 1⟩
      ⟨0, 0, 0⟩ ⟨0, 2, 0⟩ = (⟨-1, 1, 0⟩, ⟨1, 1, 0⟩) := by
    rw [flatCandidates_closed (exactNumerics Real.sqrt) rfl _ _ _ _ _ 2 2 2 (by norm_num)
      (by norm_num [Vec3.sub, Vec3.squaredNorm]) (by norm_num)
      (by norm_num [Vec3.sub, Vec3.squaredNorm, Vec3.cross]) (by norm_num) (by norm_num)]
    norm_num [Vec3.add, Vec3.smul, Vec3.dot, Vec3.sub]
  have hv : (deref (book2 : List (Mesh ℝ)) 2).vids = [0, 1, 4] := by
    simp [book1, book2, placed, deref_setFlat_vid2fv, deref_setFlat_vid2v, deref_setFlat_vid,
    deref_setFlat_vids, deref_setFlat_nebMeshes, length_setFlat, book_length, book_deref0, book_deref1, book_deref2, book_deref3,
    Mesh.corners, Mesh.vid, Mesh.mk3, Mesh.addNebs, assign, bookV, Vec3.zero]
  have hp : (deref (book2 : List (Mesh ℝ)) 0).vid2fv 0 = ⟨0, 0, 0⟩
      ∧ (deref (book2 : List (Mesh ℝ)) 0).vid2fv 1 = ⟨0, 2, 0⟩ := by
    simp [book1, book2, placed, deref_setFlat_vid2fv, deref_setFlat_vid2v, deref_setFlat_vid,
    deref_setFlat_vids, deref_setFlat_nebMeshes, length_setFlat, book_length, book_deref0, book_deref1, book_deref2, book_deref3,
    Mesh.corners, Mesh.vid, Mesh.mk3, Mesh.addNebs, assign, bookV, Vec3.zero]
  have h3 : (deref (book2 : List (Mesh ℝ)) 2).vid2v 0 = ⟨0, 0, 0⟩
      ∧ (deref (book2 : List (Mesh ℝ)) 2).vid2v 1 = ⟨0, 2, 0⟩
      ∧ (deref (book2 : List (Mesh ℝ)) 2).vid2v 4 = ⟨0, 1, 1⟩ := by
    simp [book1, book2, placed, deref_setFlat_vid2fv, deref_setFlat_vid2v, deref_setFlat_vid,
    deref_setFlat_vids, deref_setFlat_nebMeshes, length_setFlat, book_length, book_deref0, book_deref1, book_deref2, book_deref3,
    Mesh.corners, Mesh.vid, Mesh.mk3, Mesh.addNebs, assign, bookV, Vec3.zero]
  rw [flattenMesh_eq _ _ _ _ _ _ 4 _ (by rw [hv]; rfl)]
  simp only [flattenVertex, deref_setFlat_vid2fv, hp.1, hp.2, h3.1, h3.2.1, h3.2.2, hc,
    overlap_eq_any, List.any_cons, List.any_nil, book2_corners0, book2_corners1,
    book_ov0, book_ov1, book_ov2]
  simp

theorem book_call3 :
    flattenMesh (exactNumerics Real.sqrt) book2 0 3 (0, 1) [0, 1] = some (false, book2) := by
  have hc : flatCandidates (exactNumerics Real.sqrt) ⟨0, 0, 0⟩ ⟨0, 2, 0⟩ ⟨0, 1, -1⟩
      ⟨0, 0, 0⟩ ⟨0, 2, 0⟩ = (⟨-1, 1, 0⟩, ⟨1, 1, 0⟩) := by
    rw [flatCandidates_closed (exactNumerics Real.sqrt) rfl _ _ _ _ _ 2 2 2 (by norm_num)
      (by norm_num [Vec3.sub, Vec3.squaredNorm]) (by norm_num)
      (by norm_num [Vec3.sub, Vec3.squaredNorm, Vec3.cross]) (by norm_num) (by norm_num)]
    norm_num [Vec3.add, Vec3.smul, Vec3.dot, Vec3.sub]
  have hv : (deref (book2 : List (Mesh ℝ)) 3).vids = [0, 1, 5] := by
    simp [book1, book2, placed, deref_setFlat_vid2fv, deref_setFlat_vid2v, deref_setFlat_vid,
    deref_setFlat_vids, deref_setFlat_nebMeshes, length_setFlat, book_length, book_deref0, book_deref1, book_deref2, book_deref3,
    Mesh.corners, Mesh.vid, Mesh.mk3, Mesh.addNebs, assign, bookV, Vec3.zero]
  have hp : (deref (book2 : List (Mesh ℝ)) 0).vid2fv 0 = ⟨0, 0, 0⟩
      ∧ (deref (book2 : List (Mesh ℝ)) 0).vid2fv 1 = ⟨0, 2, 0⟩ := by
    simp [book1, book2, placed, deref_setFlat_vid2fv, deref_setFlat_vid2v, deref_setFlat_vid,
    deref_setFlat_vids, deref_setFlat_nebMeshes, length_setFlat, book_length, book_deref0, book_deref1, book_deref2, book_deref3,
    Mesh.corners, Mesh.vid, Mesh.mk3, Mesh.addNebs, assign, bookV, Vec3.zero]
  have h3 : (deref (book2 : List (Mesh ℝ)) 3).vid2v 0 = ⟨0, 0, 0⟩
      ∧ (deref (book2 : List (Mesh ℝ)) 3).vid2v 1 = ⟨0, 2, 0⟩
      ∧ (deref (book2 : List (Mesh ℝ)) 3).vid2v 5 = ⟨0, 1, -1⟩ := by
    simp [book1, book2, placed, deref_setFlat_vid2fv, deref_setFlat_vid2v, deref_setFlat_vid,
    deref_setFlat_vids, deref_setFlat_nebMeshes, length_setFlat, book_length, book_deref0, book_deref1, book_deref2, book_deref3,
    Mesh.corners, Mesh.vid, Mesh.mk3, Mesh.addNebs, assign, bookV, Vec3.zero]
  rw [flattenMesh_eq _ _ _ _ _ _ 5 _ (by rw [hv]; rfl)]
  simp only [flattenVertex, deref_setFlat_vid2fv, hp.1, hp.2, h3.1, h3.2.1, h3.2.2, hc,
    overlap_eq_any, List.any_cons, List.any_nil, book2_corners0, book2_corners1,
    book_ov0, book_ov1, book_ov2]
  simp

theorem book_call4 :
    flattenMesh (exactNumerics Real.sqrt) book2 1 2 (0, 1) [0, 1] = some (false, book2) := by
  have hc : flatCandidates (exactNumerics Real.sqrt) ⟨0, 0, 0⟩ ⟨0, 2, 0⟩ ⟨0, 1, 1⟩
      ⟨0, 0, 0⟩ ⟨0, 2, 0⟩ = (⟨-1, 1, 0⟩, ⟨1, 1, 0⟩) := by
    rw [flatCandidates_closed (exactNumerics Real.sqrt) rfl _ _ _ _ _ 2 2 2 (by norm_num)
      (by norm_num [Vec3.sub, Vec3.squaredNorm]) (by norm_num)
      (by norm_num [Vec3.sub, Vec3.squaredNorm, Vec3.cross]) (by norm_num) (by norm_num)]
    norm_num [Vec3.add, Vec3.smul, Vec3.dot, Vec3.sub]
  have hv : (deref (book2 : List (Mesh ℝ)) 2).vids = [0, 1, 4] := by
    simp [book1, book2, placed, deref_setFlat_vid2fv, deref_setFlat_vid2v, deref_setFlat_vid,
    deref_setFlat_vids, deref_setFlat_nebMeshes, length_setFlat, book_length, book_deref0, book_deref1, book_deref2, book_deref3,
    Mesh.corners, Mesh.vid, Mesh.mk3, Mesh.addNebs, assign, bookV, Vec3.zero]
  have hp : (deref (book2 : List (Mesh ℝ)) 1).vid2fv 0 = ⟨0, 0, 0⟩
      ∧ (deref (book2 : List (Mesh ℝ)) 1).vid2fv 1 = ⟨0, 2, 0⟩ := by
    simp [book1, book2, placed, deref_setFlat_vid2fv, deref_setFlat_vid2v, deref_setFlat_vid,
    deref_setFlat_vids, deref_setFlat_nebMeshes, length_setFlat, book_length, book_deref0, book_deref1, book_deref2, book_deref3,
    Mesh.corners, Mesh.vid, Mesh.mk3, Mesh.addNebs, assign, bookV, Vec3.zero]
  have h3 : (deref (book2 : List (Mesh ℝ)) 2).vid2v 0 = ⟨0, 0, 0⟩
      ∧ (deref (book2 : List (Mesh ℝ)) 2).vid2v 1 = ⟨0, 2, 0⟩
      ∧ (deref (book2 : List (Mesh ℝ)) 2).vid2v 4 = ⟨0, 1, 1⟩ := by
    simp [book1, book2, placed, deref_setFlat_vid2fv, deref_setFlat_vid2v, deref_setFlat_vid,
    deref_setFlat_vids, deref_setFlat_nebMeshes, length_setFlat, book_length, book_deref0, book_deref1, book_deref2, book_deref3,
    Mesh.corners, Mesh.vid, Mesh.mk3, Mesh.addNebs, assign, bookV, Vec3.zero]
  rw [flattenMesh_eq _ _ _ _ _ _ 4 _ (by rw [hv]; rfl)]
  simp only [flattenVertex, deref_setFlat_vid2fv, hp.1, hp.2, h3.1, h3.2.1, h3.2.2, hc,
    overlap_eq_any, List.any_cons, List.any_nil, book2_corners0, book2_corners1,
    book_ov0, book_ov1, book_ov2]
  simp

theorem book_call5 :
    flattenMesh (exactNumerics Real.sqrt) book2 1 3 (0, 1) [0, 1] = some (false, book2) := by
  have hc : flatCandidates (exactNumerics Real.sqrt) ⟨0, 0, 0⟩ ⟨0, 2, 0⟩ ⟨0, 1, -1⟩
      ⟨0, 0, 0⟩ ⟨0, 2, 0⟩ = (⟨-1, 1, 0⟩, ⟨1, 1, 0⟩) := by
    rw [flatCandidates_closed (exactNumerics Real.sqrt) rfl _ _ _ _ _ 2 2 2 (by norm_num)
      (by norm_num [Vec3.sub, Vec3.squaredNorm]) (by norm_num)
      (by norm_num [Vec3.sub, Vec3.squaredNorm, Vec3.cross]) (by norm_num) (by norm_num)]
    norm_num [Vec3.add, Vec3.smul, Vec3.dot, Vec3.sub]
  have hv : (deref (book2 : List (Mesh ℝ)) 3).vids = [0, 1, 5] := by
    simp [book1, book2, placed, deref_setFlat_vid2fv, deref_setFlat_vid2v, deref_setFlat_vid,
    deref_setFlat_vids, deref_setFlat_nebMeshes, length_setFlat, book_length, book_deref0, book_deref1, book_deref2, book_deref3,
    Mesh.corners, Mesh.vid, Mesh.mk3, Mesh.addNebs, assign, bookV, Vec3.zero]
  have hp : (deref (book2 : List (Mesh ℝ)) 1).vid2fv 0 = ⟨0, 0, 0⟩
      ∧ (deref (book2 : List (Mesh ℝ)) 1).vid2fv 1 = ⟨0, 2, 0⟩ := by
    simp [book1, book2, placed, deref_setFlat_vid2fv, deref_setFlat_vid2v, deref_setFlat_vid,
    deref_setFlat_vids, deref_setFlat_nebMeshes, length_setFlat, book_length, book_deref0, book_deref1, book_deref2, book_deref3,
    Mesh.corners, Mesh.vid, Mesh.mk3, Mesh.addNebs, assign, bookV, Vec3.zero]
  have h3 : (deref (book2 : List (Mesh ℝ)) 3).vid2v 0 = ⟨0, 0, 0⟩
      ∧ (deref (book2 : List (Mesh ℝ)) 3).vid2v 1 = ⟨0, 2, 0⟩
      ∧ (deref (book2 : List (Mesh ℝ)) 3).vid2v 5 = ⟨0, 1, -1⟩ := by
    simp [book1, book2, placed, deref_setFlat_vid2fv, deref_setFlat_vid2v, deref_setFlat_vid,
    deref_setFlat_vids, deref_setFlat_nebMeshes, length_setFlat, book_length, book_deref0, book_deref1, book_deref2, book_deref3,
    Mesh.corners, Mesh.vid, Mesh.mk3, Mesh.addNebs, assign, bookV, Vec3.zero]
  rw [flattenMesh_eq _ _ _ _ _ _ 5 _ (by rw [hv]; rfl)]
  simp only [flattenVertex, deref_setFlat_vid2fv, hp.1, hp.2, h3.1, h3.2.1, h3.2.2, hc,
    overlap_eq_any, List.any_cons, List.any_nil, book2_corners0, book2_corners1,
    book_ov0, book_ov1, book_ov2]
  simp

theorem book1_nebs0 :
    (deref (book1 : List (Mesh ℝ)) 0).nebMeshes = [(1, (0, 1)), (2, (0, 1)), (3, (0, 1))] := by
  simp [book1, placed, deref_setFlat_vid2fv, deref_setFlat_vid2v, deref_setFlat_vid,
    deref_setFlat_vids, deref_setFlat_nebMeshes, length_setFlat, book_length, book_deref0, book_deref1, book_deref2, book_deref3,
    Mesh.corners, Mesh.vid, Mesh.mk3, Mesh.addNebs, assign, bookV, Vec3.zero]

theorem book2_nebs1 :
    (deref (book2 : List (Mesh ℝ)) 1).nebMeshes = [(0, (0, 1)), (2, (0, 1)), (3, (0, 1))] := by
  simp [book1, book2, placed, deref_setFlat_vid2fv, deref_setFlat_vid2v, deref_setFlat_vid,
    deref_setFlat_vids, deref_setFlat_nebMeshes, length_setFlat, book_length, book_deref0, book_deref1, book_deref2, book_deref3,
    Mesh.corners, Mesh.vid, Mesh.mk3, Mesh.addNebs, assign, bookV, Vec3.zero]

theorem book_nebs_closed :
    nebsOf (incidentFrom 0 bookIDX) 0 0 1 2 = [(1, (0, 1)), (2, (0, 1)), (3, (0, 1))] ∧
    nebsOf (incidentFrom 0 bookIDX) 1 0 1 3 = [(0, (0, 1)), (2, (0, 1)), (3, (0, 1))] ∧
    nebsOf (incidentFrom 0 bookIDX) 2 0 1 4 = [(0, (0, 1)), (1, (0, 1)), (3, (0, 1))] ∧
    nebsOf (incidentFrom 0 bookIDX) 3 0 1 5 = [(0, (0, 1)), (1, (0, 1)), (2, (0, 1))] := by
  decide

/-- The graph built from the book. -/
theorem book_graph {α : Type} [LinearOrderedField α] (N : Numerics α) :
    ∃ g, buildGraph N bookV bookIDX = some g ∧ g.meshes = bookMeshes := by
  obtain ⟨w, hw⟩ := buildGraph_spec N (bookV : Int → Vec3 α) bookIDX
  obtain ⟨h0, h1, h2, h3⟩ := book_nebs_closed
  refine ⟨⟨bookMeshes, incidentFrom 0 bookIDX, w, bookV⟩, ?_, rfl⟩
  rw [hw]
  simp only [bookIDX, meshesFrom, nebPass] at *
  simp [Mesh.vid, Mesh.mk3, h0, h1, h2, h3, Mesh.addNebs, bookMeshes]

theorem book_seed : flattenFirst (exactNumerics Real.sqrt) bookMeshes 0 [] = (true, book1) := by
  have hc : (flatCandidates (exactNumerics Real.sqrt) ⟨0, 0, 0⟩ ⟨0, 2, 0⟩ ⟨1, 1, 0⟩
      ⟨0, 0, 0⟩ ⟨0, 2, 0⟩).1 = ⟨-1, 1, 0⟩ := by
    rw [flatCandidates_closed (exactNumerics Real.sqrt) rfl _ _ _ _ _ 2 2 2 (by norm_num)
      (by norm_num [Vec3.sub, Vec3.squaredNorm]) (by norm_num)
      (by norm_num [Vec3.sub, Vec3.squaredNorm, Vec3.cross]) (by norm_num) (by norm_num)]
    norm_num [Vec3.add, Vec3.smul, Vec3.dot, Vec3.sub]
  have hL : Real.sqrt (2 * 2) = 2 := Real.sqrt_mul_self (by norm_num)
  simp [flattenFirst, flattenVertex_nil, deref_setFlat_vid2fv, deref_setFlat_vid2v,
    deref_setFlat_vid, length_setFlat, book_length, book_deref0, Mesh.vid, Mesh.mk3, Mesh.addNebs,
    assign, bookV, Vec3.norm, Vec3.sub, Vec3.squaredNorm, exactNumerics_sqrt, hL, hc, book1,
    placed]

/-- The whole run of the constructor on the book. -/
theorem book_run :
    FlattenObject.ctor (exactNumerics Real.sqrt) bookV bookIDX
      = some ⟨book2, [0, 1], []⟩ := by
  obtain ⟨g, hg, hm⟩ := book_graph (exactNumerics Real.sqrt)
  have hl : (book1 : List (Mesh ℝ)).length = 4 := by
    simp [book1, placed, length_setFlat, book_length]
  simp only [FlattenObject.ctor, hg, hm, flattenAll, book_seed, hl]
  simp [bookMeshes, bfs, visitNeighbours, book1_nebs0, book2_nebs1,
    book_call1, book_call2, book_call3, book_call4, book_call5]

end Book

/-! ## Claims about whole runs -/

section RunClaims

theorem kite_positive : PositiveEdges (exactNumerics Real.sqrt) (kiteV : Int → Vec3 ℝ) kiteIDX := by
  intro t ht xy hxy
  simp only [kiteIDX, List.mem_cons, List.mem_singleton, List.not_mem_nil, or_false] at ht
  rcases ht with rfl | rfl | rfl | rfl <;>
    simp only [edgesOf, List.mem_cons, List.mem_singleton, List.not_mem_nil, or_false] at hxy <;>
    rcases hxy with rfl | rfl | rfl <;>
    simp only [Vec3.norm, exactNumerics_sqrt, Real.sqrt_pos] <;>
    norm_num [kiteV, Vec3.sub, Vec3.squaredNorm]

/-- C2. Edge lengths are preserved by the whole run: when the constructor
finishes on a mesh whose triangles have positive edge lengths, in every
flattened triangle the planar distance between the flat positions of two of
its vertices equals the 3D distance between their positions. -/
theorem C2_run_preserves_edge_lengths (N : Numerics ℝ) (hs : N.sqrt = Real.sqrt)
    (V : Int → Vec3 ℝ) (IDX : List (Int × Int × Int)) (hpos : PositiveEdges N V IDX)
    (st : Bfs ℝ) (hrun : FlattenObject.ctor N V IDX = some st) :
    ∀ p ∈ st.flattened, ∀ u ∈ (deref st.meshes p).vids, ∀ w ∈ (deref st.meshes p).vids,
      Vec3.norm N (Vec3.sub ((deref st.meshes p).vid2fv u) ((deref st.meshes p).vid2fv w))
        = Vec3.norm N (Vec3.sub ((deref st.meshes p).vid2v u) ((deref st.meshes p).vid2v w)) := by
  intro p hp u hu w hw
  have h := (ctor_isometric N hs V IDX hpos st hrun p hp).2 u hu w hw
  simp only [Vec3.norm, h]

theorem kite4_vids2 : (deref (kite4 : List (Mesh ℝ)) 2).vids = [1, 2, 3] := by
  simp [kite1, kite2, kite3, kite4, placed, deref_setFlat_vids, kite_deref2, Mesh.mk3,
    Mesh.addNebs]

/-- C2 on the kite: the run finishes with the four triangles flattened, and in
triangle 2 the flat distance between the vertices 2 and 3 is the 3D one. -/
theorem C2_run_preserves_edge_lengths_witness :
    Vec3.norm (exactNumerics Real.sqrt)
        (Vec3.sub ((deref (kite4 : List (Mesh ℝ)) 2).vid2fv 2)
          ((deref (kite4 : List (Mesh ℝ)) 2).vid2fv 3))
      = Vec3.norm (exactNumerics Real.sqrt)
        (Vec3.sub ((deref (kite4 : List (Mesh ℝ)) 2).vid2v 2)
          ((deref (kite4 : List (Mesh ℝ)) 2).vid2v 3)) :=
  C2_run_preserves_edge_lengths (exactNumerics Real.sqrt) rfl kiteV kiteIDX kite_positive
    ⟨kite4, [0, 1, 2, 3], []⟩ kite_run 2 (by simp) 2 (by rw [kite4_vids2]; simp)
    3 (by rw [kite4_vids2]; simp)

theorem kite4_corners0 :
    (deref (kite4 : List (Mesh ℝ)) 0).corners = (⟨0, 0, 0⟩, ⟨0, 18, 0⟩, ⟨-12, 9, 0⟩) := by
  simp [kite1, kite2, kite3, kite4, placed, deref_setFlat_vid2fv, deref_setFlat_vid2v,
    deref_setFlat_vid, deref_setFlat_vids, deref_setFlat_nebMeshes, length_setFlat, kite_length,
    kite_deref0, kite_deref1, kite_deref2, kite_deref3, Mesh.corners, Mesh.vid, Mesh.mk3,
    Mesh.addNebs, assign, kiteV, Vec3.zero]

theorem kite4_corners1 :
    (deref (kite4 : List (Mesh ℝ)) 1).corners = (⟨0, 0, 0⟩, ⟨0, 18, 0⟩, ⟨-40, 9, 0⟩) := by
  simp [kite1, kite2, kite3, kite4, placed, deref_setFlat_vid2fv, deref_setFlat_vid2v,
    deref_setFlat_vid, deref_setFlat_vids, deref_setFlat_nebMeshes, length_setFlat, kite_length,
    kite_deref0, kite_deref1, kite_deref2, kite_deref3, Mesh.corners, Mesh.vid, Mesh.mk3,
    Mesh.addNebs, assign, kiteV, Vec3.zero]

/-- C3 fails on the kite: the run flattens the triangles 0 and 1 onto flat
triangles whose interiors share the point `(-6, 9)`; triangle 1 is placed over
triangle 0 instead of being left unflattened. -/
theorem C3_overlapping_placement_on_kite :
    ∃ st, FlattenObject.ctor (exactNumerics Real.sqrt) (kiteV : Int → Vec3 ℝ) kiteIDX = some st ∧
      0 ∈ st.flattened ∧ 1 ∈ st.flattened ∧
      InteriorsMeet (deref st.meshes 0) (deref st.meshes 1) := by
  refine ⟨⟨kite4, [0, 1, 2, 3], []⟩, kite_run, by simp, by simp, ⟨-6, 9, 0⟩, ?_, ?_⟩
  · show InInterior _ (deref kite4 0).corners.1 (deref kite4 0).corners.2.1
      (deref kite4 0).corners.2.2
    rw [kite4_corners0]
    exact ⟨1 / 4, 1 / 4, 1 / 2, by norm_num, by norm_num, by norm_num, by norm_num,
      by norm_num, by norm_num⟩
  · show InInterior _ (deref kite4 1).corners.1 (deref kite4 1).corners.2.1
      (deref kite4 1).corners.2.2
    rw [kite4_corners1]
    exact ⟨17 / 40, 17 / 40, 3 / 20, by norm_num, by norm_num, by norm_num, by norm_num,
      by norm_num, by norm_num⟩

end RunClaims

section LocalClaims

variable {α : Type} [LinearOrderedField α]

theorem flattenVertex_eq_none (N : Numerics α) (ms : List (Mesh α)) (mesh : Mesh α)
    (v3 v1 v2 : Int) (P1 P2 : Vec3 α) (fl : List Nat) :
    flattenVertex N ms mesh v3 v1 v2 P1 P2 fl = none ↔
      (overlap N ms (flatCandidates N (mesh.vid2v v1) (mesh.vid2v v2) (mesh.vid2v v3) P1 P2).1
          P1 P2 fl = true ∧
        overlap N ms (flatCandidates N (mesh.vid2v v1) (mesh.vid2v v2) (mesh.vid2v v3) P1 P2).2
          P1 P2 fl = true) := by
  simp only [flattenVertex]
  cases overlap N ms (flatCandidates N (mesh.vid2v v1) (mesh.vid2v v2) (mesh.vid2v v3) P1 P2).1
      P1 P2 fl <;>
    cases overlap N ms (flatCandidates N (mesh.vid2v v1) (mesh.vid2v v2) (mesh.vid2v v3) P1 P2).2
      P1 P2 fl <;> simp

/-- C8. Failure is atomic.  From a flattened triangle `T` to an unvisited
neighbour `n` across the edge `(a, b)` (`c` the remaining vertex of `n`), when
both candidates overlap: `flattenMesh` returns false and the store, hence the
three flat positions of `n`, is unchanged; the loop goes on with the same
flattened set and queue, so `n` is neither inserted nor enqueued; and in any
later state where `n` is still outside the flattened set the loop calls
`flattenMesh` for `n` again and inserts and enqueues it when that call succeeds.
Such a later success happens: there is a store on which the attempt from one
neighbour fails and the attempt from another succeeds. -/
theorem C8_failure_is_atomic (N : Numerics ℝ) (ms : List (Mesh ℝ)) (T n : Nat) (a b c : Int)
    (flattened : List Nat) (hT : T ∈ flattened) (hn : n ∉ flattened)
    (hc : c ∈ (deref ms n).vids) (hcover : ∀ x ∈ (deref ms n).vids, x = a ∨ x = b ∨ x = c)
    (hca : c ≠ a) (hcb : c ≠ b)
    (hov1 : overlap N ms (flatCandidates N ((deref ms n).vid2v a) ((deref ms n).vid2v b)
      ((deref ms n).vid2v c) ((deref ms T).vid2fv a) ((deref ms T).vid2fv b)).1
      ((deref ms T).vid2fv a) ((deref ms T).vid2fv b) flattened = true)
    (hov2 : overlap N ms (flatCandidates N ((deref ms n).vid2v a) ((deref ms n).vid2v b)
      ((deref ms n).vid2v c) ((deref ms T).vid2fv a) ((deref ms T).vid2fv b)).2
      ((deref ms T).vid2fv a) ((deref ms T).vid2fv b) flattened = true) :
    flattenMesh N ms T n (a, b) flattened = some (false, ms) ∧
    (∀ (rest : List (Nat × (Int × Int))) (q : List Nat),
      visitNeighbours N T ((n, (a, b)) :: rest) ⟨ms, flattened, q⟩
        = visitNeighbours N T rest ⟨ms, flattened, q⟩) ∧
    (∀ (T' : Nat) (e' : Int × Int) (rest' : List (Nat × (Int × Int))) (st' : Bfs ℝ),
      n ∉ st'.flattened →
      visitNeighbours N T' ((n, e') :: rest') st' =
        match flattenMesh N st'.meshes T' n e' st'.flattened with
        | none => none
        | some (true, ms') =>
          visitNeighbours N T' rest' ⟨ms', st'.flattened ++ [n], st'.q ++ [n]⟩
        | some (false, _) => visitNeighbours N T' rest' st') ∧
    (∃ (ms0 ms1 : List (Mesh ℝ)) (fl0 : List Nat) (T0 T1 n0 : Nat) (e0 e1 : Int × Int),
      flattenMesh (exactNumerics Real.sqrt) ms0 T0 n0 e0 fl0 = some (false, ms0) ∧
      flattenMesh (exactNumerics Real.sqrt) ms0 T1 n0 e1 fl0 = some (true, ms1)) := by
  have hfail : flattenMesh N ms T n (a, b) flattened = some (false, ms) := by
    rw [flattenMesh_outcome N ms T n a b c flattened hT hn hc hcover hca hcb,
      (flattenVertex_eq_none N ms _ c a b _ _ flattened).mpr ⟨hov1, hov2⟩]
  refine ⟨hfail, ?_, ?_, ⟨kite2, kite3, [0, 1], 0, 1, 2, (1, 2), (1, 3), kite_call2, kite_call4⟩⟩
  · intro rest q
    simp only [visitNeighbours, if_neg hn, hfail]
  · intro T' e' rest' st' hn'
    simp only [visitNeighbours, if_neg hn']
    cases flattenMesh N st'.meshes T' n e' st'.flattened with
    | none => rfl
    | some r => rcases r with ⟨_ | _, ms'⟩ <;> rfl

theorem kite2_vids2 : (deref (kite2 : List (Mesh ℝ)) 2).vids = [1, 2, 3] := by
  simp [kite1, kite2, placed, deref_setFlat_vids, kite_deref2, Mesh.mk3, Mesh.addNebs]

/-- C8 on the kite: the attempt to place triangle 2 from triangle 0 across the
edge (1,2) fails for both candidates. -/
theorem C8_failure_is_atomic_witness :
    flattenMesh (exactNumerics Real.sqrt) (kite2 : List (Mesh ℝ)) 0 2 (1, 2) [0, 1]
      = some (false, kite2) := by
  have hout := flattenMesh_outcome (exactNumerics Real.sqrt) (kite2 : List (Mesh ℝ)) 0 2 1 2 3
    [0, 1] (by simp) (by simp) (by rw [kite2_vids2]; simp)
    (by rw [kite2_vids2]; simp) (by decide) (by decide)
  have hnone : flattenVertex (exactNumerics Real.sqrt) (kite2 : List (Mesh ℝ)) (deref kite2 2)
      3 1 2 ((deref kite2 0).vid2fv 1) ((deref kite2 0).vid2fv 2) [0, 1] = none := by
    have h := kite_call2
    rw [hout] at h
    cases hv : flattenVertex (exactNumerics Real.sqrt) (kite2 : List (Mesh ℝ)) (deref kite2 2)
      3 1 2 ((deref kite2 0).vid2fv 1) ((deref kite2 0).vid2fv 2) [0, 1] with
    | none => rfl
    | some p => simp [hv] at h
  obtain ⟨h1, h2⟩ := (flattenVertex_eq_none _ _ _ _ _ _ _ _ _).mp hnone
  exact (C8_failure_is_atomic (exactNumerics Real.sqrt) kite2 0 2 1 2 3 [0, 1] (by simp)
    (by simp) (by rw [kite2_vids2]; simp) (by rw [kite2_vids2]; simp) (by decide) (by decide)
    h1 h2).1

/-- C5 on the first triangle of the kite. -/
theorem C5_seed_placement_witness :
    (flattenFirst (exactNumerics Real.sqrt) (kiteMeshes : List (Mesh ℝ)) 0 []).1 = true ∧
    (deref (flattenFirst (exactNumerics Real.sqrt) (kiteMeshes : List (Mesh ℝ)) 0 []).2 0).vid2fv 0
      = ⟨0, 0, 0⟩ :=
  have h := C5_seed_placement (exactNumerics Real.sqrt) (kiteMeshes : List (Mesh ℝ)) 0 0 1 2
    (by simp [kite_length]) rfl (by decide) (by decide) (by decide)
  ⟨h.1, h.2.1⟩

theorem kite2_length : (kite2 : List (Mesh ℝ)).length = 4 := by
  simp [kite1, kite2, placed, length_setFlat, kite_length]

/-- C7 on the kite: placing triangle 2 from triangle 1 across the edge (1,3). -/
theorem C7_candidate_selection_and_copy_witness :
    ∃ ok ms', flattenMesh (exactNumerics Real.sqrt) (kite2 : List (Mesh ℝ)) 1 2 (1, 3) [0, 1]
      = some (ok, ms') :=
  let ⟨ok, ms', h, _⟩ := C7_candidate_selection_and_copy (exactNumerics Real.sqrt)
    (kite2 : List (Mesh ℝ)) 1 2 1 3 2 [0, 1] (by simp) (by simp) (by rw [kite2_length]; decide)
    (by rw [kite2_vids2]; simp) (by rw [kite2_vids2]; simp) (by decide) (by decide)
  ⟨ok, ms', h⟩

end LocalClaims

section VertexClaims

/-- C4 (amended). At the end of a run every flattened triangle other than the
seed has, with a flattened triangle that lists it as neighbour across an edge
`e`, the same flat positions for the two ends of `e`: the positions it copied
when it was placed. -/
theorem C4_shared_edge_positions_agree {α : Type} [LinearOrderedField α] (N : Numerics α)
    (V : Int → Vec3 α) (IDX : List (Int × Int × Int)) (st : Bfs α)
    (hrun : FlattenObject.ctor N V IDX = some st) :
    ∀ n ∈ st.flattened, n = 0 ∨ ∃ T ∈ st.flattened, ∃ e : Int × Int,
      (n, e) ∈ (deref st.meshes T).nebMeshes ∧
      (deref st.meshes n).vid2fv e.1 = (deref st.meshes T).vid2fv e.1 ∧
      (deref st.meshes n).vid2fv e.2 = (deref st.meshes T).vid2fv e.2 :=
  ctor_parent N V IDX st hrun

/-- C4 (amended) on the kite, for triangle 2. -/
theorem C4_shared_edge_positions_agree_witness :
    (2 : Nat) = 0 ∨ ∃ T ∈ [0, 1, 2, 3], ∃ e : Int × Int,
      (2, e) ∈ (deref (kite4 : List (Mesh ℝ)) T).nebMeshes ∧
      (deref (kite4 : List (Mesh ℝ)) 2).vid2fv e.1 = (deref (kite4 : List (Mesh ℝ)) T).vid2fv e.1 ∧
      (deref (kite4 : List (Mesh ℝ)) 2).vid2fv e.2 = (deref (kite4 : List (Mesh ℝ)) T).vid2fv e.2 :=
  C4_shared_edge_positions_agree (exactNumerics Real.sqrt) kiteV kiteIDX
    ⟨kite4, [0, 1, 2, 3], []⟩ kite_run 2 (by simp)

/-- C4 fails on the kite: vertex 2 belongs to the flattened triangles 0 and 2
and has the flat position `(-12, 9)` in the first and `(11748/1681,
52569/1681)` in the second. -/
theorem C4_vertex_positions_differ_on_kite :
    ∃ st, FlattenObject.ctor (exactNumerics Real.sqrt) (kiteV : Int → Vec3 ℝ) kiteIDX = some st ∧
      0 ∈ st.flattened ∧ 2 ∈ st.flattened ∧
      (2 : Int) ∈ (deref st.meshes 0).vids ∧ (2 : Int) ∈ (deref st.meshes 2).vids ∧
      (deref st.meshes 0).vid2fv 2 ≠ (deref st.meshes 2).vid2fv 2 := by
  refine ⟨⟨kite4, [0, 1, 2, 3], []⟩, kite_run, by simp, by simp, ?_, ?_, ?_⟩
  · show (2 : Int) ∈ (deref (kite4 : List (Mesh ℝ)) 0).vids
    simp [kite1, kite2, kite3, kite4, placed, deref_setFlat_vids, kite_deref0, Mesh.mk3,
      Mesh.addNebs]
  · show (2 : Int) ∈ (deref (kite4 : List (Mesh ℝ)) 2).vids
    simp [kite1, kite2, kite3, kite4, placed, deref_setFlat_vids, kite_deref2, Mesh.mk3,
      Mesh.addNebs]
  · show (deref (kite4 : List (Mesh ℝ)) 0).vid2fv 2 ≠ (deref (kite4 : List (Mesh ℝ)) 2).vid2fv 2
    have h0 : (deref (kite4 : List (Mesh ℝ)) 0).vid2fv 2 = ⟨-12, 9, 0⟩ := by
      simp [kite1, kite2, kite3, kite4, placed, deref_setFlat_vid2fv, length_setFlat, kite_length]
    have h2 : (deref (kite4 : List (Mesh ℝ)) 2).vid2fv 2
        = ⟨11748 / 1681, 52569 / 1681, 0⟩ := by
      simp [kite1, kite2, kite3, kite4, placed, deref_setFlat_vid2fv, length_setFlat, kite_length]
    rw [h0, h2]
    intro h
    have := congrArg Vec3.x h
    norm_num at this

end VertexClaims

/-! ## Claims about graph construction and the seed -/

section GraphClaims

theorem incidentTriangles_le_length (IDX : List (Int × Int × Int)) (e : Int × Int) :
    incidentTriangles IDX e ≤ IDX.length :=
  List.length_filter_le _ _

/-- C9 fails on the book: the edge (0,1) is incident to four triangles and the
graph is built all the same, each triangle having exactly three neighbour
entries. -/
theorem C9_book_is_accepted :
    2 < incidentTriangles bookIDX (0, 1) ∧
      ∃ g, buildGraph (exactNumerics Real.sqrt) (bookV : Int → Vec3 ℝ) bookIDX = some g := by
  refine ⟨by decide, buildGraph_isSome _ _ _ ?_⟩
  intro p t hp
  have hlt : p < 4 := (List.getElem?_eq_some_iff.mp hp).1
  interval_cases p <;> simp [bookIDX] at hp <;> subst hp <;> decide

/-- C9 (amended). An edge incident to more than four triangles makes graph
construction fail: each triangle on it gets at least four neighbour entries
and the assertion `nebMeshes.size() == 3` is violated. -/
theorem C9_crowded_edge_is_rejected {α : Type} [LinearOrderedField α] (N : Numerics α)
    (V : Int → Vec3 α) (IDX : List (Int × Int × Int)) (e : Int × Int)
    (h : 4 < incidentTriangles IDX e) : buildGraph N V IDX = none :=
  buildGraph_none_of_crowded N V IDX e h

/-- C9 (amended) on five triangles around the edge (0,1). -/
theorem C9_crowded_edge_is_rejected_witness :
    4 < incidentTriangles fiveIDX (0, 1) ∧
      buildGraph (exactNumerics Real.sqrt) (bookV : Int → Vec3 ℝ) fiveIDX = none :=
  ⟨by decide, C9_crowded_edge_is_rejected _ _ fiveIDX (0, 1) (by decide)⟩

/-- C10 fails on a single triangle: its edge (0,1) is incident to that
triangle only, no edge has more than two incident triangles, and graph
construction fails. -/
theorem C10_single_triangle_is_rejected :
    hasEdge (0, 1, 2) (0, 1) = true ∧ incidentTriangles oneIDX (0, 1) = 1 ∧
      (∀ e, incidentTriangles oneIDX e ≤ 2) ∧
      buildGraph (exactNumerics Real.sqrt) (rightV : Int → Vec3 ℝ) oneIDX = none := by
  refine ⟨by decide, by decide, fun e => ?_, ?_⟩
  · exact le_trans (incidentTriangles_le_length oneIDX e) (by decide)
  · exact buildGraph_eq_none _ _ oneIDX 0 (0, 1, 2) rfl (by decide)

/-- C10 (amended). Boundary edges are asserted away: in a mesh whose triangles
have three distinct vertex ids and in which no edge has more than two incident
triangles, a triangle with an edge incident to that triangle only gets fewer
than three neighbour entries and graph construction fails. -/
theorem C10_boundary_edge_is_rejected {α : Type} [LinearOrderedField α] (N : Numerics α)
    (V : Int → Vec3 α) (IDX : List (Int × Int × Int)) (hd : ∀ t ∈ IDX, DistinctIds t)
    (hle : ∀ e, incidentTriangles IDX e ≤ 2) (p : Nat) (t : Int × Int × Int)
    (hp : IDX[p]? = some t) (e : Int × Int) (he : hasEdge t e = true)
    (hone : incidentTriangles IDX e = 1) : buildGraph N V IDX = none :=
  buildGraph_none_of_boundary N V IDX hd hle p t hp e he hone

/-- C10 (amended) on two triangles that share one edge. -/
theorem C10_boundary_edge_is_rejected_witness :
    incidentTriangles quadIDX (0, 1) = 1 ∧
      buildGraph (exactNumerics Real.sqrt) (bookV : Int → Vec3 ℝ) quadIDX = none :=
  ⟨by decide, C10_boundary_edge_is_rejected _ _ quadIDX
    (by
      intro t ht
      simp only [quadIDX, List.mem_cons, List.mem_singleton, List.not_mem_nil, or_false] at ht
      rcases ht with rfl | rfl <;> simp [DistinctIds])
    (fun e => le_trans (incidentTriangles_le_length quadIDX e) (by decide))
    0 (0, 1, 2) rfl (0, 1) (by decide) (by decide)⟩

end GraphClaims

section SeedClaims

theorem right_vid2v (k : Int) (hk : k = 0 ∨ k = 1 ∨ k = 2) :
    (deref (rightMeshes : List (Mesh ℝ)) 0).vid2v k = rightV k :=
  mk3_vid2v 0 rightV 0 1 2 k hk

theorem right_sides :
    Vec3.norm (exactNumerics Real.sqrt)
        (Vec3.sub ((deref (rightMeshes : List (Mesh ℝ)) 0).vid2v 0)
          ((deref (rightMeshes : List (Mesh ℝ)) 0).vid2v 1)) = 3 ∧
      Vec3.norm (exactNumerics Real.sqrt)
        (Vec3.sub ((deref (rightMeshes : List (Mesh ℝ)) 0).vid2v 0)
          ((deref (rightMeshes : List (Mesh ℝ)) 0).vid2v 2)) = 4 ∧
      Vec3.norm (exactNumerics Real.sqrt)
        (Vec3.sub ((deref (rightMeshes : List (Mesh ℝ)) 0).vid2v 1)
          ((deref (rightMeshes : List (Mesh ℝ)) 0).vid2v 2)) = 5 := by
  rw [right_vid2v 0 (by decide), right_vid2v 1 (by decide), right_vid2v 2 (by decide)]
  exact ⟨norm_of_sq_eq _ rfl _ 3 (by norm_num) (by norm_num [rightV, Vec3.sub, Vec3.squaredNorm]),
    norm_of_sq_eq _ rfl _ 4 (by norm_num) (by norm_num [rightV, Vec3.sub, Vec3.squaredNorm]),
    norm_of_sq_eq _ rfl _ 5 (by norm_num) (by norm_num [rightV, Vec3.sub, Vec3.squaredNorm])⟩

/-- C6 fails on the right triangle `(0,0,0), (3,0,0), (0,4,0)`: its sides are
3, 4, 5 with `|v1v2| = 3`, and the seed puts `v3` on `(-4, 0)`, which is
neither `(2.4, 1.8)` nor `(-2.4, 1.8)`. -/
theorem C6_seed_of_right_triangle_is_not_as_stated :
    (Vec3.norm (exactNumerics Real.sqrt)
        (Vec3.sub ((deref (rightMeshes : List (Mesh ℝ)) 0).vid2v 0)
          ((deref (rightMeshes : List (Mesh ℝ)) 0).vid2v 1)) = 3 ∧
      Vec3.norm (exactNumerics Real.sqrt)
        (Vec3.sub ((deref (rightMeshes : List (Mesh ℝ)) 0).vid2v 0)
          ((deref (rightMeshes : List (Mesh ℝ)) 0).vid2v 2)) = 4 ∧
      Vec3.norm (exactNumerics Real.sqrt)
        (Vec3.sub ((deref (rightMeshes : List (Mesh ℝ)) 0).vid2v 1)
          ((deref (rightMeshes : List (Mesh ℝ)) 0).vid2v 2)) = 5) ∧
    (deref (flattenFirst (exactNumerics Real.sqrt) (rightMeshes : List (Mesh ℝ)) 0 []).2 0).vid2fv 2
      ≠ ⟨12 / 5, 9 / 5, 0⟩ ∧
    (deref (flattenFirst (exactNumerics Real.sqrt) (rightMeshes : List (Mesh ℝ)) 0 []).2 0).vid2fv 2
      ≠ ⟨-12 / 5, 9 / 5, 0⟩ := by
  have h := (flattenFirst_345 (exactNumerics Real.sqrt) rfl (rightMeshes : List (Mesh ℝ)) 0 0 1 2
    (by simp [rightMeshes]) rfl 4 5 right_sides.1 right_sides.2.1 right_sides.2.2
    (Or.inl ⟨rfl, rfl⟩)).2.2.1
  rw [if_pos rfl] at h
  refine ⟨right_sides, ?_, ?_⟩
  · rw [h]
    intro hne
    have := congrArg Vec3.x hne
    norm_num at this
  · rw [h]
    intro hne
    have := congrArg Vec3.x hne
    norm_num at this

/-- C6 (amended). Seeding a triangle whose 3D side lengths are 3, 4, 5 with
`|v1v2| = 3` yields the planar positions `v1 = (0,0)`, `v2 = (0,3)` and
`v3 = (-4, 0)` when `|v1v3| = 4`, `v3 = (-4, 3)` when `|v1v3| = 5`; the three
planar edge lengths equal the 3D ones. -/
theorem C6_seed_of_345_triangle (N : Numerics ℝ) (hs : N.sqrt = Real.sqrt)
    (meshes : List (Mesh ℝ)) (mesh : Nat) (v1 v2 v3 : Int) (hmesh : mesh < meshes.length)
    (hvids : (deref meshes mesh).vids = [v1, v2, v3]) (d13 d23 : ℝ)
    (h12 : Vec3.norm N (Vec3.sub ((deref meshes mesh).vid2v v1) ((deref meshes mesh).vid2v v2)) = 3)
    (h13 : Vec3.norm N (Vec3.sub ((deref meshes mesh).vid2v v1) ((deref meshes mesh).vid2v v3))
      = d13)
    (h23 : Vec3.norm N (Vec3.sub ((deref meshes mesh).vid2v v2) ((deref meshes mesh).vid2v v3))
      = d23)
    (hcase : (d13 = 4 ∧ d23 = 5) ∨ (d13 = 5 ∧ d23 = 4)) :
    (deref (flattenFirst N meshes mesh []).2 mesh).vid2fv v1 = ⟨0, 0, 0⟩ ∧
    (deref (flattenFirst N meshes mesh []).2 mesh).vid2fv v2 = ⟨0, 3, 0⟩ ∧
    (deref (flattenFirst N meshes mesh []).2 mesh).vid2fv v3
      = ⟨-4, if d13 = 4 then 0 else 3, 0⟩ ∧
    Vec3.norm N (Vec3.sub ((deref (flattenFirst N meshes mesh []).2 mesh).vid2fv v1)
      ((deref (flattenFirst N meshes mesh []).2 mesh).vid2fv v2)) = 3 ∧
    Vec3.norm N (Vec3.sub ((deref (flattenFirst N meshes mesh []).2 mesh).vid2fv v1)
      ((deref (flattenFirst N meshes mesh []).2 mesh).vid2fv v3)) = d13 ∧
    Vec3.norm N (Vec3.sub ((deref (flattenFirst N meshes mesh []).2 mesh).vid2fv v2)
      ((deref (flattenFirst N meshes mesh []).2 mesh).vid2fv v3)) = d23 :=
  flattenFirst_345 N hs meshes mesh v1 v2 v3 hmesh hvids d13 d23 h12 h13 h23 hcase

/-- C6 (amended) on the right triangle `(0,0,0), (3,0,0), (0,4,0)`. -/
theorem C6_seed_of_345_triangle_witness :
    (deref (flattenFirst (exactNumerics Real.sqrt) (rightMeshes : List (Mesh ℝ)) 0 []).2 0).vid2fv 1
      = ⟨0, 3, 0⟩ :=
  (C6_seed_of_345_triangle (exactNumerics Real.sqrt) rfl (rightMeshes : List (Mesh ℝ)) 0 0 1 2
    (by simp [rightMeshes]) rfl 4 5 right_sides.1 right_sides.2.1 right_sides.2.2
    (Or.inl ⟨rfl, rfl⟩)).2.1

end SeedClaims

/-! ## Claims about the adjacency pass and the edge map -/

section AdjacencyClaims

/-- C11 fails on a mesh with degenerate triangles: graph construction succeeds
on `(0,1,2), (0,1,0), (0,0,3), (0,3,2)`, triangle 0 has three distinct vertex
ids, and its neighbour list holds triangle 1 twice across the edge (0,1),
whereas the list of the other triangles having each edge holds it once. -/
theorem C11_repeated_neighbour_on_degenerate_mesh :
    DistinctIds ((0, 1, 2) : Int × Int × Int) ∧ degIDX[0]? = some (0, 1, 2) ∧
    ∃ g, buildGraph (exactNumerics Real.sqrt) (bookV : Int → Vec3 ℝ) degIDX = some g ∧
      (deref g.meshes 0).nebMeshes = [(1, (0, 1)), (1, (0, 1)), (3, (0, 2))] ∧
      specNebs degIDX 0 (0, 1, 2) = [(1, (0, 1)), (3, (0, 2))] ∧
      (deref g.meshes 0).nebMeshes ≠ specNebs degIDX 0 (0, 1, 2) := by
  refine ⟨by simp [DistinctIds], rfl, ?_⟩
  obtain ⟨g, hg⟩ := buildGraph_isSome (exactNumerics Real.sqrt) (bookV : Int → Vec3 ℝ) degIDX
    (by
      intro p t hp
      have hlt : p < 4 := (List.getElem?_eq_some_iff.mp hp).1
      interval_cases p <;> simp [degIDX] at hp <;> subst hp <;> decide)
  have h0 := buildGraph_nebMeshes _ _ degIDX g hg 0 (0, 1, 2) rfl
  have h1 : nebsOf (incidentFrom 0 degIDX) 0 0 1 2 = [(1, (0, 1)), (1, (0, 1)), (3, (0, 2))] := by
    decide
  have h2 : specNebs degIDX 0 (0, 1, 2) = [(1, (0, 1)), (3, (0, 2))] := by decide
  refine ⟨g, hg, h0.trans h1, h2, ?_⟩
  rw [h0.trans h1, h2]
  decide

/-- C11 (amended). After the adjacency pass on an index buffer in which every
triangle has three distinct vertex ids, the neighbour list of a triangle
`T = (v1, v2, v3)` is, for its edges in the order `(v1,v2)`, `(v2,v3)`,
`(v1,v3)` and within each edge in registration order, every triangle other than
`T` that has that edge, paired with the key `(min id, max id)`; `T` is not in
its own list. -/
theorem C11_neighbour_lists {α : Type} [LinearOrderedField α] (N : Numerics α)
    (V : Int → Vec3 α) (IDX : List (Int × Int × Int)) (g : FlattenObject α)
    (hg : buildGraph N V IDX = some g) (hd : ∀ t ∈ IDX, DistinctIds t) (p : Nat)
    (t : Int × Int × Int) (hp : IDX[p]? = some t) :
    (deref g.meshes p).nebMeshes = specNebs IDX p t ∧
      ∀ e, (p, e) ∉ (deref g.meshes p).nebMeshes := by
  refine ⟨?_, fun e he => ?_⟩
  · rw [buildGraph_nebMeshes N V IDX g hg p t hp, nebsOf_eq_spec IDX hd]
  · obtain ⟨_, _, _, _, hne, _⟩ := buildGraph_nebs N V IDX g hg p p e he
    exact hne rfl

theorem kite_distinct : ∀ t ∈ kiteIDX, DistinctIds t := by
  intro t ht
  simp only [kiteIDX, List.mem_cons, List.mem_singleton, List.not_mem_nil, or_false] at ht
  rcases ht with rfl | rfl | rfl | rfl <;> simp [DistinctIds]

/-- C11 (amended) on triangle 1 of the kite. -/
theorem C11_neighbour_lists_witness :
    (deref (kiteMeshes : List (Mesh ℝ)) 1).nebMeshes = specNebs kiteIDX 1 (0, 1, 3) ∧
      ∀ e, (1, e) ∉ (deref (kiteMeshes : List (Mesh ℝ)) 1).nebMeshes := by
  obtain ⟨g, hg, hm⟩ := kite_graph (exactNumerics Real.sqrt)
  have h := C11_neighbour_lists (exactNumerics Real.sqrt) kiteV kiteIDX g hg kite_distinct 1
    (0, 1, 3) rfl
  rw [hm] at h
  exact h

/-- C12. A closed manifold gives exactly three neighbours: when every triangle
of the index buffer has three distinct vertex ids and every edge of every
triangle is incident to exactly two triangles, graph construction succeeds
(the assertion holds for every triangle) and every neighbour list has exactly
three entries. -/
theorem C12_closed_manifold_three_neighbours {α : Type} [LinearOrderedField α] (N : Numerics α)
    (V : Int → Vec3 α) (IDX : List (Int × Int × Int)) (hd : ∀ t ∈ IDX, DistinctIds t)
    (h2 : ∀ t ∈ IDX, ∀ e, hasEdge t e = true → incidentTriangles IDX e = 2) :
    ∃ g, buildGraph N V IDX = some g ∧
      ∀ p, p < IDX.length → (deref g.meshes p).nebMeshes.length = 3 := by
  obtain ⟨g, hg⟩ := buildGraph_isSome N V IDX
    (fun p t hp => nebsOf_length_of_closed IDX hd h2 p t hp)
  refine ⟨g, hg, fun p hp => ?_⟩
  have ht : IDX[p]? = some IDX[p] := List.getElem?_eq_getElem hp
  rw [buildGraph_nebMeshes N V IDX g hg p _ ht]
  exact nebsOf_length_of_closed IDX hd h2 p _ ht

theorem kite_closed : ∀ t ∈ kiteIDX, ∀ e, hasEdge t e = true → incidentTriangles kiteIDX e = 2 := by
  intro t ht e he
  rw [hasEdge_iff] at he
  simp only [kiteIDX, List.mem_cons, List.mem_singleton, List.not_mem_nil, or_false] at ht
  rcases ht with rfl | rfl | rfl | rfl <;> rcases he with rfl | rfl | rfl <;> decide

/-- C12 on the kite. -/
theorem C12_closed_manifold_three_neighbours_witness :
    ∃ g, buildGraph (exactNumerics Real.sqrt) (kiteV : Int → Vec3 ℝ) kiteIDX = some g ∧
      ∀ p, p < kiteIDX.length → (deref g.meshes p).nebMeshes.length = 3 :=
  C12_closed_manifold_three_neighbours (exactNumerics Real.sqrt) kiteV kiteIDX kite_distinct
    kite_closed

/-- C13. The edge map: `addEdge` uses the key `(min, max)` of the two ids, so
both orders of the ends give the same update; after the registration loop the
mesh list of a key holds exactly the triangles that have that edge (in
registration order, each once, when all vertex ids are distinct), and the
weight of the key of every registered edge is the 3D distance of its two ends;
a weight is written by the first insertion of its key and kept by every later
insertion. -/
theorem C13_edge_map {α : Type} [LinearOrderedField α] (N : Numerics α) (V : Int → Vec3 α)
    (IDX : List (Int × Int × Int)) :
    (∀ v1 v2 : Int, edgeKey v1 v2 = (min v1 v2, max v1 v2)) ∧
    (∀ (obj : FlattenObject α) (v1 v2 : Int) (m : Nat),
      addEdge N obj v1 v2 m = addEdge N obj v2 v1 m) ∧
    (∀ (e : Int × Int) (i : Nat),
      i ∈ (registerTriangles N IDX (FlattenObject.init V)).edge2meshes e ↔
        ∃ t, IDX[i]? = some t ∧ hasEdge t e = true) ∧
    ((∀ t ∈ IDX, DistinctIds t) → ∀ e : Int × Int,
      (registerTriangles N IDX (FlattenObject.init V)).edge2meshes e = trianglesOn 0 IDX e) ∧
    (∀ e : Int × Int, (∃ t ∈ IDX, hasEdge t e = true) →
      (registerTriangles N IDX (FlattenObject.init V)).edge2weight e
        = some (Vec3.norm N (Vec3.sub (V e.1) (V e.2)))) ∧
    (∀ (obj : FlattenObject α) (v1 v2 : Int) (m : Nat),
      obj.edge2weight (edgeKey v1 v2) = none →
      (addEdge N obj v1 v2 m).edge2weight (edgeKey v1 v2)
        = some (Vec3.norm N (Vec3.sub (obj.V v1) (obj.V v2)))) ∧
    (∀ (obj : FlattenObject α) (v1 v2 : Int) (m : Nat) (e : Int × Int) (w : α),
      obj.edge2weight e = some w → (addEdge N obj v1 v2 m).edge2weight e = some w) := by
  have hreg : ∀ e, (registerTriangles N IDX (FlattenObject.init V)).edge2meshes e
      = incidentFrom 0 IDX e := by
    intro e
    have h := (registerTriangles_spec N IDX (FlattenObject.init V)).2.1 e
    simp only [FlattenObject.init, List.nil_append, List.length_nil] at h
    rw [FlattenObject.init, h]
  refine ⟨edgeKey_eq_min_max, addEdge_comm N, ?_, ?_, ?_, addEdge_weight_first N,
    addEdge_weight_keep N⟩
  · intro e i
    rw [hreg e]
    exact mem_incidentFrom_iff IDX e i
  · intro hd e
    rw [hreg e]
    exact incidentFrom_eq_trianglesOn IDX e hd 0
  · rintro e ⟨t, ht, he⟩
    obtain ⟨-, k2, k3⟩ := registerTriangles_weight N IDX (FlattenObject.init V)
      (fun e w hw => by simp [FlattenObject.init] at hw)
    obtain ⟨w, hw⟩ := Option.isSome_iff_exists.mp (k3 t ht e he)
    rw [hw, k2 e w hw]
    rfl

/-- C13 on the kite: the weight of the edge (0,1) is the distance of the
vertices 0 and 1. -/
theorem C13_edge_map_witness :
    (registerTriangles (exactNumerics Real.sqrt) kiteIDX
        (FlattenObject.init (kiteV : Int → Vec3 ℝ))).edge2weight (0, 1)
      = some (Vec3.norm (exactNumerics Real.sqrt) (Vec3.sub (kiteV 0) (kiteV 1))) :=
  (C13_edge_map (exactNumerics Real.sqrt) (kiteV : Int → Vec3 ℝ) kiteIDX).2.2.2.2.1 (0, 1)
    ⟨(0, 1, 2), by simp [kiteIDX], by decide⟩

end AdjacencyClaims

/-! ## Claims about the overlap predicates -/

section PredicateClaims

/-- C17. The function `overlap` returns true exactly when some triangle of the
flattened set contains the candidate (`isInside`) or has one of its three flat
edges crossed by the segment from the candidate to one of the two fixed points
(`lineCross`); the result is the same for every order of iteration over the
flattened set. -/
theorem C17_overlap_iff {α : Type} [LinearOrderedField α] (N : Numerics α) (ms : List (Mesh α))
    (cand fixedA fixedB : Vec3 α) (flattened : List Nat) :
    (overlap N ms cand fixedA fixedB flattened = true ↔
      ∃ p ∈ flattened, isInside N cand (deref ms p) = true ∨
        lineCrossMesh N cand fixedA (deref ms p) = true ∨
        lineCrossMesh N cand fixedB (deref ms p) = true) ∧
    (∀ (x y : Vec3 α) (m : Mesh α), lineCrossMesh N x y m = true ↔
      lineCross N x y m.corners.1 m.corners.2.1 = true ∨
      lineCross N x y m.corners.2.1 m.corners.2.2 = true ∨
      lineCross N x y m.corners.1 m.corners.2.2 = true) ∧
    (∀ other : List Nat, other.Perm flattened →
      overlap N ms cand fixedA fixedB other = overlap N ms cand fixedA fixedB flattened) := by
  refine ⟨?_, ?_, ?_⟩
  · simp only [overlap, List.any_eq_true, Bool.or_eq_true, or_assoc]
  · intro x y m
    rw [lineCrossMesh_eq]
    simp only [Bool.or_eq_true, or_assoc]
  · intro other hperm
    rw [Bool.eq_iff_iff]
    simp only [overlap, List.any_eq_true]
    exact ⟨fun ⟨p, hp, h⟩ => ⟨p, hperm.mem_iff.mp hp, h⟩,
      fun ⟨p, hp, h⟩ => ⟨p, hperm.mem_iff.mpr hp, h⟩⟩

/-- C17 on a store with one mesh and two orders of a flattened set. -/
theorem C17_overlap_iff_witness :
    overlap (exactNumerics Real.sqrt) ([flatMesh, flatMesh] : List (Mesh ℝ)) ⟨1, 1, 0⟩ ⟨0, 0, 0⟩
        ⟨4, 0, 0⟩ [1, 0]
      = overlap (exactNumerics Real.sqrt) ([flatMesh, flatMesh] : List (Mesh ℝ)) ⟨1, 1, 0⟩ ⟨0, 0, 0⟩
        ⟨4, 0, 0⟩ [0, 1] :=
  (C17_overlap_iff (exactNumerics Real.sqrt) ([flatMesh, flatMesh] : List (Mesh ℝ)) ⟨1, 1, 0⟩
    ⟨0, 0, 0⟩ ⟨4, 0, 0⟩ [0, 1]).2.2 [1, 0] (List.Perm.swap 0 1 [])

end PredicateClaims

/-! ## Claims about the traversal as a whole -/

section TraversalClaims

/-- C18. Determinism: the result of the constructor (flattened set and flat
positions of every triangle) is the same wherever the mesh objects live, that
is for every address order in which `overlap` iterates over the set of
flattened meshes; it is the result of the run that iterates in insertion
order, a function of the vertex buffer and the index buffer alone. -/
theorem C18_run_is_deterministic {α : Type} [LinearOrderedField α] (N : Numerics α)
    (V : Int → Vec3 α) (IDX : List (Int × Int × Int)) (addr addr' : Nat → Nat) :
    FlattenObject.ctorAt addr N V IDX = FlattenObject.ctorAt addr' N V IDX ∧
      FlattenObject.ctorAt addr N V IDX = FlattenObject.ctor N V IDX :=
  ⟨(ctorAt_eq addr N V IDX).trans (ctorAt_eq addr' N V IDX).symm, ctorAt_eq addr N V IDX⟩

/-- C19. Termination: on a built graph with `n` triangles, all with three
distinct vertex ids, the traversal returns within `n` iterations of the loop
body (and with any larger bound gives the same result); the queue is then
empty, and no triangle was pushed twice: the flattened list, which records the
pushes, has no repetition and at most `n` entries. -/
theorem C19_traversal_terminates {α : Type} [LinearOrderedField α] (N : Numerics α)
    (V : Int → Vec3 α) (IDX : List (Int × Int × Int)) (g : FlattenObject α)
    (hg : buildGraph N V IDX = some g) (hne : IDX ≠ []) (hd : ∀ t ∈ IDX, DistinctIds t) :
    ∃ st, FlattenObject.ctor N V IDX = some st ∧
      bfs N IDX.length ⟨(flattenFirst N g.meshes 0 []).2, [0], [0]⟩ = some st ∧
      (∀ k, bfs N (IDX.length + k) ⟨(flattenFirst N g.meshes 0 []).2, [0], [0]⟩ = some st) ∧
      st.q = [] ∧ st.flattened.Nodup ∧ st.flattened.length ≤ IDX.length :=
  ctor_total N V IDX g hg hne hd

/-- C19 on the kite. -/
theorem C19_traversal_terminates_witness :
    ∃ st, FlattenObject.ctor (exactNumerics Real.sqrt) (kiteV : Int → Vec3 ℝ) kiteIDX = some st ∧
      bfs (exactNumerics Real.sqrt) kiteIDX.length
        ⟨(flattenFirst (exactNumerics Real.sqrt) (kiteMeshes : List (Mesh ℝ)) 0 []).2, [0], [0]⟩
          = some st ∧
      (∀ k, bfs (exactNumerics Real.sqrt) (kiteIDX.length + k)
        ⟨(flattenFirst (exactNumerics Real.sqrt) (kiteMeshes : List (Mesh ℝ)) 0 []).2, [0], [0]⟩
          = some st) ∧
      st.q = [] ∧ st.flattened.Nodup ∧ st.flattened.length ≤ kiteIDX.length := by
  obtain ⟨g, hg, hm⟩ := kite_graph (exactNumerics Real.sqrt)
  have h := C19_traversal_terminates (exactNumerics Real.sqrt) (kiteV : Int → Vec3 ℝ) kiteIDX g hg
    (by simp [kiteIDX]) kite_distinct
  rw [hm] at h
  exact h

/-- C20. Flattened is terminal: one pass of the inner loop, and the rest of the
run from any state, only append to the flattened set and leave every mesh that
is already in it as it was, its three flat positions included; `flattenMesh`
writes to its target mesh only, and the loop skips a neighbour that is in the
flattened set without calling it. -/
theorem C20_flattened_is_terminal {α : Type} [LinearOrderedField α] (N : Numerics α) :
    (∀ (curMesh : Nat) (nebs : List (Nat × (Int × Int))) (st st' : Bfs α),
      visitNeighbours N curMesh nebs st = some st' →
      st.flattened <+: st'.flattened ∧
        ∀ p ∈ st.flattened, deref st'.meshes p = deref st.meshes p) ∧
    (∀ (fuel : Nat) (st st' : Bfs α), bfs N fuel st = some st' →
      st.flattened <+: st'.flattened ∧
        ∀ p ∈ st.flattened, deref st'.meshes p = deref st.meshes p) ∧
    (∀ (ms ms' : List (Mesh α)) (T n : Nat) (e : Int × Int) (fl : List Nat) (ok : Bool),
      flattenMesh N ms T n e fl = some (ok, ms') → ∀ p, n ≠ p → deref ms' p = deref ms p) ∧
    (∀ (curMesh nebMesh : Nat) (edge : Int × Int) (rest : List (Nat × (Int × Int)))
      (st : Bfs α), nebMesh ∈ st.flattened →
      visitNeighbours N curMesh ((nebMesh, edge) :: rest) st
        = visitNeighbours N curMesh rest st) := by
  refine ⟨visitNeighbours_terminal N, bfs_terminal N, ?_, ?_⟩
  · intro ms ms' T n e fl ok h
    exact (flattenMesh_sameShape N ms ms' T n e fl ok h).2
  · intro curMesh nebMesh edge rest st h
    simp only [visitNeighbours, if_pos h]

/-- The traversal of the kite from the seeded store. -/
theorem kite_bfs :
    bfs (exactNumerics Real.sqrt) 4 ⟨(kite1 : List (Mesh ℝ)), [0], [0]⟩
      = some ⟨kite4, [0, 1, 2, 3], []⟩ := by
  obtain ⟨g, hg, -, hb⟩ := ctor_some _ _ _ _ kite_run
  obtain ⟨g', hg', hm⟩ := kite_graph (exactNumerics Real.sqrt)
  rw [hg'] at hg
  cases hg
  rw [hm, kite_seed] at hb
  have hl : (kite1 : List (Mesh ℝ)).length = 4 := by
    simp [kite1, placed, length_setFlat, kite_length]
  simp only [hl] at hb
  exact hb

/-- C20 on the kite: the seed triangle is the same at the end of the run as
after its placement. -/
theorem C20_flattened_is_terminal_witness :
    deref (kite4 : List (Mesh ℝ)) 0 = deref (kite1 : List (Mesh ℝ)) 0 :=
  ((C20_flattened_is_terminal (exactNumerics Real.sqrt)).2.1 4 ⟨kite1, [0], [0]⟩
    ⟨kite4, [0, 1, 2, 3], []⟩ kite_bfs).2 0 (by simp)

end TraversalClaims

/-! ## Claims about the triangle solver -/

section SolverClaims

/-- C25. A zero-area triangle is placed without failing: when `v1, v2, v3` are
collinear and `|v1v2| > 0` the solver has `h = 0` and both candidates are the
foot point `F = P1 + (b/L)(P2 - P1)`, a point of the line `P1 P2`. -/
theorem C25_degenerate_triangle (N : Numerics ℝ) (hs : N.sqrt = Real.sqrt)
    (v1 v2 v3 P1 P2 : Vec3 ℝ) (hL : 0 < Vec3.norm N (Vec3.sub v2 v1))
    (hcol : Vec3.cross (Vec3.sub v2 v1) (Vec3.sub v3 v1) = Vec3.zero) :
    solverH N v1 v2 v3 = 0 ∧
    (flatCandidates N v1 v2 v3 P1 P2).1 = solverFoot N v1 v2 v3 P1 P2 ∧
    (flatCandidates N v1 v2 v3 P1 P2).2 = solverFoot N v1 v2 v3 P1 P2 ∧
    solverFoot N v1 v2 v3 P1 P2
      = Vec3.add P1 (Vec3.smul (solverB N v1 v2 v3 / Vec3.norm N (Vec3.sub v2 v1))
          (Vec3.sub P2 P1)) := by
  have h0 : solverH N v1 v2 v3 = 0 := by
    simp [solverH, hcol, Vec3.norm, hs, Vec3.zero, Vec3.squaredNorm]
  refine ⟨h0, ?_, ?_, solverFoot_eq N v1 v2 v3 P1 P2 (ne_of_gt hL)⟩
  · rw [flatCandidates_eq_parts, h0]
    simp [Vec3.add, Vec3.smul]
  · rw [flatCandidates_eq_parts, h0]
    simp [Vec3.add, Vec3.smul]

/-- C25 on three points of the x axis. -/
theorem C25_degenerate_triangle_witness :
    solverH (exactNumerics Real.sqrt) (⟨0, 0, 0⟩ : Vec3 ℝ) ⟨2, 0, 0⟩ ⟨1, 0, 0⟩ = 0 :=
  (C25_degenerate_triangle (exactNumerics Real.sqrt) rfl ⟨0, 0, 0⟩ ⟨2, 0, 0⟩ ⟨1, 0, 0⟩
    ⟨0, 0, 0⟩ ⟨0, 2, 0⟩ (Real.sqrt_pos.mpr (by norm_num [Vec3.squaredNorm, Vec3.sub]))
    (by norm_num [Vec3.cross, Vec3.sub, Vec3.zero])).1

end SolverClaims

/-! ## Claims about the overlap test on placed vertices, the cube and the object buffer -/

section BufferClaims

theorem mem_edgeKeysOf (IDX : List (Int × Int × Int)) (t : Int × Int × Int) (ht : t ∈ IDX)
    (e : Int × Int) (he : hasEdge t e = true) : e ∈ edgeKeysOf IDX := by
  induction IDX with
  | nil => simp at ht
  | cons t0 rest ih =>
    simp only [edgeKeysOf, List.mem_cons]
    rcases List.mem_cons.mp ht with rfl | ht
    · rw [hasEdge_iff] at he
      rcases he with h | h | h
      · exact Or.inl h
      · exact Or.inr (Or.inl h)
      · exact Or.inr (Or.inr (Or.inl h))
    · exact Or.inr (Or.inr (Or.inr (ih ht)))

/-- C28. The index buffer of the built-in cube is a closed manifold: its twelve
triangles have three distinct vertex ids each, they have 18 edges, each
incident to exactly two triangles; so graph construction succeeds on it for
every vertex buffer (every assertion holds) and every triangle gets exactly
three neighbours. -/
theorem C28_cube_is_a_closed_manifold {α : Type} [LinearOrderedField α] (N : Numerics α)
    (V : Int → Vec3 α) :
    cubeIDX.length = 12 ∧ (∀ t ∈ cubeIDX, DistinctIds t) ∧
    (edgeKeysOf cubeIDX).dedup.length = 18 ∧
    (∀ e ∈ edgeKeysOf cubeIDX, incidentTriangles cubeIDX e = 2) ∧
    ∃ g, buildGraph N V cubeIDX = some g ∧
      ∀ p, p < 12 → (deref g.meshes p).nebMeshes.length = 3 := by
  have hd : ∀ t ∈ cubeIDX, DistinctIds t := by
    intro t ht
    simp only [cubeIDX, List.mem_cons, List.mem_singleton, List.not_mem_nil, or_false] at ht
    rcases ht with rfl | rfl | rfl | rfl | rfl | rfl | rfl | rfl | rfl | rfl | rfl | rfl <;>
      simp [DistinctIds]
  have h2 : ∀ e ∈ edgeKeysOf cubeIDX, incidentTriangles cubeIDX e = 2 := by decide
  have h2' : ∀ t ∈ cubeIDX, ∀ e, hasEdge t e = true → incidentTriangles cubeIDX e = 2 :=
    fun t ht e he => h2 e (mem_edgeKeysOf cubeIDX t ht e he)
  refine ⟨rfl, hd, by decide, h2, ?_⟩
  obtain ⟨g, hg⟩ := buildGraph_isSome N V cubeIDX
    (fun p t hp => nebsOf_length_of_closed cubeIDX hd h2' p t hp)
  refine ⟨g, hg, fun p hp => ?_⟩
  have hp' : p < cubeIDX.length := hp
  have ht : cubeIDX[p]? = some cubeIDX[p] := List.getElem?_eq_getElem hp'
  rw [buildGraph_nebMeshes N V cubeIDX g hg p _ ht]
  exact nebsOf_length_of_closed cubeIDX hd h2' p _ ht

/-- C29 fails on the seventh call: the index handed to the object constructor
by the `k+1`-th call of `add_cube` or `add_object` on a fresh buffer is
`(k mod 7) + 1`, a number from 1 to 7; on the seventh call it is 7, which is
not an index into the 7-entry table `colors`. -/
theorem C29_seventh_call_is_out_of_bounds :
    colorIdxAfter 7 = 7 ∧ ¬ colorIdxAfter 7 < colorsSize ∧
      ∀ k : Nat, colorIdxAfter (k + 1) = ((k % 7 : Nat) : Int) + 1 :=
  ⟨by decide, by decide, colorIdxAfter_succ⟩

/-- C30 fails for the half turn about the unit axis `(3/5, 4/5, 0)`: the
matrix returned by `get_rotate_mat` has the entry `2yx - 2xw` in row 1,
column 2, where the rotation matrix of the quaternion has `2yz - 2xw`; its
upper-left block is not orthogonal and maps the unit vector `(0,0,1)` to a
vector of squared length `1201/625`.  The last row and the last column are
`(0,0,0,1)` for every input, and every other entry of the block is the entry
of the quaternion matrix. -/
theorem C30_rotation_matrix_is_not_orthogonal :
    (⟨3 / 5, 4 / 5, 0⟩ : Vec3 ℝ).squaredNorm = 1 ∧
    (get_rotate_mat ⟨Real.pi, Real.sin, Real.cos⟩ 180 (⟨3 / 5, 4 / 5, 0⟩ : Vec3 ℝ)).block
      = ⟨-7 / 25, 24 / 25, 0, 24 / 25, 7 / 25, 24 / 25, 0, 0, -1⟩ ∧
    quaternionMat (3 / 5 : ℝ) (4 / 5) 0 0 = ⟨-7 / 25, 24 / 25, 0, 24 / 25, 7 / 25, 0, 0, 0, -1⟩ ∧
    (get_rotate_mat ⟨Real.pi, Real.sin, Real.cos⟩ 180
      (⟨3 / 5, 4 / 5, 0⟩ : Vec3 ℝ)).block.mulTranspose ≠ Mat3.one ∧
    (Mat3.mulVec (get_rotate_mat ⟨Real.pi, Real.sin, Real.cos⟩ 180
      (⟨3 / 5, 4 / 5, 0⟩ : Vec3 ℝ)).block ⟨0, 0, 1⟩).squaredNorm = 1201 / 625 ∧
    (∀ (T : Trig ℝ) (angle : ℝ) (axis : Vec3 ℝ),
      (get_rotate_mat T angle axis).a03 = 0 ∧ (get_rotate_mat T angle axis).a13 = 0 ∧
      (get_rotate_mat T angle axis).a23 = 0 ∧ (get_rotate_mat T angle axis).a30 = 0 ∧
      (get_rotate_mat T angle axis).a31 = 0 ∧ (get_rotate_mat T angle axis).a32 = 0 ∧
      (get_rotate_mat T angle axis).a33 = 1) := by
  have hr : Real.pi / 180 * ((180 : ℝ) / 2) = Real.pi / 2 := by ring
  have hb : (get_rotate_mat ⟨Real.pi, Real.sin, Real.cos⟩ 180 (⟨3 / 5, 4 / 5, 0⟩ : Vec3 ℝ)).block
      = ⟨-7 / 25, 24 / 25, 0, 24 / 25, 7 / 25, 24 / 25, 0, 0, -1⟩ := by
    simp only [get_rotate_mat, Mat4.block, hr, Real.sin_pi_div_two, Real.cos_pi_div_two,
      Mat3.mk.injEq]
    norm_num
  refine ⟨by norm_num [Vec3.squaredNorm], hb, ?_, ?_, ?_, ?_⟩
  · simp only [quaternionMat, Mat3.mk.injEq]
    norm_num
  · rw [hb]
    intro h
    have := congrArg Mat3.a11 h
    norm_num [Mat3.mulTranspose, Mat3.one] at this
  · rw [hb]
    norm_num [Mat3.mulVec, Vec3.squaredNorm]
  · intro T angle axis
    simp [get_rotate_mat]

end BufferClaims

/-! ## Claims about the output of a run -/

section OutputClaims

/-- C21 fails on the book: the run completes with the triangles 0 and 1
flattened and the triangles 2 and 3 not, and the vertex buffer written for
triangle 2 holds planar coordinates all the same, three times `(0,0,0)`; the
output has an entry for each of the four triangles. -/
theorem C21_unflattened_face_is_in_the_output :
    FlattenObject.ctor (exactNumerics Real.sqrt) (bookV : Int → Vec3 ℝ) bookIDX
      = some ⟨book2, [0, 1], []⟩ ∧
    2 ∉ [0, 1] ∧ (updateAll (book2 : List (Mesh ℝ))).length = 4 ∧
    (updateAll (book2 : List (Mesh ℝ)))[2]? = some (⟨0, 0, 0⟩, ⟨0, 0, 0⟩, ⟨0, 0, 0⟩) := by
  have h := ctor_output (exactNumerics Real.sqrt) (bookV : Int → Vec3 ℝ) bookIDX _ book_run
  exact ⟨book_run, by decide, h.1, h.2 2 (by decide) (by decide)⟩

/-- C21 (amended). When a run completes, the constructor writes a vertex buffer
for every triangle, flattened or not; a triangle outside the flattened set
keeps the three zero positions its constructor wrote, and its buffer holds
three times `(0,0,0)`. -/
theorem C21_output_of_unflattened_faces {α : Type} [LinearOrderedField α] (N : Numerics α)
    (V : Int → Vec3 α) (IDX : List (Int × Int × Int)) (st : Bfs α)
    (hrun : FlattenObject.ctor N V IDX = some st) :
    (updateAll st.meshes).length = IDX.length ∧
    ∀ p, p < IDX.length → p ∉ st.flattened →
      (updateAll st.meshes)[p]? = some (Vec3.zero, Vec3.zero, Vec3.zero) :=
  ctor_output N V IDX st hrun

/-- C21 (amended) on triangle 3 of the book. -/
theorem C21_output_of_unflattened_faces_witness :
    (updateAll (book2 : List (Mesh ℝ)))[3]? = some (Vec3.zero, Vec3.zero, Vec3.zero) :=
  (C21_output_of_unflattened_faces (exactNumerics Real.sqrt) (bookV : Int → Vec3 ℝ) bookIDX
    ⟨book2, [0, 1], []⟩ book_run).2 3 (by decide) (by decide)

end OutputClaims

/-! ## The regular tetrahedron -/

section TetrahedronClaims

/-- C22. Regular tetrahedron: for four points `V 0 .. V 3` at the same positive
distance from one another (squared distance `q`) and the faces `(0,1,2)`,
`(0,1,3)`, `(1,2,3)`, `(0,2,3)`, the constructor returns, in exact real
arithmetic, with all four faces flattened (the flattened set is `0, 1, 2, 3`,
the store is `tet4` with edge length `sqrt q` and face height
`(sqrt 3 / 2) sqrt q`), and the four flat triangles have pairwise disjoint
interiors. -/
theorem C22_regular_tetrahedron_unfolds (V : Int → Vec3 ℝ) (q : ℝ)
    (h : RegularTetrahedron V q) :
    FlattenObject.ctor (exactNumerics Real.sqrt) V tetIDX
      = some ⟨tet4 V (Real.sqrt q) (Real.sqrt 3 / 2 * Real.sqrt q), [0, 1, 2, 3], []⟩ ∧
    ∀ i j : Nat, i < 4 → j < 4 → i ≠ j →
      ¬ InteriorsMeet (deref (tet4 V (Real.sqrt q) (Real.sqrt 3 / 2 * Real.sqrt q)) i)
        (deref (tet4 V (Real.sqrt q) (Real.sqrt 3 / 2 * Real.sqrt q)) j) :=
  ⟨tet_run_sqrt V q h,
    tet_disjoint V (Real.sqrt q) (Real.sqrt 3 / 2 * Real.sqrt q) (Real.sqrt_pos.mpr h.1)
      (mul_pos (div_pos (Real.sqrt_pos.mpr (by norm_num)) (by norm_num))
        (Real.sqrt_pos.mpr h.1))⟩

/-- C22 on the regular tetrahedron `(1,1,1), (1,-1,-1), (-1,1,-1), (-1,-1,1)`
of squared edge length 8: the run flattens the four faces, and the flat
triangles 0 and 2 have disjoint interiors. -/
theorem C22_regular_tetrahedron_unfolds_witness :
    RegularTetrahedron (tetV : Int → Vec3 ℝ) 8 ∧
    FlattenObject.ctor (exactNumerics Real.sqrt) (tetV : Int → Vec3 ℝ) tetIDX
      = some ⟨tet4 tetV (Real.sqrt 8) (Real.sqrt 3 / 2 * Real.sqrt 8), [0, 1, 2, 3], []⟩ ∧
    ¬ InteriorsMeet (deref (tet4 (tetV : Int → Vec3 ℝ) (Real.sqrt 8) (Real.sqrt 3 / 2 * Real.sqrt 8)) 0)
      (deref (tet4 (tetV : Int → Vec3 ℝ) (Real.sqrt 8) (Real.sqrt 3 / 2 * Real.sqrt 8)) 2) :=
  ⟨tetV_regular, (C22_regular_tetrahedron_unfolds tetV 8 tetV_regular).1,
    (C22_regular_tetrahedron_unfolds tetV 8 tetV_regular).2 0 2 (by decide) (by decide)
      (by decide)⟩

end TetrahedronClaims

end Papercraft
